import Mathlib

/-!
Verification development for the `email-archive-parser` TypeScript library
(MBOX/OLM email archive parsing and rule-based email classification).

The TypeScript sources are shallowly embedded over `List Char` ("Str"):
JavaScript strings become `Str`, regular expressions become either bespoke
scanners (mirroring the deterministic structure of each pattern) or terms of
a small backtracking regex engine whose result ordering models the JS
backtracking priority (leftmost match, greedy/lazy quantifiers, alternation
in source order).  All recursion is structural (sometimes via an explicit
fuel argument that is provably sufficient, noted at each definition), so
every definition evaluates by kernel reduction.

Modeling notes that apply globally:
- characters: JS `toLowerCase` is modeled by `Char.toLower` (the exact JS
  mapping on ASCII; non-ASCII simple case mappings are not modeled, all
  pattern alphabets in this code base are ASCII);
- whitespace: the JS `\s` class / `trim` whitespace set is modeled by the
  ASCII whitespace characters (space, tab, LF, CR, VT, FF); the additional
  Unicode space characters matched by JS are not modeled;
- numbers: JS floating point amounts are modeled by `ℚ`.  Every numeric
  comparison performed by the embedded code (`> 0`, `< 500000`, `Math.max`,
  threshold tests on small decimals) is order-isomorphic between IEEE
  doubles of the parsed decimal literals and their rational values, because
  `parseFloat` is monotone and the literals captured by the patterns have
  few significant digits;
- `Date`: JS `Date` values produced by the parsers are host functions of the
  raw header string, so the parser-side email record keeps the raw string
  (`date : Str`); detector-side emails carry an abstract epoch-milliseconds
  timestamp (`date : Int`), matching the arithmetic the detectors perform.
-/

namespace EAP

/-- JavaScript strings, embedded as lists of characters. -/
abbrev Str := List Char

/-- Converts a Lean string literal to the embedding type. -/
def lit (s : String) : Str := s.data

/-- The apostrophe character (written via its code point). -/
def apos : Char := Char.ofNat 39

/-- ASCII whitespace, modeling the JS `\s` class / `trim` set (see header). -/
def isWs (c : Char) : Bool :=
  c = ' ' || c = '\t' || c = '\n' || c = '\r' || c = '\x0b' || c = '\x0c'

/-- JS `String.prototype.toLowerCase` (ASCII fragment, see header note). -/
def lower (s : Str) : Str := s.map Char.toLower

/-- JS `String.prototype.trim`. -/
def trim (s : Str) : Str := (s.dropWhile isWs).reverse.dropWhile isWs |>.reverse

/-- Boolean string-prefix test (models JS `startsWith` and is the basic
matching step of the embedded regex scanners). -/
def isPre : Str → Str → Bool
  | [], _ => true
  | _ :: _, [] => false
  | c :: p, d :: s => if c = d then isPre p s else false

/-- JS `String.prototype.includes` (substring occurrence test). -/
def containsSub (pat : Str) : Str → Bool
  | [] => isPre pat []
  | s@(_ :: t) => isPre pat s || containsSub pat t

/-- Index of the first occurrence of `pat` (models JS `indexOf`,
`none` standing for `-1`). -/
def idxOfSub (pat : Str) : Str → Option Nat
  | [] => if isPre pat [] then some 0 else none
  | s@(_ :: t) =>
    if isPre pat s then some 0 else (idxOfSub pat t).map (· + 1)

/-- Index of the first occurrence of character `c` (JS `indexOf(char)`). -/
def idxOfCh (c : Char) : Str → Option Nat
  | [] => none
  | d :: t => if d = c then some 0 else (idxOfCh c t).map (· + 1)

/-- Greatest index `≤ i` at which `pat` occurs in `s` (the descending scan of
JS `lastIndexOf(pat, i)`; `none` standing for `-1`). -/
def lastIdxAux (pat s : Str) : Nat → Option Nat
  | 0 => if isPre pat s then some 0 else none
  | i + 1 =>
    if isPre pat (s.drop (i + 1)) then some (i + 1) else lastIdxAux pat s i

/-- JS `replace(/\s+/g, " ")`: every maximal whitespace run becomes one
space.  The Boolean argument records whether the previous character was
whitespace (start value `false`). -/
def collapseWsGo : Str → Bool → Str
  | [], _ => []
  | c :: t, inRun =>
    if isWs c then
      (if inRun then collapseWsGo t true else ' ' :: collapseWsGo t true)
    else c :: collapseWsGo t false

/-- JS `replace(/\s+/g, " ")`. -/
def collapseWs (s : Str) : Str := collapseWsGo s false

/-- JS `split(c)` for a single-character separator. -/
def splitCh (d : Char) : Str → List Str
  | [] => [[]]
  | c :: t =>
    if c = d then [] :: splitCh d t
    else
      match splitCh d t with
      | [] => [[c]]
      | r :: rs => (c :: r) :: rs

/-- JS `split` on a one-character-class regex such as `/[,;]/`:
every matching character separates. -/
def splitPred (p : Char → Bool) : Str → List Str
  | [] => [[]]
  | c :: t =>
    if p c then [] :: splitPred p t
    else
      match splitPred p t with
      | [] => [[c]]
      | r :: rs => (c :: r) :: rs

/-- JS `split` on a run regex such as `/\s+/`: each maximal run of matching
characters is a single separator.  The Boolean argument records whether the
previous character belonged to a run (start value `false`). -/
def splitRunsGo (p : Char → Bool) : Str → Bool → List Str
  | [], _ => [[]]
  | c :: t, inRun =>
    if p c then
      (if inRun then splitRunsGo p t true else [] :: splitRunsGo p t true)
    else
      match splitRunsGo p t false with
      | [] => [[c]]
      | r :: rs => (c :: r) :: rs

/-- JS `split(/\s+/)`. -/
def splitWsRuns (s : Str) : List Str := splitRunsGo isWs s false

/-- JS falsy-coalescing `a || b` on strings (empty string is falsy). -/
def jsOr (a b : Str) : Str := if a.isEmpty then b else a

/-- JS falsy test for an optional string (`undefined` and `""` are falsy). -/
def truthy : Option Str → Bool
  | none => false
  | some v => !v.isEmpty

/-- JS `a || b` where `a` is an optional (possibly `undefined`) string. -/
def jsOrOpt (a b : Option Str) : Option Str :=
  match a with
  | none => b
  | some v => if v.isEmpty then b else some v

/-- Insertion-ordered string-keyed association list: the model of a JS
object used as a dictionary (all keys here are non-numeric, so JS preserves
insertion order; assigning an existing key keeps its original position). -/
abbrev AList (β : Type) := List (Str × β)

/-- Object key lookup (`obj[k]`, `undefined` as `none`). -/
def alGet {β : Type} (m : AList β) (k : Str) : Option β :=
  (m.find? (fun p => p.1 = k)).map (·.2)

/-- Object key assignment (`obj[k] = v`): overwrites in place, else appends. -/
def alSet {β : Type} (m : AList β) (k : Str) (v : β) : AList β :=
  if m.any (fun p => p.1 = k) then
    m.map (fun p => if p.1 = k then (k, v) else p)
  else m ++ [(k, v)]

/-- Appends `extra` to the value of the last key in insertion order
(models `headers[Object.keys(headers).pop()!] += extra`; only called on
non-empty objects). -/
def alAppendLast (m : AList Str) (extra : Str) : AList Str :=
  match m.getLast? with
  | none => m
  | some (k, v) => m.dropLast ++ [(k, v ++ extra)]

/-- Decimal digit test (the regex `\d` class). -/
def isDigitCh (c : Char) : Bool := '0' ≤ c && c ≤ '9'

/-- ASCII letter test. -/
def isAlphaCh (c : Char) : Bool :=
  ('a' ≤ c && c ≤ 'z') || ('A' ≤ c && c ≤ 'Z')

/-- Word-character test (the regex `\w` class). -/
def isWordCh (c : Char) : Bool := isAlphaCh c || isDigitCh c || c = '_'

/-- Numeric value of a digit character. -/
def digitVal (c : Char) : Nat := c.toNat - '0'.toNat

/-- JS `parseFloat` on the digits-and-dot strings produced by the amount
patterns: parses a leading `digits[.digits]` prefix; `none` models `NaN`.
(Sign/exponent forms never reach `parseFloat` in this code base because the
capture alphabets exclude them.) -/
def parseFloatQ (s : Str) : Option ℚ :=
  let intPart := s.takeWhile isDigitCh
  if intPart.isEmpty then none
  else
    let ip : Nat := intPart.foldl (fun a c => a * 10 + digitVal c) 0
    match s.drop intPart.length with
    | '.' :: r =>
      let frac := r.takeWhile isDigitCh
      let fp : Nat := frac.foldl (fun a c => a * 10 + digitVal c) 0
      some (mkRat (ip * 10 ^ frac.length + fp) (10 ^ frac.length))
    | _ => some (mkRat ip 1)

/-!
A small backtracking regular-expression engine.  Each JS regex used by the
detectors is transcribed node-for-node into an `RE` term (the transcription
is written next to each pattern).  `matchRe` returns the list of possible
matches at a fixed position, ordered by JS backtracking priority, so the
head of the list is the match the JS engine commits to.  The previous
character is threaded through to give meaning to `\b`.
-/

/-- Regex abstract syntax.  `cls` is a character class; `star` carries a
laziness flag (`true` for `*?`); `grp` is a numbered capture group; `bol` /
`eol` are the `^` / `$` anchors (no multiline flag is used in the sources);
`wb` is `\b`; `nla` is a negative lookahead for a literal string (the only
lookahead form used), with a case-insensitivity flag. -/
inductive RE where
  | eps
  | cls (p : Char → Bool)
  | seq (a b : RE)
  | alt (a b : RE)
  | star (r : RE) (lz : Bool)
  | grp (idx : Nat) (r : RE)
  | bol
  | eol
  | wb
  | nla (s : Str) (ci : Bool)

/-- Capture environment: group index paired with captured text, in
completion order (a JS match keeps the last assignment per group). -/
abbrev Caps := List (Nat × Str)

/-- Star iteration.  `m` is the matcher of the starred body (already defined
for the structurally smaller regex).  Each continued iteration is required
to consume at least one character (the ECMAScript rule that exits a
repetition once an iteration matches empty), hence at most `s.length`
iterations can occur and the initial fuel `s.length + 1` (supplied by
`matchRe`) is never exhausted. -/
def starGo (m : Option Char → Str → List (Str × Option Char × Caps))
    (lz : Bool) : Nat → Option Char → Str → List (Str × Option Char × Caps)
  | 0, p, s => [(s, p, [])]
  | f + 1, p, s =>
    let deeper :=
      ((m p s).filter (fun r => r.1.length < s.length)).flatMap
        (fun r =>
          (starGo m lz f r.2.1 r.1).map
            (fun q => (q.1, q.2.1, r.2.2 ++ q.2.2)))
    if lz then (s, p, []) :: deeper else deeper ++ [(s, p, [])]

/-- All matches of `r` starting at the current position (remaining input
`s`, previous character `p`), in JS backtracking priority order.  A result
is the remaining suffix, the new previous character, and the captures. -/
def matchRe : RE → Option Char → Str → List (Str × Option Char × Caps)
  | .eps, p, s => [(s, p, [])]
  | .cls f, _, s =>
    match s with
    | [] => []
    | c :: cs => if f c then [(cs, some c, [])] else []
  | .seq a b, p, s =>
    (matchRe a p s).flatMap
      (fun r =>
        (matchRe b r.2.1 r.1).map (fun q => (q.1, q.2.1, r.2.2 ++ q.2.2)))
  | .alt a b, p, s => matchRe a p s ++ matchRe b p s
  | .star r lz, p, s => starGo (matchRe r) lz (s.length + 1) p s
  | .grp i r, p, s =>
    (matchRe r p s).map
      (fun q => (q.1, q.2.1, q.2.2 ++ [(i, s.take (s.length - q.1.length))]))
  | .bol, p, s => if p.isNone then [(s, p, [])] else []
  | .eol, p, s => if s.isEmpty then [(s, p, [])] else []
  | .wb, p, s =>
    let before := match p with | some c => isWordCh c | none => false
    let after := match s with | c :: _ => isWordCh c | [] => false
    if before ≠ after then [(s, p, [])] else []
  | .nla t ci, p, s =>
    let hit := if ci then isPre (lower t) (lower s) else isPre t s
    if hit then [] else [(s, p, [])]

/-- The committed match of `r` at the current position: consumed length and
captures of the highest-priority result. -/
def reRunAt (r : RE) (p : Option Char) (s : Str) : Option (Nat × Caps) :=
  (matchRe r p s).head?.map (fun q => (s.length - q.1.length, q.2.2))

/-- Scan for the leftmost match (JS `match` / the first step of a global
scan).  Returns the text before the match, the matched text, the captures
and the remaining suffix. -/
def reFindGo (r : RE) (p : Option Char) (s : Str) :
    Option (Str × Str × Caps × Str) :=
  match reRunAt r p s with
  | some (k, caps) => some ([], s.take k, caps, s.drop k)
  | none =>
    match s with
    | [] => none
    | c :: t =>
      (reFindGo r (some c) t).map
        (fun q => (c :: q.1, q.2.1, q.2.2.1, q.2.2.2))

/-- Leftmost match of `r` in `s` (JS `s.match(r)` for a non-global regex). -/
def reFind (r : RE) (s : Str) : Option (Str × Str × Caps × Str) :=
  reFindGo r none s

/-- JS `r.test(s)`. -/
def reTest (r : RE) (s : Str) : Bool := (reFind r s).isSome

/-- Group access on a match (`match[i]`); the last assignment wins. -/
def capGet (caps : Caps) (i : Nat) : Option Str :=
  (caps.reverse.find? (fun q => q.1 = i)).map (·.2)

/-- Last character of `s`, falling back to `p` (previous-character tracking
across a consumed span). -/
def lastO (s : Str) (p : Option Char) : Option Char :=
  match s.getLast? with
  | some c => some c
  | none => p

/-- Global scan (JS `matchAll`): successive leftmost matches; an empty match
advances one character (the `lastIndex` bump).  The fuel counts emitted
matches; since non-overlapping matches each either consume a character or
sit at distinct positions, `s.length + 1` (supplied by `matchAll`) is never
exhausted. -/
def matchAllGo (r : RE) : Nat → Option Char → Str → List (Str × Caps)
  | 0, _, _ => []
  | f + 1, p, s =>
    match reFindGo r p s with
    | none => []
    | some (pre, m, caps, rest) =>
      if m.isEmpty then
        match rest with
        | [] => [(m, caps)]
        | c :: t => (m, caps) :: matchAllGo r f (some c) t
      else (m, caps) :: matchAllGo r f (lastO (pre ++ m) p) rest

/-- JS `[...s.matchAll(r)]` as (matched text, captures) pairs. -/
def matchAll (r : RE) (s : Str) : List (Str × Caps) :=
  matchAllGo r (s.length + 1) none s

/-- Global replace (JS `s.replace(r, f)` with the `g` flag); same fuel
discipline as `matchAllGo`. -/
def reReplaceGo (r : RE) (f : Str × Caps → Str) :
    Nat → Option Char → Str → Str
  | 0, _, s => s
  | fu + 1, p, s =>
    match reFindGo r p s with
    | none => s
    | some (pre, m, caps, rest) =>
      if m.isEmpty then
        match rest with
        | [] => pre ++ f (m, caps)
        | c :: t => pre ++ f (m, caps) ++ c :: reReplaceGo r f fu (some c) t
      else pre ++ f (m, caps) ++ reReplaceGo r f fu (lastO (pre ++ m) p) rest

/-- JS global `replace` with a constant or capture-driven replacement. -/
def reReplaceAll (r : RE) (f : Str × Caps → Str) (s : Str) : Str :=
  reReplaceGo r f (s.length + 1) none s

/-! Pattern-building combinators used by the transcriptions. -/

/-- Literal character. -/
def rchr (c : Char) : RE := .cls (fun d => d = c)

/-- Literal character under the `i` flag. -/
def rchri (c : Char) : RE := .cls (fun d => d.toLower = c.toLower)

/-- Sequence of regexes. -/
def rcat (l : List RE) : RE := l.foldr .seq .eps

/-- Literal string. -/
def rstr (s : String) : RE := rcat (s.data.map rchr)

/-- Literal string under the `i` flag. -/
def rstri (s : String) : RE := rcat (s.data.map rchri)

/-- Alternation in source order (`x|y|z`). -/
def ralt : List RE → RE
  | [] => .cls (fun _ => false)
  | [r] => r
  | r :: rs => .alt r (ralt rs)

/-- Greedy option (`r?`). -/
def ropt (r : RE) : RE := .alt r .eps

/-- Greedy plus (`r+`). -/
def rplus (r : RE) : RE := .seq r (.star r false)

/-- Greedy star (`r*`). -/
def rstar (r : RE) : RE := .star r false

/-- Lazy star (`r*?`). -/
def rstarL (r : RE) : RE := .star r true

/-- Exactly `n` repetitions (`r{n}`). -/
def repExact (n : Nat) (r : RE) : RE := rcat (List.replicate n r)

/-- At most `n` repetitions, greedy (`r{0,n}`). -/
def repUpTo : Nat → RE → RE
  | 0, _ => .eps
  | n + 1, r => .alt (.seq r (repUpTo n r)) .eps

/-- Between `a` and `b` repetitions, greedy (`r{a,b}`). -/
def repRange (a b : Nat) (r : RE) : RE := .seq (repExact a r) (repUpTo (b - a) r)

/-- At least `n` repetitions, greedy (`r{n,}`). -/
def repAtLeast (n : Nat) (r : RE) : RE := .seq (repExact n r) (rstar r)

/-- The `\d` class. -/
def clsD : RE := .cls isDigitCh

/-- The `\s` class. -/
def clsS : RE := .cls isWs

/-- The `\S` class. -/
def clsNotS : RE := .cls (fun c => !isWs c)

/-- The `\w` class. -/
def clsW : RE := .cls isWordCh

/-- The `.` class (anything but a line terminator; no `s` flag is used). -/
def clsAny : RE := .cls (fun c => !(c = '\n' || c = '\r'))

/-- The `[\s\S]` class (anything). -/
def clsAll : RE := .cls (fun _ => true)

/-- Class of the characters of `s` (`[...]`). -/
def clsIn (s : String) : RE := .cls (fun c => s.data.contains c)

/-- Complement class (`[^...]`). -/
def clsNotIn (s : String) : RE := .cls (fun c => !s.data.contains c)

/-- Class of the characters of `s` under the `i` flag. -/
def clsInCi (s : String) : RE :=
  .cls (fun c => (s.data.map Char.toLower).contains c.toLower)

/-- JS non-global `replace(r, f)`: rewrites the leftmost match only. -/
def replaceFirst (r : RE) (f : Str × Caps → Str) (s : Str) : Str :=
  match reFind r s with
  | none => s
  | some (pre, m, caps, rest) => pre ++ f (m, caps) ++ rest

/-!
Embedding of `src/utils.ts`.
-/

/-- Character class of the local part of the address pattern in
`cleanEmailAddress`: `[a-zA-Z0-9._%+-]`. -/
def eaLocalCls : RE :=
  .cls (fun c =>
    isAlphaCh c || isDigitCh c || c = '.' || c = '_' || c = '%' || c = '+' ||
      c = '-')

/-- Character class `[a-zA-Z0-9.-]` of the domain part. -/
def eaDomCls : RE :=
  .cls (fun c => isAlphaCh c || isDigitCh c || c = '.' || c = '-')

/-- The address pattern of `cleanEmailAddress`:
`([a-zA-Z0-9._%+-]+@[a-zA-Z0-9.-]+\.[a-zA-Z]{2,})`. -/
def emailRe : RE :=
  .grp 1 (rcat [rplus eaLocalCls, rchr '@', rplus eaDomCls, rchr '.',
    repAtLeast 2 (.cls isAlphaCh)])

/-- `utils.cleanEmailAddress`: strips angle brackets (`replace(/[<>]/g, "")`,
modeled as a character filter), trims, extracts the first embedded address
if the pattern matches, and lowercases. -/
def cleanEmailAddress (email : Str) : Str :=
  if email.isEmpty then []
  else
    let cleaned := trim (email.filter (fun c => !(c = '<' || c = '>')))
    let cleaned2 :=
      match reFind emailRe cleaned with
      | some q => (capGet q.2.2.1 1).getD cleaned
      | none => cleaned
    lower cleaned2

/-- The `<script ...>...</script>` stripper of `utils.stripHtml`:
`/<script\b[^<]*(?:(?!<\/script>)<[^<]*)*<\/script>/gi`. -/
def scriptBlockRe : RE :=
  rcat [rstri ("<script"), .wb, rstar (clsNotIn ("<")),
    rstar (rcat [.nla (lit ("</script>")) true, rchr '<',
      rstar (clsNotIn ("<"))]),
    rstri ("</script>")]

/-- The corresponding `<style>` stripper of `utils.stripHtml`. -/
def styleBlockRe : RE :=
  rcat [rstri ("<style"), .wb, rstar (clsNotIn ("<")),
    rstar (rcat [.nla (lit ("</style>")) true, rchr '<',
      rstar (clsNotIn ("<"))]),
    rstri ("</style>")]

/-- The tag stripper `/<[^>]+>/g`. -/
def tagRe : RE := rcat [rchr '<', rplus (clsNotIn (">")), rchr '>']

/-- Replaces every occurrence of the literal regex `pat` (as in
`replace(/&nbsp;/g, rep)`). -/
def replaceLit (pat rep : String) (s : Str) : Str :=
  reReplaceAll (rstr pat) (fun _ => lit rep) s

/-- The HTML entity replacements shared by both `stripHtml` variants, in
source order. -/
def htmlEntities (s : Str) : Str :=
  replaceLit ("&#39;") ("\x27")
    (replaceLit ("&quot;") ("\"")
      (replaceLit ("&gt;") (">")
        (replaceLit ("&lt;") ("<")
          (replaceLit ("&amp;") ("&")
            (replaceLit ("&nbsp;") (" ") s)))))

/-- `utils.stripHtml` (the Node regex path; the browser path delegates to
`DOMParser` and is not modeled): strips script and style blocks, then tags,
then decodes entities, collapses whitespace and trims. -/
def stripHtml (html : Str) : Str :=
  if html.isEmpty then []
  else
    trim (collapseWs (htmlEntities
      (reReplaceAll tagRe (fun _ => lit (" "))
        (reReplaceAll styleBlockRe (fun _ => [])
          (reReplaceAll scriptBlockRe (fun _ => []) html)))))

/-- `utils.extractDomain`: the part of the cleaned address after `@`
(empty when there is no `@`). -/
def extractDomain (email : Str) : Str :=
  if email.isEmpty then []
  else
    let cleaned := cleanEmailAddress email
    match idxOfCh '@' cleaned with
    | none => []
    | some i => lower (cleaned.drop (i + 1))

/-- The reply-prefix alternatives of `utils.normalizeSubject`
(`/^(re|fwd|fw|aw|sv|vs|antw|r):\s*/i`), in source order. -/
def subjPrefixAlts : List Str :=
  [lit ("re"), lit ("fwd"), lit ("fw"), lit ("aw"), lit ("sv"), lit ("vs"),
    lit ("antw"), lit ("r")]

/-- Length consumed by the anchored reply-prefix pattern at the head of `s`
(`none` when the pattern does not match).  The alternation is tried in
source order; the consumed span is the alternative, the colon, and the
greedy `\s*` run. -/
def matchSubjPrefix (s : Str) : Option Nat :=
  (subjPrefixAlts.find? (fun a => isPre (a ++ [':']) (lower s))).map
    (fun a =>
      let k := a.length + 1
      k + ((s.drop k).takeWhile isWs).length)

/-- The `while (prefixPattern.test(normalized))` stripping loop of
`normalizeSubject`.  Fuel `s.length` suffices: each iteration removes at
least the matched alternative and colon (two characters). -/
def stripSubjGo : Nat → Str → Str
  | 0, s => s
  | f + 1, s =>
    match matchSubjPrefix s with
    | none => s
    | some k => stripSubjGo f (s.drop k)

/-- `utils.normalizeSubject`: repeatedly strips reply prefixes, then trims,
lowercases, and collapses internal whitespace. -/
def normalizeSubject (subject : Str) : Str :=
  if subject.isEmpty then []
  else collapseWs (lower (trim (stripSubjGo subject.length subject)))

/-- Hexadecimal digit value (the `[0-9A-F]` class under `/i`). -/
def hexDigVal (c : Char) : Option Nat :=
  if isDigitCh c then some (digitVal c)
  else if 'A' ≤ c ∧ c ≤ 'F' then some (c.toNat - 55)
  else if 'a' ≤ c ∧ c ≤ 'f' then some (c.toNat - 87)
  else none

/-- First pass of `decodeQuotedPrintable`: `replace(/=\r?\n/g, "")`. -/
def qpSoft : Str → Str
  | '=' :: '\r' :: '\n' :: t => qpSoft t
  | '=' :: '\n' :: t => qpSoft t
  | c :: t => c :: qpSoft t
  | [] => []

/-- Second pass of `decodeQuotedPrintable`:
`replace(/=([0-9A-F]{2})/gi, chr)`. -/
def qpHex : Str → Str
  | '=' :: a :: b :: t =>
    (match hexDigVal a, hexDigVal b with
     | some x, some y => Char.ofNat (x * 16 + y) :: qpHex t
     | _, _ => '=' :: qpHex (a :: b :: t))
  | c :: t => c :: qpHex t
  | [] => []

/-- `utils.decodeQuotedPrintable` (the two sequential global replaces). -/
def decodeQuotedPrintable (s : Str) : Str := qpHex (qpSoft s)

/-- Base64 alphabet value of a character. -/
def b64Val (c : Char) : Option Nat :=
  if 'A' ≤ c ∧ c ≤ 'Z' then some (c.toNat - 65)
  else if 'a' ≤ c ∧ c ≤ 'z' then some (c.toNat - 71)
  else if isDigitCh c then some (c.toNat + 4)
  else if c = '+' then some 62
  else if c = '/' then some 63
  else none

/-- Base64 sextet groups to bytes (2 leftover sextets give 1 byte, 3 give
2 bytes, a single one is dropped). -/
def b64Bytes : List Nat → List Nat
  | a :: b :: c :: d :: rest =>
    (a * 4 + b / 16) :: ((b % 16) * 16 + c / 4) :: ((c % 4) * 64 + d) ::
      b64Bytes rest
  | [a, b, c] => [a * 4 + b / 16, (b % 16) * 16 + c / 4]
  | [a, b] => [a * 4 + b / 16]
  | _ => []

/-- Continuation-byte test for UTF-8. -/
def utf8Cont (b : Nat) : Bool := 0x80 ≤ b ∧ b ≤ 0xBF

/-- UTF-8 decoding with U+FFFD replacement on errors (the WHATWG decoder
backing both `TextDecoder` and Node `toString("utf-8")`).  Fuel
`bytes.length + 1` (supplied by `utf8Decode`) is never exhausted since every
step consumes at least one byte. -/
def utf8DecodeGo : Nat → List Nat → Str
  | 0, _ => []
  | _, [] => []
  | f + 1, b :: rest =>
    if b < 0x80 then Char.ofNat b :: utf8DecodeGo f rest
    else if 0xC2 ≤ b ∧ b ≤ 0xDF then
      match rest with
      | b2 :: r2 =>
        if utf8Cont b2 then
          Char.ofNat ((b - 0xC0) * 64 + (b2 - 0x80)) :: utf8DecodeGo f r2
        else Char.ofNat 0xFFFD :: utf8DecodeGo f rest
      | [] => [Char.ofNat 0xFFFD]
    else if 0xE0 ≤ b ∧ b ≤ 0xEF then
      match rest with
      | b2 :: b3 :: r3 =>
        if (if b = 0xE0 then 0xA0 ≤ b2 ∧ b2 ≤ 0xBF
            else if b = 0xED then 0x80 ≤ b2 ∧ b2 ≤ 0x9F
            else utf8Cont b2) ∧ utf8Cont b3 then
          Char.ofNat ((b - 0xE0) * 4096 + (b2 - 0x80) * 64 + (b3 - 0x80)) ::
            utf8DecodeGo f r3
        else Char.ofNat 0xFFFD :: utf8DecodeGo f rest
      | _ => Char.ofNat 0xFFFD :: utf8DecodeGo f rest
    else if 0xF0 ≤ b ∧ b ≤ 0xF4 then
      match rest with
      | b2 :: b3 :: b4 :: r4 =>
        if (if b = 0xF0 then 0x90 ≤ b2 ∧ b2 ≤ 0xBF
            else if b = 0xF4 then 0x80 ≤ b2 ∧ b2 ≤ 0x8F
            else utf8Cont b2) ∧ utf8Cont b3 ∧ utf8Cont b4 then
          Char.ofNat ((b - 0xF0) * 262144 + (b2 - 0x80) * 4096 +
            (b3 - 0x80) * 64 + (b4 - 0x80)) :: utf8DecodeGo f r4
        else Char.ofNat 0xFFFD :: utf8DecodeGo f rest
      | _ => Char.ofNat 0xFFFD :: utf8DecodeGo f rest
    else Char.ofNat 0xFFFD :: utf8DecodeGo f rest

/-- UTF-8 decoding of a byte list. -/
def utf8Decode (bytes : List Nat) : Str := utf8DecodeGo (bytes.length + 1) bytes

/-- Base64 decoding to a UTF-8 string, modeling the Node path
`Buffer.from(s, "base64").toString("utf-8")` (lenient: characters outside
the alphabet, including padding, are skipped).  The browser
`atob`/`TextDecoder` path of the sources agrees with this on well-formed
input; its throw-and-fall-back behavior on malformed input is not modeled. -/
def b64DecodeUtf8 (s : Str) : Str := utf8Decode (b64Bytes (s.filterMap b64Val))

/-- Splits at the first `?`, requiring a non-empty segment before it
(the `([^?]+)\?` steps of the RFC 2047 pattern). -/
def splitAtQm (s : Str) : Option (Str × Str) :=
  match idxOfCh '?' s with
  | none => none
  | some 0 => none
  | some i => some (s.take i, s.drop (i + 1))

/-- Parses one RFC 2047 encoded word after its `=?` opener: charset, `B`/`Q`
(case-insensitive), encoded text, closing `?=`.  Returns the decoded text
and the remaining input. -/
def parseEncWord (t : Str) : Option (Str × Str) :=
  match splitAtQm t with
  | none => none
  | some (_, r1) =>
    match r1 with
    | e :: '?' :: r2 =>
      (match idxOfCh '?' r2 with
       | none => none
       | some 0 => none
       | some i =>
         let txt := r2.take i
         match r2.drop (i + 1) with
         | '=' :: rest =>
           if e = 'B' ∨ e = 'b' then some (b64DecodeUtf8 txt, rest)
           else if e = 'Q' ∨ e = 'q' then
             some (decodeQuotedPrintable
               (txt.map (fun c => if c = '_' then ' ' else c)), rest)
           else none
         | _ => none)
    | _ => none

/-- Scanner for `utils.decodeHeaderValue`
(`replace(/=\?([^?]+)\?([BQ])\?([^?]+)\?=/gi, ...)`).  Fuel `s.length`
suffices: every step consumes at least one character. -/
def dhvGo : Nat → Str → Str
  | 0, s => s
  | f + 1, s =>
    match s with
    | '=' :: '?' :: t =>
      (match parseEncWord t with
       | some (d, rest) => d ++ dhvGo f rest
       | none => '=' :: dhvGo f ('?' :: t))
    | c :: t => c :: dhvGo f t
    | [] => []

/-- `utils.decodeHeaderValue`. -/
def decodeHeaderValue (s : Str) : Str := dhvGo s.length s

/-- The subdomain-stripping pattern at the head of `formatDomainAsName`,
alternatives in source order:
`/^(mail|email|noreply|no-reply|billing|notifications?|support|info|newsletter|news|updates?|marketing|promo|alerts?|digest|reply|bounce|mailer|sender|e\.)\./i`. -/
def fdnStripRe : RE :=
  rcat [.bol,
    .grp 1 (ralt [rstri ("mail"), rstri ("email"), rstri ("noreply"),
      rstri ("no-reply"), rstri ("billing"),
      rcat [rstri ("notification"), ropt (rchri 's')], rstri ("support"),
      rstri ("info"), rstri ("newsletter"), rstri ("news"),
      rcat [rstri ("update"), ropt (rchri 's')], rstri ("marketing"),
      rstri ("promo"), rcat [rstri ("alert"), ropt (rchri 's')],
      rstri ("digest"), rstri ("reply"), rstri ("bounce"), rstri ("mailer"),
      rstri ("sender"), rstri ("e.")]),
    rchr '.']

/-- The camelCase splitter `replace(/([a-z])([A-Z])/g, "$1 $2")`. -/
def camelSplit (s : Str) : Str :=
  reReplaceAll
    (rcat [.grp 1 (.cls (fun c => 'a' ≤ c ∧ c ≤ 'z')),
      .grp 2 (.cls (fun c => 'A' ≤ c ∧ c ≤ 'Z'))])
    (fun q => ((capGet q.2 1).getD []) ++ [' '] ++ ((capGet q.2 2).getD []))
    s

/-- Capitalizes one word (`charAt(0).toUpperCase() + slice(1).toLowerCase()`). -/
def capWord : Str → Str
  | [] => []
  | c :: t => c.toUpper :: lower t

/-- Joins with single spaces. -/
def joinSp (l : List Str) : Str := List.intercalate (lit (" ")) l

/-- `utils.formatDomainAsName`. -/
def formatDomainAsName (domain : Str) : Str :=
  if domain.isEmpty then []
  else
    let name := replaceFirst fdnStripRe (fun _ => []) domain
    let parts := splitCh '.' name
    let name :=
      if 2 ≤ parts.length then
        let lastTwo := joinStr (parts.drop (parts.length - 2))
        let country := [lit ("co.uk"), lit ("co.au"), lit ("com.au"),
          lit ("org.uk"), lit ("co.nz"), lit ("com.br")]
        if country.contains (lower lastTwo) ∧ 3 ≤ parts.length then
          (parts.get? (parts.length - 3)).getD []
        else (parts.get? (parts.length - 2)).getD []
      else (parts.get? 0).getD []
    let generic := [lit ("mail"), lit ("email"), lit ("noreply"),
      lit ("info"), lit ("support"), lit ("contact"), lit ("hello"),
      lit ("team")]
    let name :=
      if generic.contains (lower name) ∧ 2 ≤ parts.length then
        (parts.get? 0).getD []
      else name
    let name :=
      camelSplit (name.map (fun c => if c = '_' || c = '-' then ' ' else c))
    jsOr
      (joinSp (((splitWsRuns name).filter (fun w => !w.isEmpty)).map capWord))
      domain
where
  /-- `parts.slice(-2).join(".")`. -/
  joinStr (l : List Str) : Str := List.intercalate (lit (".")) l

/-!
Embedding of `src/parsers/mbox.ts` (`MBOXParser`).  The parser-side email
record is `Omit<Email, "id">` of `src/types.ts`; `attachments` is omitted
because the parser always emits `[]` there, and `date` holds the raw `Date`
header string (constructing the JS `Date`, including the fall-back to the
current time for unparsable strings, is a host function of that string; see
the header note).
-/

/-- Parser-side email record (`Omit<Email, "id">`). -/
structure PEmail where
  subject : Str
  sender : Str
  senderName : Option Str
  recipients : List Str
  date : Str
  body : Str
  htmlBody : Option Str
  size : Nat
  isRead : Bool
  isStarred : Bool
  folderId : Str
  threadId : Option Str
deriving DecidableEq, Repr

/-- The day-of-week tokens of the separator validation pattern
`/(Mon|Tue|Wed|Thu|Fri|Sat|Sun)/`. -/
def dayTokens : List Str :=
  [lit ("Mon"), lit ("Tue"), lit ("Wed"), lit ("Thu"), lit ("Fri"),
    lit ("Sat"), lit ("Sun")]

/-- `MBOXParser.isFromLine`: the line must start with `From ` and the day
pattern must match somewhere in the line (an unanchored alternation of
literals tests as substring occurrence of one of them). -/
def isFromLine (line : Str) : Bool :=
  if !isPre (lit ("From ")) line then false
  else dayTokens.any (fun d => containsSub d line)

/-- `text.indexOf("\n", lineStart)`, with `-1` resolved to `text.length` as
in `findLastFromLine`. -/
def fllLineEnd (t : Str) (lineStart : Nat) : Nat :=
  match idxOfCh '\n' (t.drop lineStart) with
  | some j => lineStart + j
  | none => t.length

/-- `text.substring(a, b)`. -/
def jsSubstring (t : Str) (a b : Nat) : Str := (t.drop a).take (b - a)

/-- The reverse-scan loop of `MBOXParser.findLastFromLine`.  The fuel
(`t.length`, supplied by `findLastFromLine`) is never exhausted because the
scan start strictly decreases from at most `t.length - 1`. -/
def fllGo (t : Str) : Nat → Nat → Option Nat
  | 0, _ => none
  | f + 1, searchStart =>
    if searchStart = 0 then none
    else
      match lastIdxAux (lit ("\nFrom ")) t searchStart with
      | none => none
      | some idx =>
        let lineStart := idx + 1
        let lineEnd := fllLineEnd t lineStart
        if isFromLine (jsSubstring t lineStart lineEnd) then some lineStart
        else fllGo t f (idx - 1)

/-- `MBOXParser.findLastFromLine` (`-1` when no separator is found). -/
def findLastFromLine (t : Str) : Int :=
  match fllGo t t.length (t.length - 1) with
  | some i => (i : Int)
  | none =>
    if isPre (lit ("From ")) t then
      let lineEnd := (idxOfCh '\n' t).getD t.length
      if isFromLine (t.take lineEnd) then 0 else -1
    else -1

/-- One header line against `/^([^:]+):\s*(.*)$/`: key before the first
colon (non-empty, lowercased), value after the colon with leading
whitespace dropped (the greedy `\s*`). -/
def parseHeaderLine (line : Str) : Option (Str × Str) :=
  match idxOfCh ':' line with
  | none => none
  | some 0 => none
  | some i => some (lower (line.take i), (line.drop (i + 1)).dropWhile isWs)

/-- Head-of-line whitespace test (`/^\s+/`). -/
def headWs : Str → Bool
  | [] => false
  | c :: _ => isWs c

/-- The header loop of `MBOXParser.parseEmailFromLines` over the lines after
the `From ` line: stops at the first blank line and returns the headers
together with the remaining (body) lines; continuation lines append to the
most recently inserted header key. -/
def headerLoop : List Str → AList Str → AList Str × List Str
  | [], hs => (hs, [])
  | l :: rest, hs =>
    if (trim l).isEmpty then (hs, rest)
    else
      headerLoop rest
        (if headWs l ∧ hs ≠ [] then alAppendLast hs (' ' :: trim l)
         else
           match parseHeaderLine l with
           | some (k, v) => alSet hs k v
           | none => hs)

/-- The class `[^\s@]`. -/
def nsAtCls : RE := .cls (fun c => !(isWs c || c = '@'))

/-- The angle-address pattern of `MBOXParser.parseEmailAddress`:
`/^(?:"?(.+?)"?\s*)?<([^>]+)>$/`. -/
def angleRe : RE :=
  rcat [.bol,
    ropt (rcat [ropt (rchr '"'), .grp 1 (.seq clsAny (.star clsAny true)),
      ropt (rchr '"'), rstar clsS]),
    rchr '<', .grp 2 (rplus (clsNotIn (">"))), rchr '>', .eol]

/-- The bare-address pattern `/^([^\s@]+@[^\s@]+\.[^\s@]+)$/`. -/
def bareAddrRe : RE :=
  rcat [.bol,
    .grp 1 (rcat [rplus nsAtCls, rchr '@', rplus nsAtCls, rchr '.',
      rplus nsAtCls]),
    .eol]

/-- `MBOXParser.parseEmailAddress`: returns the address and the optional
display name. -/
def parseEmailAddress (s : Str) : Str × Option Str :=
  let trimmed := decodeHeaderValue (trim s)
  match reFind angleRe trimmed with
  | some q =>
    let name :=
      match (capGet q.2.2.1 1).map trim with
      | some v => if v.isEmpty then none else some v
      | none => none
    (trim ((capGet q.2.2.1 2).getD []), name)
  | none =>
    match reFind bareAddrRe trimmed with
    | some q => ((capGet q.2.2.1 1).getD [], none)
    | none => (trimmed, none)

/-- `MBOXParser.parseRecipients`: split on `/[,;]/`, parse and clean each
token, drop empties. -/
def parseRecipients (s : Str) : List Str :=
  if s.isEmpty then []
  else
    ((splitPred (fun c => c = ',' || c = ';') s).map
        (fun r => cleanEmailAddress (parseEmailAddress (trim r)).1)).filter
      (fun x => !x.isEmpty)

/-- The character scan of `MBOXParser.parseGmailLabels`: double quotes
toggle the quoting state (and are dropped), a comma outside quotes
terminates the current label, which is pushed trimmed and lowercased when
non-blank. -/
def pglGo : Str → Str → Bool → List Str → List Str
  | [], cur, _, acc =>
    if (trim cur).isEmpty then acc else acc ++ [lower (trim cur)]
  | c :: t, cur, inQ, acc =>
    if c = '"' then pglGo t cur (!inQ) acc
    else if c = ',' ∧ !inQ then
      pglGo t [] inQ
        (if (trim cur).isEmpty then acc else acc ++ [lower (trim cur)])
    else pglGo t (cur ++ [c]) inQ acc

/-- `MBOXParser.parseGmailLabels`. -/
def parseGmailLabels (h : Str) : List Str :=
  if h.isEmpty then [] else pglGo h [] false []

/-- Whitespace runs to a single hyphen (`replace(/\s+/g, "-")`). -/
def hyphenWsGo : Str → Bool → Str
  | [], _ => []
  | c :: t, inRun =>
    if isWs c then
      (if inRun then hyphenWsGo t true else '-' :: hyphenWsGo t true)
    else c :: hyphenWsGo t false

/-- `replace(/\s+/g, "-")`. -/
def hyphenWs (s : Str) : Str := hyphenWsGo s false

/-- `MBOXParser.labelToFolderId`: lowercase, keep only `[a-z0-9\s-]`,
hyphenate whitespace runs, truncate to 50 characters. -/
def labelToFolderId (label : Str) : Str :=
  (hyphenWs
      ((lower label).filter
        (fun c => ('a' ≤ c && c ≤ 'z') || isDigitCh c || isWs c ||
          c = '-'))).take 50

/-- The system labels excluded from custom-label consideration. -/
def sysLabels : List Str :=
  [lit ("opened"), lit ("unread"), lit ("starred"), lit ("important"),
    lit ("all mail")]

/-- `MBOXParser.mapGmailLabelsToFolder`. -/
def mapGmailLabelsToFolder (labels : Str) : Str :=
  let ll := parseGmailLabels labels
  if ll.contains (lit ("inbox")) then lit ("inbox")
  else if ll.contains (lit ("sent")) || ll.contains (lit ("sent mail")) then
    lit ("sent")
  else if ll.contains (lit ("draft")) || ll.contains (lit ("drafts")) then
    lit ("drafts")
  else if ll.contains (lit ("spam")) then lit ("spam")
  else if ll.contains (lit ("trash")) then lit ("trash")
  else
    match ll.filter
        (fun l => !isPre (lit ("category ")) l && !sysLabels.contains l) with
    | c :: _ => labelToFolderId c
    | [] => lit ("archive")

/-- JS `split(sep)` for a non-empty literal separator string.  Fuel
`s.length + 1` (supplied by `splitOnSub`) is never exhausted because each
found separator consumes at least one character. -/
def splitSubGo (sep : Str) : Nat → Str → List Str
  | 0, s => [s]
  | f + 1, s =>
    match idxOfSub sep s with
    | none => [s]
    | some i => s.take i :: splitSubGo sep f (s.drop (i + sep.length))

/-- JS `split(sep)` for a literal separator. -/
def splitOnSub (sep s : Str) : List Str := splitSubGo sep (s.length + 1) s

/-- `/content-type:\s*([^;\n]+)/i`. -/
def ctRe : RE :=
  rcat [rstri ("content-type:"), rstar clsS, .grp 1 (rplus (clsNotIn (";\n")))]

/-- `/content-transfer-encoding:\s*(\S+)/i`. -/
def cteRe : RE :=
  rcat [rstri ("content-transfer-encoding:"), rstar clsS,
    .grp 1 (rplus clsNotS)]

/-- The class `[^"';\s]` of the boundary patterns. -/
def bdCls : RE := .cls (fun c => !(c = '"' || c = apos || c = ';' || isWs c))

/-- `/boundary=["']?([^"';\s]+)["']?/i` (top-level boundary extraction). -/
def boundaryRe : RE :=
  rcat [rstri ("boundary="), ropt (.cls (fun c => c = '"' || c = apos)),
    .grp 1 (rplus bdCls), ropt (.cls (fun c => c = '"' || c = apos))]

/-- `/boundary=["']?([^"';\s\n]+)["']?/i` (nested boundary form; `\n` is
already whitespace, so the class coincides with `bdCls`). -/
def nestedBoundaryRe : RE := boundaryRe

/-- `MBOXParser.parseMimeParts`: split the body on `--boundary`, walk the
parts, decode per part encoding, keep the first text/plain and first
text/html parts (JS truthiness: an empty captured part does not occupy the
slot), and recurse into nested multiparts.  The fuel (`body.length + 1`,
supplied by callers) bounds the nesting depth, which is strictly smaller
than the body length since every nesting level discards at least the
part-header block and its terminating blank line. -/
def parseMimePartsGo : Nat → Str → Str → Option Str × Option Str
  | 0, _, _ => (none, none)
  | f + 1, body, boundary =>
    (splitOnSub (lit ("--") ++ boundary) body).foldl
      (fun acc part =>
        if (trim part).isEmpty || trim part = lit ("--") then acc
        else
          match idxOfSub (lit ("\n\n")) part with
          | none => acc
          | some hEnd =>
            let partHeaders := part.take hEnd
            let partContent0 := part.drop (hEnd + 2)
            match reFind ctRe partHeaders with
            | none => acc
            | some q =>
              let pct := trim (lower ((capGet q.2.2.1 1).getD []))
              let penc :=
                match reFind cteRe partHeaders with
                | some q2 => lower ((capGet q2.2.2.1 1).getD [])
                | none => lit ("7bit")
              if containsSub (lit ("multipart/")) pct then
                match reFind nestedBoundaryRe partHeaders with
                | some q3 =>
                  let nested :=
                    parseMimePartsGo f partContent0
                      ((capGet q3.2.2.1 1).getD [])
                  (if truthy nested.1 ∧ !truthy acc.1 then nested.1
                   else acc.1,
                   if truthy nested.2 ∧ !truthy acc.2 then nested.2
                   else acc.2)
                | none => acc
              else
                let pc0 := trim partContent0
                let pc :=
                  if penc = lit ("base64") then
                    b64DecodeUtf8 (pc0.filter (fun c => !isWs c))
                  else if penc = lit ("quoted-printable") then
                    decodeQuotedPrintable pc0
                  else pc0
                if containsSub (lit ("text/plain")) pct ∧ !truthy acc.1 then
                  (some pc, acc.2)
                else if containsSub (lit ("text/html")) pct ∧ !truthy acc.2
                then (acc.1, some pc)
                else acc)
      (none, none)

/-- `/<style[^>]*>[\s\S]*?<\/style>/gi` of `MBOXParser.stripHtml`. -/
def mboxStyleRe : RE :=
  rcat [rstri ("<style"), rstar (clsNotIn (">")), rchr '>', rstarL clsAll,
    rstri ("</style>")]

/-- `/<script[^>]*>[\s\S]*?<\/script>/gi` of `MBOXParser.stripHtml`. -/
def mboxScriptRe : RE :=
  rcat [rstri ("<script"), rstar (clsNotIn (">")), rchr '>', rstarL clsAll,
    rstri ("</script>")]

/-- `MBOXParser.stripHtml` (the parser's own implementation: style blocks,
then script blocks, then tags, entities, whitespace collapse, trim). -/
def mboxStripHtml (html : Str) : Str :=
  trim (collapseWs (htmlEntities
    (reReplaceAll tagRe (fun _ => lit (" "))
      (reReplaceAll mboxScriptRe (fun _ => [])
        (reReplaceAll mboxStyleRe (fun _ => []) html)))))

/-- `MBOXParser.parseEmailFromLines`.  The surrounding `try`/`catch`
(log-and-skip) is not modeled: the embedded computation is total. -/
def parseEmailFromLines (lines : List Str) : Option PEmail :=
  if lines.length < 2 then none
  else
    let hb := headerLoop (lines.drop 1) []
    let headers := hb.1
    let rawBody := List.intercalate (lit ("\n")) hb.2
    let ct := jsOr ((alGet headers (lit ("content-type"))).getD [])
      (lit ("text/plain"))
    let bh :=
      if containsSub (lit ("multipart/")) ct then
        match reFind boundaryRe ct with
        | some q =>
          let parts :=
            parseMimePartsGo (rawBody.length + 1) rawBody
              ((capGet q.2.2.1 1).getD [])
          ((parts.1).getD [], parts.2)
        | none => (rawBody, none)
      else
        let enc := (alGet headers (lit ("content-transfer-encoding"))).map
          lower
        let b :=
          if enc = some (lit ("quoted-printable")) then
            decodeQuotedPrintable rawBody
          else if enc = some (lit ("base64")) then
            b64DecodeUtf8 (rawBody.filter (fun c => !isWs c))
          else rawBody
        (b, if containsSub (lit ("text/html")) ct then some b else none)
    let body := bh.1
    let htmlBody := bh.2
    let dateStr := (alGet headers (lit ("date"))).getD []
    let sn := parseEmailAddress ((alGet headers (lit ("from"))).getD [])
    let sender := sn.1
    let recipients := parseRecipients ((alGet headers (lit ("to"))).getD [])
    let subject := decodeHeaderValue
      (jsOr ((alGet headers (lit ("subject"))).getD [])
        (lit ("(No Subject)")))
    let threadId0 := jsOrOpt (alGet headers (lit ("x-gm-thrid")))
      (jsOrOpt (alGet headers (lit ("thread-topic")))
        (jsOrOpt ((alGet headers (lit ("references"))).map
            (fun r => ((splitWsRuns r).headD [])))
          (alGet headers (lit ("in-reply-to")))))
    let threadId :=
      if truthy threadId0 then threadId0
      else
        let ns := normalizeSubject subject
        if !ns.isEmpty then
          some (lit ("subject:") ++ hyphenWs (lower ns))
        else threadId0
    let gmailLabels := (alGet headers (lit ("x-gmail-labels"))).getD []
    if sender.isEmpty ∧ subject.isEmpty then none
    else
      some
        { subject := subject
          sender := cleanEmailAddress sender
          senderName := sn.2
          recipients := recipients
          date := dateStr
          body := jsOr (trim body)
            (match htmlBody with
             | some h => if h.isEmpty then [] else mboxStripHtml h
             | none => [])
          htmlBody := htmlBody
          size := min (List.intercalate (lit ("\n")) lines).length 100000
          isRead := !containsSub (lit ("unread")) (lower gmailLabels)
          isStarred := containsSub (lit ("starred")) (lower gmailLabels)
          folderId := mapGmailLabelsToFolder gmailLabels
          threadId := threadId }

/-- The accumulation loop of `MBOXParser.parse`: a validated `From ` line
flushes the current block; the final block is parsed when some line is
non-blank. -/
def parseLoop : List Str → List Str → List PEmail
  | [], cur =>
    if cur.length > 0 ∧ cur.any (fun l => !(trim l).isEmpty) then
      match parseEmailFromLines cur with
      | some e => [e]
      | none => []
    else []
  | l :: ls, cur =>
    if isFromLine l ∧ cur.length > 0 then
      (match parseEmailFromLines cur with
        | some e => [e]
        | none => []) ++ parseLoop ls [l]
    else parseLoop ls (cur ++ [l])

/-- The accumulation loop of `MBOXParser.parseEmailsFromText`, which is
textually identical to the loop of `parse` in the source. -/
def pemLoop : List Str → List Str → List PEmail
  | [], cur =>
    if cur.length > 0 ∧ cur.any (fun l => !(trim l).isEmpty) then
      match parseEmailFromLines cur with
      | some e => [e]
      | none => []
    else []
  | l :: ls, cur =>
    if isFromLine l ∧ cur.length > 0 then
      (match parseEmailFromLines cur with
        | some e => [e]
        | none => []) ++ pemLoop ls [l]
    else pemLoop ls (cur ++ [l])

/-- `replace(/\r\n/g, "\n")`. -/
def crlfGo : Str → Str
  | '\r' :: '\n' :: t => '\n' :: crlfGo t
  | c :: t => c :: crlfGo t
  | [] => []

/-- Line-ending normalization
(`replace(/\r\n/g, "\n").replace(/\r/g, "\n")`). -/
def normalizeNl (s : Str) : Str :=
  (crlfGo s).map (fun c => if c = '\r' then '\n' else c)

/-- `MBOXParser.parseEmailsFromText`. -/
def parseEmailsFromText (t : Str) : List PEmail :=
  pemLoop (splitCh '\n' (normalizeNl t)) []

/-- The email list produced by `MBOXParser.parse` on the text of the input
(the non-streaming path; for browser `File` inputs over 20 MB the method
delegates to `parseStreaming`, and the preliminary separator-counting pass
and progress reporting have no effect on the result). -/
def mboxParse (t : Str) : List PEmail :=
  parseLoop (splitCh '\n' (normalizeNl t)) []

/-- `CHUNK_SIZE = 5 * 1024 * 1024`. -/
def CHUNK : Nat := 5242880

/-- The chunk loop of `MBOXParser.parseStreaming`, returning the
concatenation of all emitted emails: the batching machinery
(`BATCH_SIZE`/`onBatch`) delivers consecutive slices of exactly this
sequence, so the concatenation of the delivered batches is this list.
Byte-level `File.slice` is modeled as character slicing, and the progress
callbacks and the chunk-read error path are not modeled.  Fuel
`file.length + 1` (supplied by `parseStreamingConcat`) is never exhausted
since every iteration advances `offset` by at least one. -/
def streamGo : Nat → Str → Nat → Str → List PEmail
  | 0, _, _, _ => []
  | f + 1, file, offset, leftover =>
    if offset < file.length then
      let chunkEnd := min (offset + CHUNK) file.length
      let chunk := (file.drop offset).take (chunkEnd - offset)
      let t := leftover ++ chunk
      let lastIdx := findLastFromLine t
      let flush :=
        if lastIdx > 0 ∧ chunkEnd < file.length then
          (t.take lastIdx.toNat, t.drop lastIdx.toNat)
        else (t, [])
      parseEmailsFromText flush.1 ++ streamGo f file chunkEnd flush.2
    else if !(trim leftover).isEmpty then parseEmailsFromText leftover
    else []

/-- Concatenation of the batches delivered by `MBOXParser.parseStreaming`. -/
def parseStreamingConcat (file : Str) : List PEmail :=
  streamGo (file.length + 1) file 0 []

/-!
Embedding of the OLM message decoder (`OLMParser.parseEmailManually`, the
regex path used when no DOM is available; the `DOMParser` path assigns the
same `size: xmlContent.length`).
-/

/-- The tag-extraction pattern of `getTag`:
`new RegExp("<" + tag + "[^>]*>([\\s\\S]*?)</" + tag + ">", "i")`. -/
def getTagRe (tag : String) : RE :=
  rcat [rchr '<', rstri tag, rstar (clsNotIn (">")), rchr '>',
    .grp 1 (rstarL clsAll), rchr '<', rchr '/', rstri tag, rchr '>']

/-- `getTag` of `parseEmailManually`. -/
def getTag (content : Str) (tag : String) : Str :=
  match reFind (getTagRe tag) content with
  | some q => trim ((capGet q.2.2.1 1).getD [])
  | none => []

/-- `/OPFContactEmailAddressAddress="([^"]+)"/i`. -/
def senderAttrRe : RE :=
  rcat [rstri ("OPFContactEmailAddressAddress"), rchr '=', rchr '"',
    .grp 1 (rplus (clsNotIn ("\""))), rchr '"']

/-!
Embedding of the detector inputs and records (`src/types.ts`).  The
detector-side `Email` carries every field of the TS interface; `date` is the
abstract epoch-milliseconds timestamp (see the header note).
-/

/-- `Attachment` of `src/types.ts`. -/
structure Attachment where
  id : Str
  filename : Str
  mimeType : Str
  size : Nat
  data : Option Str
deriving DecidableEq, Repr

/-- `Email` of `src/types.ts` (detector input). -/
structure Email where
  id : Option Nat
  subject : Str
  sender : Str
  senderName : Option Str
  recipients : List Str
  cc : Option (List Str)
  bcc : Option (List Str)
  date : Int
  body : Str
  htmlBody : Option Str
  attachments : List Attachment
  size : Nat
  isRead : Bool
  isStarred : Bool
  folderId : Str
  threadId : Option Str
  originalId : Option Str
deriving DecidableEq, Repr

/-- `ServiceType`. -/
inductive ServiceType where
  | streaming
  | ecommerce
  | social
  | banking
  | communication
  | development
  | other
deriving DecidableEq, Repr

/-- `Account` (the fields `detectBatch` writes; `id` and `lastActivityDate`
are never produced by the detector). -/
structure Account where
  serviceName : Str
  signupEmailId : Option Nat
  signupDate : Int
  serviceType : ServiceType
  domain : Str
  emailCount : Nat
deriving DecidableEq, Repr

/-- The `type` discriminant of `AccountDetectionResult`. -/
inductive AccountKind where
  | account
  | none
deriving DecidableEq, Repr

/-- `AccountDetectionResult`; in the `account` branch both `data` fields are
always populated, so `data` is a name/type pair. -/
structure AccountDetectionResult where
  type : AccountKind
  confidence : Nat
  data : Option (Str × ServiceType)
deriving DecidableEq, Repr

/-- `PurchaseCategory`. -/
inductive PurchaseCategory where
  | ecommerce
  | technology
  | payment
  | entertainment
  | food
  | transportation
  | travel
  | home
  | fashion
  | beauty
  | pets
  | other
deriving DecidableEq, Repr

/-- The `type` discriminant of `PurchaseDetectionResult`. -/
inductive PurchaseKind where
  | purchase
  | none
deriving DecidableEq, Repr

/-- The `data` payload of a positive `PurchaseDetectionResult`. -/
structure PurchaseData where
  merchant : Str
  amount : ℚ
  currency : Str
  orderNumber : Option Str
deriving DecidableEq, Repr

/-- `PurchaseDetectionResult`. -/
structure PurchaseDetectionResult where
  type : PurchaseKind
  confidence : Nat
  data : Option PurchaseData
deriving DecidableEq, Repr

/-- `Purchase` (the fields `detectBatch` writes). -/
structure Purchase where
  emailId : Option Nat
  merchant : Str
  amount : ℚ
  currency : Str
  purchaseDate : Int
  orderNumber : Option Str
  items : List Str
  category : PurchaseCategory
deriving DecidableEq, Repr

/-- `SubscriptionFrequency`. -/
inductive SubscriptionFrequency where
  | weekly
  | monthly
  | yearly
deriving DecidableEq, Repr

/-- `SubscriptionCategory`. -/
inductive SubscriptionCategory where
  | streaming
  | software
  | news
  | fitness
  | other
deriving DecidableEq, Repr

/-- `SubscriptionDetectionResult`. -/
structure SubscriptionDetectionResult where
  isSubscription : Bool
  serviceName : Option Str
  category : SubscriptionCategory
  amount : Option ℚ
  currency : Option Str
  frequency : Option SubscriptionFrequency
deriving DecidableEq, Repr

/-- `Subscription` (the fields `detectBatch` writes; `emailIds` receives
`email.id!`, which at runtime may be `undefined`, hence `Option Nat`). -/
structure Subscription where
  serviceName : Str
  monthlyAmount : ℚ
  currency : Str
  frequency : SubscriptionFrequency
  lastRenewalDate : Int
  emailIds : List (Option Nat)
  isActive : Bool
  category : SubscriptionCategory
deriving DecidableEq, Repr

/-- Newsletter frequency estimate. -/
inductive NFreq where
  | daily
  | weekly
  | monthly
  | irregular
deriving DecidableEq, Repr

/-- `NewsletterDetectionResult`. -/
structure NewsletterDetectionResult where
  isNewsletter : Bool
  isPromotional : Bool
  confidence : Nat
  unsubscribeLink : Option Str
deriving DecidableEq, Repr

/-- `Newsletter` (the fields `detectBatch` writes). -/
structure Newsletter where
  senderEmail : Str
  senderName : Str
  emailCount : Nat
  lastEmailDate : Int
  frequency : NFreq
  unsubscribeLink : Option Str
  isPromotional : Bool
deriving DecidableEq, Repr

/-- `OLMParser.parseEmailManually`. -/
def parseEmailManually (xml : Str) : Option PEmail :=
  let subject := jsOr (getTag xml ("OPFMessageCopySubject"))
    (getTag xml ("subject"))
  let body := jsOr (getTag xml ("OPFMessageCopyBody")) (getTag xml ("body"))
  let dateStr := jsOr (getTag xml ("OPFMessageCopySentTime"))
    (getTag xml ("date"))
  let sender :=
    match reFind senderAttrRe xml with
    | some q => (capGet q.2.2.1 1).getD []
    | none => []
  if subject.isEmpty ∧ body.isEmpty then none
  else
    some
      { subject := jsOr subject (lit ("(No Subject)"))
        sender := cleanEmailAddress sender
        senderName := none
        recipients := []
        date := dateStr
        body := body
        htmlBody := none
        size := xml.length
        isRead := false
        isStarred := false
        folderId := lit ("inbox")
        threadId := none }


/-!
Embedding of `src/detectors/account.ts` (`AccountDetector`).  Each regex of
the pattern lists is transcribed into the engine next to its source text.
-/

/-- The class `[:\\s]`. -/
def colWsCls : RE := .cls (fun c => c = ':' || isWs c)

/-- The class `[a-zA-Z0-9]`. -/
def alnumCls : RE := .cls (fun c => isAlphaCh c || isDigitCh c)

/-- `strongSubjectPatterns` of `AccountDetector`, in source order. -/
def accSubjPatterns : List RE :=
  [ -- /^welcome to/i
   rcat [.bol, rstri ("welcome to")],
   -- /^verify your.*(?:email|account)/i
   rcat [.bol, rstri ("verify your"), rstar clsAny,
     ralt [rstri ("email"), rstri ("account")]],
   -- /^confirm your.*(?:email|account|registration)/i
   rcat [.bol, rstri ("confirm your"), rstar clsAny,
     ralt [rstri ("email"), rstri ("account"), rstri ("registration")]],
   -- /^activate your.*account/i
   rcat [.bol, rstri ("activate your"), rstar clsAny, rstri ("account")],
   -- /^your.*account.*(?:has been |is )created/i
   rcat [.bol, rstri ("your"), rstar clsAny, rstri ("account"), rstar clsAny,
     ralt [rstri ("has been "), rstri ("is ")], rstri ("created")],
   -- /^(?:complete|finish) your registration/i
   rcat [.bol, ralt [rstri ("complete"), rstri ("finish")],
     rstri (" your registration")],
   -- /^thanks for (?:signing up|registering|joining)/i
   rcat [.bol, rstri ("thanks for "),
     ralt [rstri ("signing up"), rstri ("registering"), rstri ("joining")]],
   -- /^you(?:'re| are) (?:in|registered)/i
   rcat [.bol, rstri ("you"),
     ralt [rcat [rchr apos, rstri ("re")], rstri (" are")], rchr ' ',
     ralt [rstri ("in"), rstri ("registered")]],
   -- /email verification/i
   rstri ("email verification"),
   -- /account verification/i
   rstri ("account verification")]

/-- `strongBodyPatterns` of `AccountDetector`, in source order. -/
def accBodyPatterns : List RE :=
  [ -- /click.*(?:here|below|button).*(?:to )?verify your email/i
   rcat [rstri ("click"), rstar clsAny,
     ralt [rstri ("here"), rstri ("below"), rstri ("button")], rstar clsAny,
     ropt (rstri ("to ")), rstri ("verify your email")],
   -- /confirm your email address/i
   rstri ("confirm your email address"),
   -- /complete your registration/i
   rstri ("complete your registration"),
   -- /your account has been (?:successfully )?created/i
   rcat [rstri ("your account has been "), ropt (rstri ("successfully ")),
     rstri ("created")],
   -- /welcome to .{2,50}[!.]/i
   rcat [rstri ("welcome to "), repRange 2 50 clsAny, clsIn ("!.")],
   -- /thanks for (?:signing up|registering|creating an account)/i
   rcat [rstri ("thanks for "),
     ralt [rstri ("signing up"), rstri ("registering"),
       rstri ("creating an account")]],
   -- /verification code[:\\s]+\\d{4,8}/i
   rcat [rstri ("verification code"), rplus colWsCls, repRange 4 8 clsD],
   -- /your verification code is/i
   rstri ("your verification code is")]

/-- The `knownServices` catalog of `AccountDetector`, in source
(= JS object insertion) order. -/
def knownServices : List (Str × Str × ServiceType) :=
  [
  (lit ("netflix.com"), lit ("Netflix"), ServiceType.streaming),
  (lit ("spotify.com"), lit ("Spotify"), ServiceType.streaming),
  (lit ("hulu.com"), lit ("Hulu"), ServiceType.streaming),
  (lit ("disneyplus.com"), lit ("Disney+"), ServiceType.streaming),
  (lit ("hbomax.com"), lit ("HBO Max"), ServiceType.streaming),
  (lit ("max.com"), lit ("Max"), ServiceType.streaming),
  (lit ("peacocktv.com"), lit ("Peacock"), ServiceType.streaming),
  (lit ("paramountplus.com"), lit ("Paramount+"), ServiceType.streaming),
  (lit ("primevideo.com"), lit ("Prime Video"), ServiceType.streaming),
  (lit ("crunchyroll.com"), lit ("Crunchyroll"), ServiceType.streaming),
  (lit ("youtube.com"), lit ("YouTube"), ServiceType.streaming),
  (lit ("twitch.tv"), lit ("Twitch"), ServiceType.streaming),
  (lit ("appletv.apple.com"), lit ("Apple TV+"), ServiceType.streaming),
  (lit ("funimation.com"), lit ("Funimation"), ServiceType.streaming),
  (lit ("showtime.com"), lit ("Showtime"), ServiceType.streaming),
  (lit ("starz.com"), lit ("Starz"), ServiceType.streaming),
  (lit ("discovery.com"), lit ("Discovery+"), ServiceType.streaming),
  (lit ("espn.com"), lit ("ESPN+"), ServiceType.streaming),
  (lit ("audible.com"), lit ("Audible"), ServiceType.streaming),
  (lit ("pandora.com"), lit ("Pandora"), ServiceType.streaming),
  (lit ("deezer.com"), lit ("Deezer"), ServiceType.streaming),
  (lit ("tidal.com"), lit ("Tidal"), ServiceType.streaming),
  (lit ("amazon.com"), lit ("Amazon"), ServiceType.ecommerce),
  (lit ("ebay.com"), lit ("eBay"), ServiceType.ecommerce),
  (lit ("etsy.com"), lit ("Etsy"), ServiceType.ecommerce),
  (lit ("shopify.com"), lit ("Shopify"), ServiceType.ecommerce),
  (lit ("walmart.com"), lit ("Walmart"), ServiceType.ecommerce),
  (lit ("target.com"), lit ("Target"), ServiceType.ecommerce),
  (lit ("bestbuy.com"), lit ("Best Buy"), ServiceType.ecommerce),
  (lit ("aliexpress.com"), lit ("AliExpress"), ServiceType.ecommerce),
  (lit ("wish.com"), lit ("Wish"), ServiceType.ecommerce),
  (lit ("newegg.com"), lit ("Newegg"), ServiceType.ecommerce),
  (lit ("wayfair.com"), lit ("Wayfair"), ServiceType.ecommerce),
  (lit ("zappos.com"), lit ("Zappos"), ServiceType.ecommerce),
  (lit ("macys.com"), lit ("Macy") ++ apos :: lit ("s"), ServiceType.ecommerce),
  (lit ("nordstrom.com"), lit ("Nordstrom"), ServiceType.ecommerce),
  (lit ("costco.com"), lit ("Costco"), ServiceType.ecommerce),
  (lit ("homedepot.com"), lit ("Home Depot"), ServiceType.ecommerce),
  (lit ("lowes.com"), lit ("Lowe") ++ apos :: lit ("s"), ServiceType.ecommerce),
  (lit ("sephora.com"), lit ("Sephora"), ServiceType.ecommerce),
  (lit ("ulta.com"), lit ("Ulta"), ServiceType.ecommerce),
  (lit ("chewy.com"), lit ("Chewy"), ServiceType.ecommerce),
  (lit ("facebook.com"), lit ("Facebook"), ServiceType.social),
  (lit ("meta.com"), lit ("Meta"), ServiceType.social),
  (lit ("instagram.com"), lit ("Instagram"), ServiceType.social),
  (lit ("twitter.com"), lit ("Twitter"), ServiceType.social),
  (lit ("x.com"), lit ("X"), ServiceType.social),
  (lit ("linkedin.com"), lit ("LinkedIn"), ServiceType.social),
  (lit ("tiktok.com"), lit ("TikTok"), ServiceType.social),
  (lit ("reddit.com"), lit ("Reddit"), ServiceType.social),
  (lit ("pinterest.com"), lit ("Pinterest"), ServiceType.social),
  (lit ("snapchat.com"), lit ("Snapchat"), ServiceType.social),
  (lit ("threads.net"), lit ("Threads"), ServiceType.social),
  (lit ("tumblr.com"), lit ("Tumblr"), ServiceType.social),
  (lit ("mastodon.social"), lit ("Mastodon"), ServiceType.social),
  (lit ("bluesky.social"), lit ("Bluesky"), ServiceType.social),
  (lit ("nextdoor.com"), lit ("Nextdoor"), ServiceType.social),
  (lit ("quora.com"), lit ("Quora"), ServiceType.social),
  (lit ("github.com"), lit ("GitHub"), ServiceType.development),
  (lit ("gitlab.com"), lit ("GitLab"), ServiceType.development),
  (lit ("bitbucket.org"), lit ("Bitbucket"), ServiceType.development),
  (lit ("atlassian.com"), lit ("Atlassian"), ServiceType.development),
  (lit ("jetbrains.com"), lit ("JetBrains"), ServiceType.development),
  (lit ("stackoverflow.com"), lit ("Stack Overflow"), ServiceType.development),
  (lit ("heroku.com"), lit ("Heroku"), ServiceType.development),
  (lit ("vercel.com"), lit ("Vercel"), ServiceType.development),
  (lit ("netlify.com"), lit ("Netlify"), ServiceType.development),
  (lit ("digitalocean.com"), lit ("DigitalOcean"), ServiceType.development),
  (lit ("aws.amazon.com"), lit ("AWS"), ServiceType.development),
  (lit ("cloud.google.com"), lit ("Google Cloud"), ServiceType.development),
  (lit ("azure.microsoft.com"), lit ("Azure"), ServiceType.development),
  (lit ("cloudflare.com"), lit ("Cloudflare"), ServiceType.development),
  (lit ("trello.com"), lit ("Trello"), ServiceType.development),
  (lit ("asana.com"), lit ("Asana"), ServiceType.development),
  (lit ("monday.com"), lit ("Monday.com"), ServiceType.development),
  (lit ("jira.com"), lit ("Jira"), ServiceType.development),
  (lit ("confluence.com"), lit ("Confluence"), ServiceType.development),
  (lit ("npm.com"), lit ("npm"), ServiceType.development),
  (lit ("docker.com"), lit ("Docker"), ServiceType.development),
  (lit ("firebase.google.com"), lit ("Firebase"), ServiceType.development),
  (lit ("render.com"), lit ("Render"), ServiceType.development),
  (lit ("railway.app"), lit ("Railway"), ServiceType.development),
  (lit ("supabase.com"), lit ("Supabase"), ServiceType.development),
  (lit ("planetscale.com"), lit ("PlanetScale"), ServiceType.development),
  (lit ("slack.com"), lit ("Slack"), ServiceType.communication),
  (lit ("zoom.us"), lit ("Zoom"), ServiceType.communication),
  (lit ("discord.com"), lit ("Discord"), ServiceType.communication),
  (lit ("teams.microsoft.com"), lit ("Microsoft Teams"), ServiceType.communication),
  (lit ("telegram.org"), lit ("Telegram"), ServiceType.communication),
  (lit ("whatsapp.com"), lit ("WhatsApp"), ServiceType.communication),
  (lit ("signal.org"), lit ("Signal"), ServiceType.communication),
  (lit ("webex.com"), lit ("Webex"), ServiceType.communication),
  (lit ("gotomeeting.com"), lit ("GoToMeeting"), ServiceType.communication),
  (lit ("line.me"), lit ("LINE"), ServiceType.communication),
  (lit ("viber.com"), lit ("Viber"), ServiceType.communication),
  (lit ("paypal.com"), lit ("PayPal"), ServiceType.banking),
  (lit ("venmo.com"), lit ("Venmo"), ServiceType.banking),
  (lit ("stripe.com"), lit ("Stripe"), ServiceType.banking),
  (lit ("chase.com"), lit ("Chase"), ServiceType.banking),
  (lit ("bankofamerica.com"), lit ("Bank of America"), ServiceType.banking),
  (lit ("wellsfargo.com"), lit ("Wells Fargo"), ServiceType.banking),
  (lit ("capitalone.com"), lit ("Capital One"), ServiceType.banking),
  (lit ("citi.com"), lit ("Citibank"), ServiceType.banking),
  (lit ("schwab.com"), lit ("Charles Schwab"), ServiceType.banking),
  (lit ("fidelity.com"), lit ("Fidelity"), ServiceType.banking),
  (lit ("robinhood.com"), lit ("Robinhood"), ServiceType.banking),
  (lit ("coinbase.com"), lit ("Coinbase"), ServiceType.banking),
  (lit ("americanexpress.com"), lit ("American Express"), ServiceType.banking),
  (lit ("discover.com"), lit ("Discover"), ServiceType.banking),
  (lit ("usbank.com"), lit ("US Bank"), ServiceType.banking),
  (lit ("pnc.com"), lit ("PNC"), ServiceType.banking),
  (lit ("tdbank.com"), lit ("TD Bank"), ServiceType.banking),
  (lit ("ally.com"), lit ("Ally Bank"), ServiceType.banking),
  (lit ("marcus.com"), lit ("Marcus"), ServiceType.banking),
  (lit ("sofi.com"), lit ("SoFi"), ServiceType.banking),
  (lit ("chime.com"), lit ("Chime"), ServiceType.banking),
  (lit ("cashapp.com"), lit ("Cash App"), ServiceType.banking),
  (lit ("wealthfront.com"), lit ("Wealthfront"), ServiceType.banking),
  (lit ("betterment.com"), lit ("Betterment"), ServiceType.banking),
  (lit ("acorns.com"), lit ("Acorns"), ServiceType.banking),
  (lit ("kraken.com"), lit ("Kraken"), ServiceType.banking),
  (lit ("binance.com"), lit ("Binance"), ServiceType.banking),
  (lit ("dropbox.com"), lit ("Dropbox"), ServiceType.other),
  (lit ("box.com"), lit ("Box"), ServiceType.other),
  (lit ("notion.so"), lit ("Notion"), ServiceType.other),
  (lit ("figma.com"), lit ("Figma"), ServiceType.other),
  (lit ("canva.com"), lit ("Canva"), ServiceType.other),
  (lit ("adobe.com"), lit ("Adobe"), ServiceType.other),
  (lit ("microsoft.com"), lit ("Microsoft"), ServiceType.other),
  (lit ("google.com"), lit ("Google"), ServiceType.other),
  (lit ("apple.com"), lit ("Apple"), ServiceType.other),
  (lit ("icloud.com"), lit ("iCloud"), ServiceType.other),
  (lit ("uber.com"), lit ("Uber"), ServiceType.other),
  (lit ("lyft.com"), lit ("Lyft"), ServiceType.other),
  (lit ("doordash.com"), lit ("DoorDash"), ServiceType.other),
  (lit ("grubhub.com"), lit ("Grubhub"), ServiceType.other),
  (lit ("instacart.com"), lit ("Instacart"), ServiceType.other),
  (lit ("airbnb.com"), lit ("Airbnb"), ServiceType.other),
  (lit ("evernote.com"), lit ("Evernote"), ServiceType.other),
  (lit ("todoist.com"), lit ("Todoist"), ServiceType.other),
  (lit ("grammarly.com"), lit ("Grammarly"), ServiceType.other),
  (lit ("1password.com"), lit ("1Password"), ServiceType.other),
  (lit ("lastpass.com"), lit ("LastPass"), ServiceType.other),
  (lit ("bitwarden.com"), lit ("Bitwarden"), ServiceType.other),
  (lit ("dashlane.com"), lit ("Dashlane"), ServiceType.other),
  (lit ("nordvpn.com"), lit ("NordVPN"), ServiceType.other),
  (lit ("expressvpn.com"), lit ("ExpressVPN"), ServiceType.other),
  (lit ("surfshark.com"), lit ("Surfshark"), ServiceType.other),
  (lit ("duolingo.com"), lit ("Duolingo"), ServiceType.other),
  (lit ("coursera.org"), lit ("Coursera"), ServiceType.other),
  (lit ("udemy.com"), lit ("Udemy"), ServiceType.other),
  (lit ("skillshare.com"), lit ("Skillshare"), ServiceType.other),
  (lit ("masterclass.com"), lit ("MasterClass"), ServiceType.other),
  (lit ("calm.com"), lit ("Calm"), ServiceType.other),
  (lit ("headspace.com"), lit ("Headspace"), ServiceType.other),
  (lit ("strava.com"), lit ("Strava"), ServiceType.other),
  (lit ("peloton.com"), lit ("Peloton"), ServiceType.other),
  (lit ("myfitnesspal.com"), lit ("MyFitnessPal"), ServiceType.other),
  (lit ("fitbit.com"), lit ("Fitbit"), ServiceType.other)].map (fun e => e)

/-- `AccountDetector.findKnownService`: exact domain hit, then the
suffix-match pass (`domain === d || domain.endsWith("." + d)`), then the
base-word containment pass. -/
def endsWithStr (suf s : Str) : Bool := isPre suf.reverse s.reverse

/-- `AccountDetector.findKnownService`. -/
def findKnownService (domain : Str) : Option (Str × ServiceType) :=
  match knownServices.find? (fun e => e.1 = domain) with
  | some e => some e.2
  | none =>
    match knownServices.find?
        (fun e => domain = e.1 || endsWithStr ('.' :: e.1) domain) with
    | some e => some e.2
    | none =>
      (knownServices.find? (fun e =>
        let base := (splitCh '.' e.1).headD []
        containsSub (base ++ lit (".")) domain ||
          containsSub (lit (".") ++ base) domain)).map (·.2)

/-- The capture `([A-Z][a-zA-Z0-9]+(?:\\s[A-Z][a-zA-Z0-9]+)?)` of
`extractServiceName` (under `/i`, `[A-Z]` is any letter). -/
def svcNameCap : RE :=
  .grp 1 (rcat [.cls isAlphaCh, rplus alnumCls,
    ropt (rcat [clsS, .cls isAlphaCh, rplus alnumCls])])

/-- The extraction patterns of `AccountDetector.extractServiceName`,
in source order. -/
def accNamePatterns : List RE :=
  [ -- /^welcome to ([A-Z][a-zA-Z0-9]+(?:\\s[A-Z][a-zA-Z0-9]+)?)[!.,]/i
   rcat [.bol, rstri ("welcome to "), svcNameCap, clsIn ("!.,")],
   -- /thanks for (?:signing up|joining|registering) (?:for |with )?(...)[!.,]/i
   rcat [rstri ("thanks for "),
     ralt [rstri ("signing up"), rstri ("joining"), rstri ("registering")],
     rchr ' ', ropt (ralt [rstri ("for "), rstri ("with ")]), svcNameCap,
     clsIn ("!.,")],
   -- /your ([A-Z][a-zA-Z0-9]+(?:\\s[A-Z][a-zA-Z0-9]+)?) account (?:has been |is )?(?:created|ready)/i
   rcat [rstri ("your "), svcNameCap, rstri (" account "),
     ropt (ralt [rstri ("has been "), rstri ("is ")]),
     ralt [rstri ("created"), rstri ("ready")]]]

/-- First-character letter test (`/^[A-Z]/i.test`). -/
def headAlpha : Str → Bool
  | [] => false
  | c :: _ => isAlphaCh c

/-- `AccountDetector.extractServiceName`: first pattern whose capture,
trimmed, has 2 to 30 characters and starts with a letter
(`/^[A-Z]/i.test`). -/
def extractServiceName (subject : Str) : Str :=
  (accNamePatterns.findSome? (fun re =>
    match reFind re subject with
    | some q =>
      match capGet q.2.2.1 1 with
      | some cap =>
        if cap.isEmpty then none
        else
          let name := trim cap
          if 2 ≤ name.length ∧ name.length ≤ 30 ∧ headAlpha name then
            some name
          else none
      | none => none
    | none => none)).getD []

/-- `AccountDetector.formatDomainAsServiceName`.  (The skip-word
re-assignment recomputes the same value; it is kept as in the source.) -/
def formatDomainAsServiceName (domain : Str) : Str :=
  if domain.isEmpty then []
  else
    let parts := splitCh '.' domain
    if parts.length < 2 then []
    else
      let mainPart :=
        if 2 < parts.length then (parts.get? (parts.length - 2)).getD []
        else parts.headD []
      let skip := [lit ("mail"), lit ("email"), lit ("noreply"),
        lit ("no-reply"), lit ("notifications"), lit ("info"),
        lit ("support")]
      let mainPart :=
        if skip.contains (lower mainPart) then
          (if 2 < parts.length then (parts.get? (parts.length - 2)).getD []
           else parts.headD [])
        else mainPart
      match mainPart with
      | [] => []
      | c :: t => c.toUpper :: t

/-- `AccountDetector.detect`. -/
def accountDetect (e : Email) : AccountDetectionResult :=
  let subject := e.subject
  let body := stripHtml e.body
  let domain := extractDomain e.sender
  let svc := findKnownService domain
  let detected0 := match svc with | some s => s.1 | none => []
  let stype := match svc with | some s => s.2 | none => ServiceType.other
  let c1 : Nat := if svc.isSome then 40 else 0
  let c2 := c1 + (if accSubjPatterns.any (fun r => reTest r subject) then 40
    else 0)
  let c3 := c2 + (if accBodyPatterns.any (fun r => reTest r body) then 30
    else 0)
  let cd :=
    if 40 ≤ c3 ∧ detected0.isEmpty then
      let ex := extractServiceName subject
      if !ex.isEmpty then (c3 + 10, ex)
      else (c3, formatDomainAsServiceName domain)
    else (c3, detected0)
  if 70 ≤ cd.1 ∧ !cd.2.isEmpty then
    { type := .account, confidence := cd.1, data := some (cd.2, stype) }
  else { type := .none, confidence := 0, data := none }

/-- Truthiness of `result.data?.serviceName`. -/
def accDataNamed : Option (Str × ServiceType) → Bool
  | some d => !d.1.isEmpty
  | none => false

/-- One iteration of the `AccountDetector.detectBatch` loop, threading the
processed-email list as explicit state (the loop body reads `email` and
writes only the detector-owned map, so each email is passed through
unchanged). -/
def accountBatchStep (st : List Email × AList Account) (e : Email) :
    List Email × AList Account :=
  let r := accountDetect e
  let m :=
    if r.type = .account ∧ accDataNamed r.data then
      let d := r.data.getD ([], ServiceType.other)
      let key := lower d.1
      match alGet st.2 key with
      | none =>
        alSet st.2 key
          { serviceName := d.1, signupEmailId := e.id, signupDate := e.date,
            serviceType := d.2, domain := extractDomain e.sender,
            emailCount := 1 }
      | some ex =>
        alSet st.2 key
          { ex with
            emailCount := ex.emailCount + 1
            signupDate := if e.date < ex.signupDate then e.date
              else ex.signupDate
            signupEmailId := if e.date < ex.signupDate then e.id
              else ex.signupEmailId }
    else st.2
  (st.1 ++ [e], m)

/-- `AccountDetector.detectBatch` with the processed emails returned
alongside the accounts (`Array.from(map.values())` is the map values in
insertion order). -/
def accountDetectBatchS (emails : List Email) :
    List Email × List Account :=
  let st := emails.foldl accountBatchStep ([], [])
  (st.1, st.2.map (·.2))


/-!
Embedding of the purchase detector (`PurchaseDetector`).
-/

/-- The currency-symbol class `[$€£¥₹₩]`. -/
def currSymCls : RE := clsIn ("$€£¥₹₩")

/-- The amount tail `[\\d,]+[.,]?\\d*` of the strong body patterns. -/
def looseAmt : RE :=
  rcat [rplus (clsIn ("0123456789,")), ropt (clsIn (".,")), rstar clsD]

/-- The class `[A-Z0-9-]` under `/i`. -/
def ordCls : RE := .cls (fun c => isAlphaCh c || isDigitCh c || c = '-')

/-- `strongSubjectPatterns` of `PurchaseDetector`, in source order. -/
def purchaseSubjPatterns : List RE :=
  [ -- /^(?:your )?order (?:confirmation|receipt|#)/i
   rcat [.bol, ropt (rstri ("your ")), rstri ("order "),
     ralt [rstri ("confirmation"), rstri ("receipt"), rstri ("#")]],
   -- /^(?:your )?(?:purchase|payment) (?:confirmation|receipt)/i
   rcat [.bol, ropt (rstri ("your ")),
     ralt [rstri ("purchase"), rstri ("payment")], rchr ' ',
     ralt [rstri ("confirmation"), rstri ("receipt")]],
   -- /^receipt (?:for|from)/i
   rcat [.bol, rstri ("receipt "), ralt [rstri ("for"), rstri ("from")]],
   -- /^invoice (?:for|from|#)/i
   rcat [.bol, rstri ("invoice "),
     ralt [rstri ("for"), rstri ("from"), rstri ("#")]],
   -- /^thank you for your (?:order|purchase)/i
   rcat [.bol, rstri ("thank you for your "),
     ralt [rstri ("order"), rstri ("purchase")]],
   -- /^order #?\\w+ (?:confirmed|shipped|delivered)/i
   rcat [.bol, rstri ("order "), ropt (rchr '#'), rplus clsW, rchr ' ',
     ralt [rstri ("confirmed"), rstri ("shipped"), rstri ("delivered")]],
   -- /^your .{2,30} order/i
   rcat [.bol, rstri ("your "), repRange 2 30 clsAny, rstri (" order")],
   -- /^shipping confirmation/i
   rcat [.bol, rstri ("shipping confirmation")],
   -- /^payment received/i
   rcat [.bol, rstri ("payment received")],
   -- /^transaction receipt/i
   rcat [.bol, rstri ("transaction receipt")]]

/-- `strongBodyPatterns` of `PurchaseDetector`, in source order. -/
def purchaseBodyPatterns : List RE :=
  [ -- /order\\s+(?:total|summary)[:\\s]+[$€£¥₹₩]\\s*[\\d,]+[.,]?\\d*/i
   rcat [rstri ("order"), rplus clsS,
     ralt [rstri ("total"), rstri ("summary")], rplus colWsCls, currSymCls,
     rstar clsS, looseAmt],
   -- /(?:amount|total)\\s+(?:charged|paid)[:\\s]+[$€£¥₹₩]\\s*[\\d,]+[.,]?\\d*/i
   rcat [ralt [rstri ("amount"), rstri ("total")], rplus clsS,
     ralt [rstri ("charged"), rstri ("paid")], rplus colWsCls, currSymCls,
     rstar clsS, looseAmt],
   -- /you (?:have )?(?:paid|purchased|ordered)/i
   rcat [rstri ("you "), ropt (rstri ("have ")),
     ralt [rstri ("paid"), rstri ("purchased"), rstri ("ordered")]],
   -- /thank you for your (?:order|purchase) (?:of|from)/i
   rcat [rstri ("thank you for your "),
     ralt [rstri ("order"), rstri ("purchase")], rchr ' ',
     ralt [rstri ("of"), rstri ("from")]],
   -- /your order has been (?:confirmed|placed|received)/i
   rcat [rstri ("your order has been "),
     ralt [rstri ("confirmed"), rstri ("placed"), rstri ("received")]],
   -- /payment of [$€£¥₹₩]\\s*[\\d,]+[.,]?\\d*/i
   rcat [rstri ("payment of "), currSymCls, rstar clsS, looseAmt],
   -- /transaction amount[:\\s]+[$€£¥₹₩]\\s*[\\d,]+[.,]?\\d*/i
   rcat [rstri ("transaction amount"), rplus colWsCls, currSymCls,
     rstar clsS, looseAmt],
   -- /order #\\s*[A-Z0-9-]{5,}/i
   rcat [rstri ("order #"), rstar clsS, repAtLeast 5 ordCls],
   -- /order number[:\\s]+[A-Z0-9-]{5,}/i
   rcat [rstri ("order number"), rplus colWsCls, repAtLeast 5 ordCls]]

/-- `antiPatterns` of `PurchaseDetector`, in source order. -/
def purchaseAntiPatterns : List RE :=
  [rcat [rstri ("save $"), rplus clsD],        -- /save \\$\\d+/i
   rcat [rstri ("up to "), rplus clsD, rstri ("% off")], -- /up to \\d+% off/i
   rstri ("free shipping"),
   rstri ("sale ends"),
   rstri ("limited time"),
   rstri ("discount code"),
   rstri ("promo code"),
   rstri ("shop now"),
   rstri ("buy now"),
   rstri ("subscribe"),
   rstri ("unsubscribe"),
   rstri ("view in browser")]

/-- The `knownMerchants` catalog, in source order. -/
def knownMerchants : List (Str × Str) :=
  [(lit ("amazon.com"), lit ("Amazon")),
   (lit ("ebay.com"), lit ("eBay")),
   (lit ("etsy.com"), lit ("Etsy")),
   (lit ("paypal.com"), lit ("PayPal")),
   (lit ("stripe.com"), lit ("Stripe")),
   (lit ("apple.com"), lit ("Apple")),
   (lit ("google.com"), lit ("Google")),
   (lit ("microsoft.com"), lit ("Microsoft")),
   (lit ("netflix.com"), lit ("Netflix")),
   (lit ("spotify.com"), lit ("Spotify")),
   (lit ("uber.com"), lit ("Uber")),
   (lit ("ubereats.com"), lit ("Uber Eats")),
   (lit ("doordash.com"), lit ("DoorDash")),
   (lit ("grubhub.com"), lit ("Grubhub")),
   (lit ("walmart.com"), lit ("Walmart")),
   (lit ("target.com"), lit ("Target")),
   (lit ("bestbuy.com"), lit ("Best Buy")),
   (lit ("costco.com"), lit ("Costco")),
   (lit ("airbnb.com"), lit ("Airbnb")),
   (lit ("booking.com"), lit ("Booking.com")),
   (lit ("expedia.com"), lit ("Expedia")),
   (lit ("lyft.com"), lit ("Lyft")),
   (lit ("instacart.com"), lit ("Instacart")),
   (lit ("ticketmaster.com"), lit ("Ticketmaster")),
   (lit ("steampowered.com"), lit ("Steam")),
   (lit ("epicgames.com"), lit ("Epic Games"))]

/-- The `merchantCategories` table, in source order. -/
def merchantCategories : List (Str × PurchaseCategory) :=
  [(lit ("amazon"), .ecommerce), (lit ("ebay"), .ecommerce),
   (lit ("etsy"), .ecommerce), (lit ("walmart"), .ecommerce),
   (lit ("target"), .ecommerce), (lit ("best buy"), .technology),
   (lit ("newegg"), .technology), (lit ("apple"), .technology),
   (lit ("microsoft"), .technology), (lit ("paypal"), .payment),
   (lit ("stripe"), .payment), (lit ("netflix"), .entertainment),
   (lit ("spotify"), .entertainment), (lit ("steam"), .entertainment),
   (lit ("doordash"), .food), (lit ("grubhub"), .food),
   (lit ("uber eats"), .food), (lit ("instacart"), .food),
   (lit ("uber"), .transportation), (lit ("lyft"), .transportation),
   (lit ("airbnb"), .travel), (lit ("expedia"), .travel)]

/-- The USD capture `([\\d,]+\\.\\d{2})`. -/
def usdAmtCap : RE :=
  .grp 1 (rcat [rplus (clsIn ("0123456789,")), rchr '.', repExact 2 clsD])

/-- The EUR capture `([\\d\\s,]+[.,]\\d{2})`. -/
def eurAmtCap : RE :=
  .grp 1 (rcat [rplus (.cls (fun c => isDigitCh c || isWs c || c = ',')),
    clsIn (".,"), repExact 2 clsD])

/-- The JPY capture `([\\d,]+)`. -/
def jpyAmtCap : RE := .grp 1 (rplus (clsIn ("0123456789,")))

/-- The context-anchored amount patterns of `PurchaseDetector.extractAmount`
with their currencies, in source order. -/
def purchaseCtxPatterns : List (Str × RE) :=
  [ -- USD /(?:order\\s+)?total[:\\s]+\\$\\s*([\\d,]+\\.\\d{2})/i
   (lit ("USD"), rcat [ropt (rcat [rstri ("order"), rplus clsS]),
     rstri ("total"), rplus colWsCls, rchr '$', rstar clsS, usdAmtCap]),
   -- USD /(?:amount|total)\\s+(?:charged|paid|due)[:\\s]+\\$\\s*([\\d,]+\\.\\d{2})/i
   (lit ("USD"), rcat [ralt [rstri ("amount"), rstri ("total")], rplus clsS,
     ralt [rstri ("charged"), rstri ("paid"), rstri ("due")], rplus colWsCls,
     rchr '$', rstar clsS, usdAmtCap]),
   -- EUR /(?:order\\s+)?total[:\\s]+€\\s*([\\d\\s,]+[.,]\\d{2})/i
   (lit ("EUR"), rcat [ropt (rcat [rstri ("order"), rplus clsS]),
     rstri ("total"), rplus colWsCls, rchr '€', rstar clsS, eurAmtCap]),
   -- GBP /(?:order\\s+)?total[:\\s]+£\\s*([\\d,]+\\.\\d{2})/i
   (lit ("GBP"), rcat [ropt (rcat [rstri ("order"), rplus clsS]),
     rstri ("total"), rplus colWsCls, rchr '£', rstar clsS, usdAmtCap]),
   -- JPY /(?:order\\s+)?total[:\\s]+¥\\s*([\\d,]+)/i
   (lit ("JPY"), rcat [ropt (rcat [rstri ("order"), rplus clsS]),
     rstri ("total"), rplus colWsCls, rchr '¥', rstar clsS, jpyAmtCap])]

/-- The fallback scan regexes of `PurchaseDetector.extractAmount` with their
currencies, in source order. -/
def purchaseFallbackRes : List (Str × RE) :=
  [ -- EUR /€\\s*([\\d\\s,]+[.,]\\d{2})/g
   (lit ("EUR"), rcat [rchr '€', rstar clsS, eurAmtCap]),
   -- GBP /£\\s*([\\d,]+\\.\\d{2})/g
   (lit ("GBP"), rcat [rchr '£', rstar clsS, usdAmtCap]),
   -- USD /\\$\\s*([\\d,]+\\.\\d{2})/g
   (lit ("USD"), rcat [rchr '$', rstar clsS, usdAmtCap])]

/-- The European decimal-tail test `/,\\d{2}$/`. -/
def endsCommaTwoDigits (s : Str) : Bool :=
  match s.reverse with
  | d1 :: d2 :: ',' :: _ => isDigitCh d1 && isDigitCh d2
  | _ => false

/-- Replaces the first occurrence of a character (non-global
`replace(",", ".")`). -/
def replaceFirstCh (a b : Char) : Str → Str
  | [] => []
  | c :: t => if c = a then b :: t else c :: replaceFirstCh a b t

/-- The thousand-separator strip `replace(/,(?=\\d{3})/g, "")`: removes each
comma followed by three digits (the lookahead consumes nothing). -/
def stripThousands : Str → Str
  | ',' :: rest =>
    if (match rest with
        | a :: b :: c :: _ => isDigitCh a && isDigitCh b && isDigitCh c
        | _ => false) then
      stripThousands rest
    else ',' :: stripThousands rest
  | c :: t => c :: stripThousands t
  | [] => []

/-- `PurchaseDetector.parseAmount` (result in `ℚ`; `NaN` becomes `0` as in
the source). -/
def parseAmount (amountStr : Str) (currency : Str) : ℚ :=
  let c1 := amountStr.filter (fun c => !isWs c)
  let c2 :=
    if currency = lit ("EUR") ∧ endsCommaTwoDigits c1 then
      replaceFirstCh ',' '.' (c1.filter (fun c => c ≠ '.'))
    else c1
  let c3 := stripThousands (c2.filter (fun c => c ≠ apos))
  (parseFloatQ c3).getD 0

/-- The context-pattern phase of `PurchaseDetector.extractAmount`: the first
pattern whose captured amount parses positive wins. -/
def purchaseContextScan (text : Str) : Option (ℚ × Str) :=
  purchaseCtxPatterns.findSome? (fun e =>
    match reFind e.2 text with
    | some q =>
      match capGet q.2.2.1 1 with
      | some cap =>
        if cap.isEmpty then none
        else
          let a := parseAmount cap e.1
          if 0 < a then some (a, e.1) else none
      | none => none
    | none => none)

/-- The fallback phase of `PurchaseDetector.extractAmount`: per currency,
when the global scan finds 1 to 5 matches, the parsed amounts inside
`(0, 500000)` are collected and their maximum is returned. -/
def purchaseFallbackScan (text : Str) : Option (ℚ × Str) :=
  purchaseFallbackRes.findSome? (fun e =>
    let all := matchAll e.2 text
    if 1 ≤ all.length ∧ all.length ≤ 5 then
      match (all.map (fun m => parseAmount ((capGet m.2 1).getD []) e.1)
          ).filter (fun a => 0 < a ∧ a < 500000) with
      | [] => none
      | a :: rest => some (rest.foldl max a, e.1)
    else none)

/-- `PurchaseDetector.extractAmount`. -/
def extractAmount (text : Str) : ℚ × Str :=
  match purchaseContextScan text with
  | some r => r
  | none =>
    match purchaseFallbackScan text with
    | some r => r
    | none => (0, lit ("USD"))

/-- The order-number capture `([A-Z0-9][A-Z0-9-]{4,20})`. -/
def orderNumCap : RE := .grp 1 (rcat [alnumCls, repRange 4 20 ordCls])

/-- The class `[:\\s]*` separator of the order-number patterns. -/
def orderSep : RE := rstar colWsCls

/-- The order-number patterns of `PurchaseDetector.extractOrderNumber`, in
source order. -/
def orderNumPatterns : List RE :=
  [ -- /order\\s*(?:#|number|no\\.?)[:\\s]*([A-Z0-9][A-Z0-9-]{4,20})/i
   rcat [rstri ("order"), rstar clsS,
     ralt [rstri ("#"), rstri ("number"), rcat [rstri ("no"),
       ropt (rchr '.')]], orderSep, orderNumCap],
   -- /confirmation\\s*(?:#|number|no\\.?)[:\\s]*([A-Z0-9][A-Z0-9-]{4,20})/i
   rcat [rstri ("confirmation"), rstar clsS,
     ralt [rstri ("#"), rstri ("number"), rcat [rstri ("no"),
       ropt (rchr '.')]], orderSep, orderNumCap],
   -- /(?:order|reference)\\s+(?:id|#)[:\\s]*([A-Z0-9][A-Z0-9-]{4,20})/i
   rcat [ralt [rstri ("order"), rstri ("reference")], rplus clsS,
     ralt [rstri ("id"), rstri ("#")], orderSep, orderNumCap]]

/-- `PurchaseDetector.isValidOrderNumber`. -/
def isValidOrderNumber (o : Str) : Bool :=
  if o.isEmpty || o.length < 5 || 30 < o.length then false
  else if !(match o with
    | c :: _ => isAlphaCh c || isDigitCh c
    | [] => false) then false
  else if !(o.all (fun c => isAlphaCh c || isDigitCh c || c = '-')) then
    false
  else
    !([lit ("-collapse"), lit ("-color"), lit ("-width"), lit ("-height"),
        lit ("-size")].any (fun p => containsSub p (lower o)))

/-- `PurchaseDetector.extractOrderNumber`. -/
def extractOrderNumber (text : Str) : Str :=
  (orderNumPatterns.findSome? (fun re =>
    match reFind re text with
    | some q =>
      match capGet q.2.2.1 1 with
      | some cap =>
        if cap.isEmpty then none
        else
          let o := trim cap
          if isValidOrderNumber o then some o else none
      | none => none
    | none => none)).getD []

/-- `PurchaseDetector.findKnownMerchant`. -/
def findKnownMerchant (domain : Str) : Option Str :=
  match knownMerchants.find? (fun e => e.1 = domain) with
  | some e => some e.2
  | none =>
    (knownMerchants.find?
      (fun e => domain = e.1 || endsWithStr ('.' :: e.1) domain)).map (·.2)

/-- `PurchaseDetector.formatDomainAsMerchant`. -/
def formatDomainAsMerchant (domain : Str) : Str :=
  if domain.isEmpty then []
  else
    let parts := splitCh '.' domain
    if parts.length < 2 then []
    else
      let mainPart :=
        if 2 < parts.length then (parts.get? (parts.length - 2)).getD []
        else parts.headD []
      let skip := [lit ("mail"), lit ("email"), lit ("noreply"),
        lit ("orders"), lit ("receipts"), lit ("billing")]
      let mainPart :=
        if skip.contains (lower mainPart) ∧ 2 < parts.length then
          (parts.get? (parts.length - 2)).getD []
        else mainPart
      match mainPart with
      | [] => []
      | c :: t => c.toUpper :: t

/-- `PurchaseDetector.detect`. -/
def purchaseDetect (e : Email) : PurchaseDetectionResult :=
  let subject := e.subject
  let body := stripHtml e.body
  let combined := subject ++ ' ' :: body
  if 3 ≤ (purchaseAntiPatterns.filter (fun r => reTest r combined)).length
  then { type := .none, confidence := 0, data := none }
  else
    let domain := extractDomain e.sender
    let km := findKnownMerchant domain
    let merchant0 := km.getD []
    let c1 : Nat := if km.isSome then 30 else 0
    let c2 := c1 + (if purchaseSubjPatterns.any (fun r => reTest r subject)
      then 35 else 0)
    let c3 := c2 + (if purchaseBodyPatterns.any (fun r => reTest r body)
      then 25 else 0)
    if 30 ≤ c3 then
      let ex := extractAmount body
      let amount := ex.1
      let c4 := c3 + (if 0 < amount ∧ amount < 10000 then 20
        else if 10000 ≤ amount then 10 else 0)
      let orderNumber := extractOrderNumber body
      let c5 := c4 + (if !orderNumber.isEmpty ∧ isValidOrderNumber
        orderNumber then 15 else 0)
      let merchant := if merchant0.isEmpty then formatDomainAsMerchant domain
        else merchant0
      if 70 ≤ c5 ∧ 0 < amount ∧ !merchant.isEmpty then
        { type := .purchase
          confidence := c5
          data := some
            { merchant := merchant
              amount := amount
              currency := ex.2
              orderNumber := if isValidOrderNumber orderNumber then
                some orderNumber else none } }
      else { type := .none, confidence := 0, data := none }
    else
      -- with the score below 30 no amount is extracted, so the final
      -- `confidence >= 70 && amount > 0 && merchant` check fails
      { type := .none, confidence := 0, data := none }

/-- `PurchaseDetector.getCategory`. -/
def getCategory (merchant : Str) : PurchaseCategory :=
  ((merchantCategories.find?
    (fun e => containsSub (lower e.1) (lower merchant))).map (·.2)).getD
    .other

/-- Truthiness of `result.data?.amount`. -/
def purDataAmt : Option PurchaseData → Bool
  | some d => !(d.amount = 0)
  | none => false

/-- One iteration of the `PurchaseDetector.detectBatch` loop with the
processed-email list threaded as state (the loop reads `email` and appends
to the detector-owned array only). -/
def purchaseBatchStep (st : List Email × List Purchase) (e : Email) :
    List Email × List Purchase :=
  let r := purchaseDetect e
  let ps :=
    if r.type = .purchase ∧ purDataAmt r.data then
      let d := (r.data).getD
        { merchant := [], amount := 0, currency := [], orderNumber := none }
      st.2 ++
        [{ emailId := e.id
           merchant := jsOr d.merchant (lit ("Unknown"))
           amount := d.amount
           currency := jsOr d.currency (lit ("USD"))
           purchaseDate := e.date
           orderNumber := d.orderNumber
           items := []
           category := getCategory (jsOr d.merchant []) }]
    else st.2
  (st.1 ++ [e], ps)

/-- `PurchaseDetector.detectBatch` with the processed emails returned
alongside the purchases. -/
def purchaseDetectBatchS (emails : List Email) :
    List Email × List Purchase :=
  emails.foldl purchaseBatchStep ([], [])


/-!
Embedding of `src/detectors/subscription.ts` (`SubscriptionDetector`).
-/

/-- The `knownSubscriptions` catalog, in source order. -/
def knownSubscriptions : List (Str × Str × SubscriptionCategory) :=
  [(lit ("netflix.com"), lit ("Netflix"), .streaming),
   (lit ("spotify.com"), lit ("Spotify"), .streaming),
   (lit ("hulu.com"), lit ("Hulu"), .streaming),
   (lit ("disneyplus.com"), lit ("Disney+"), .streaming),
   (lit ("hbomax.com"), lit ("HBO Max"), .streaming),
   (lit ("max.com"), lit ("Max"), .streaming),
   (lit ("primevideo.com"), lit ("Prime Video"), .streaming),
   (lit ("youtube.com"), lit ("YouTube Premium"), .streaming),
   (lit ("crunchyroll.com"), lit ("Crunchyroll"), .streaming),
   (lit ("audible.com"), lit ("Audible"), .streaming),
   (lit ("twitch.tv"), lit ("Twitch"), .streaming),
   (lit ("adobe.com"), lit ("Adobe Creative Cloud"), .software),
   (lit ("microsoft.com"), lit ("Microsoft 365"), .software),
   (lit ("dropbox.com"), lit ("Dropbox"), .software),
   (lit ("notion.so"), lit ("Notion"), .software),
   (lit ("1password.com"), lit ("1Password"), .software),
   (lit ("grammarly.com"), lit ("Grammarly"), .software),
   (lit ("canva.com"), lit ("Canva Pro"), .software),
   (lit ("figma.com"), lit ("Figma"), .software),
   (lit ("slack.com"), lit ("Slack"), .software),
   (lit ("zoom.us"), lit ("Zoom"), .software),
   (lit ("github.com"), lit ("GitHub"), .software),
   (lit ("nordvpn.com"), lit ("NordVPN"), .software),
   (lit ("expressvpn.com"), lit ("ExpressVPN"), .software),
   (lit ("nytimes.com"), lit ("New York Times"), .news),
   (lit ("washingtonpost.com"), lit ("Washington Post"), .news),
   (lit ("wsj.com"), lit ("Wall Street Journal"), .news),
   (lit ("medium.com"), lit ("Medium"), .news),
   (lit ("substack.com"), lit ("Substack"), .news),
   (lit ("peloton.com"), lit ("Peloton"), .fitness),
   (lit ("classpass.com"), lit ("ClassPass"), .fitness),
   (lit ("strava.com"), lit ("Strava"), .fitness),
   (lit ("calm.com"), lit ("Calm"), .fitness),
   (lit ("headspace.com"), lit ("Headspace"), .fitness),
   (lit ("amazon.com"), lit ("Amazon Prime"), .other),
   (lit ("linkedin.com"), lit ("LinkedIn Premium"), .other)]

/-- `subjectPatterns` of `SubscriptionDetector`, in source order. -/
def subSubjPatterns : List RE :=
  [ -- /subscription\\s+(?:confirmed?|renewed?|receipt)/i
   rcat [rstri ("subscription"), rplus clsS,
     ralt [rcat [rstri ("confirme"), ropt (rchri 'd')],
       rcat [rstri ("renewe"), ropt (rchri 'd')], rstri ("receipt")]],
   -- /your\\s+(?:monthly|yearly|annual)\\s+(?:subscription|membership|plan)/i
   rcat [rstri ("your"), rplus clsS,
     ralt [rstri ("monthly"), rstri ("yearly"), rstri ("annual")], rplus clsS,
     ralt [rstri ("subscription"), rstri ("membership"), rstri ("plan")]],
   -- /(?:subscription|membership)\\s+(?:renewal|billing|payment)/i
   rcat [ralt [rstri ("subscription"), rstri ("membership")], rplus clsS,
     ralt [rstri ("renewal"), rstri ("billing"), rstri ("payment")]],
   -- /(?:thank you|thanks)\\s+for\\s+(?:subscribing|your subscription)/i
   rcat [ralt [rstri ("thank you"), rstri ("thanks")], rplus clsS,
     rstri ("for"), rplus clsS,
     ralt [rstri ("subscribing"), rstri ("your subscription")]],
   -- /billing\\s+(?:receipt|statement|confirmation)/i
   rcat [rstri ("billing"), rplus clsS,
     ralt [rstri ("receipt"), rstri ("statement"), rstri ("confirmation")]],
   -- /payment\\s+(?:confirmation|receipt)\\s+for\\s+(?:subscription|membership)/i
   rcat [rstri ("payment"), rplus clsS,
     ralt [rstri ("confirmation"), rstri ("receipt")], rplus clsS,
     rstri ("for"), rplus clsS,
     ralt [rstri ("subscription"), rstri ("membership")]],
   -- /auto.?renew(?:al|ed)?/i
   rcat [rstri ("auto"), ropt clsAny, rstri ("renew"),
     ropt (ralt [rstri ("al"), rstri ("ed")])],
   -- /recurring\\s+(?:payment|charge|billing)/i
   rcat [rstri ("recurring"), rplus clsS,
     ralt [rstri ("payment"), rstri ("charge"), rstri ("billing")]]]

/-- `bodyPatterns` of `SubscriptionDetector`, in source order. -/
def subBodyPatterns : List RE :=
  [ -- /subscription\\s+(?:plan|type)[:\\s]+/i
   rcat [rstri ("subscription"), rplus clsS,
     ralt [rstri ("plan"), rstri ("type")], rplus colWsCls],
   -- /billing\\s+period[:\\s]+/i
   rcat [rstri ("billing"), rplus clsS, rstri ("period"), rplus colWsCls],
   -- /next\\s+(?:billing|payment)\\s+date[:\\s]+/i
   rcat [rstri ("next"), rplus clsS,
     ralt [rstri ("billing"), rstri ("payment")], rplus clsS,
     rstri ("date"), rplus colWsCls],
   -- /auto.?renew(?:s|al)?\\s+on/i
   rcat [rstri ("auto"), ropt clsAny, rstri ("renew"),
     ropt (ralt [rstri ("s"), rstri ("al")]), rplus clsS, rstri ("on")],
   -- /(?:monthly|annual|yearly)\\s+(?:subscription|membership|plan)/i
   rcat [ralt [rstri ("monthly"), rstri ("annual"), rstri ("yearly")],
     rplus clsS,
     ralt [rstri ("subscription"), rstri ("membership"), rstri ("plan")]],
   -- /(?:subscription|membership)\\s+(?:fee|price|cost)[:\\s]+[$€£]/i
   rcat [ralt [rstri ("subscription"), rstri ("membership")], rplus clsS,
     ralt [rstri ("fee"), rstri ("price"), rstri ("cost")], rplus colWsCls,
     clsIn ("$€£")],
   -- /renews?\\s+(?:on|every)\\s+/i
   rcat [rstri ("renew"), ropt (rchri 's'), rplus clsS,
     ralt [rstri ("on"), rstri ("every")], rplus clsS],
   -- /recurring\\s+(?:charge|payment)[:\\s]+/i
   rcat [rstri ("recurring"), rplus clsS,
     ralt [rstri ("charge"), rstri ("payment")], rplus colWsCls],
   -- /cancel\\s+(?:anytime|subscription|membership)/i
   rcat [rstri ("cancel"), rplus clsS,
     ralt [rstri ("anytime"), rstri ("subscription"), rstri ("membership")]]]

/-- `SubscriptionDetector.findKnownSubscription`: exact hit, then
`domain.endsWith("." + d) || domain.includes(d.split(".")[0])`. -/
def findKnownSubscription (domain : Str) :
    Option (Str × SubscriptionCategory) :=
  match knownSubscriptions.find? (fun e => e.1 = domain) with
  | some e => some e.2
  | none =>
    (knownSubscriptions.find? (fun e =>
      endsWithStr ('.' :: e.1) domain ||
        containsSub ((splitCh '.' e.1).headD []) domain)).map (·.2)

/-- The EUR capture `([\\d,]+[.,]\\d{2})` of the subscription amount
patterns (no whitespace inside, unlike the purchase EUR capture). -/
def subEurAmtCap : RE :=
  .grp 1 (rcat [rplus (clsIn ("0123456789,")), clsIn (".,"),
    repExact 2 clsD])

/-- The amount patterns of `SubscriptionDetector.extractAmount`, in source
order. -/
def subAmtPatterns : List (Str × RE) :=
  [(lit ("USD"), rcat [rchr '$', rstar clsS, usdAmtCap]),
   (lit ("EUR"), rcat [rchr '€', rstar clsS, subEurAmtCap]),
   (lit ("GBP"), rcat [rchr '£', rstar clsS, usdAmtCap])]

/-- `SubscriptionDetector.extractAmount`: first pattern with a positive
parsed amount (`parseFloat(match[1].replace(/,/g, ""))`). -/
def subExtractAmount (text : Str) : Option ℚ × Str :=
  match subAmtPatterns.findSome? (fun e =>
    match reFind e.2 text with
    | some q =>
      let a := (parseFloatQ
        (((capGet q.2.2.1 1).getD []).filter (fun c => c ≠ ','))).getD 0
      if 0 < a then some (a, e.1) else none
    | none => none) with
  | some r => (some r.1, r.2)
  | none => (none, lit ("USD"))

/-- `SubscriptionDetector.detectFrequency` (the fall-through default is
`monthly`). -/
def detectFrequency (text : Str) : SubscriptionFrequency :=
  if reTest (ralt [rstri ("yearly"), rstri ("annual"), rstri ("annually"),
      rstri ("per year"), rstri ("/year")]) text then .yearly
  else if reTest (ralt [rstri ("weekly"), rstri ("per week"),
      rstri ("/week")]) text then .weekly
  else .monthly

/-- The service-name capture
`([A-Z][a-zA-Z0-9]+(?:\\s+[A-Z][a-zA-Z0-9]+)?)` with `\\s+` between the
words (under `/i`). -/
def svcNameCapWide : RE :=
  .grp 1 (rcat [.cls isAlphaCh, rplus alnumCls,
    ropt (rcat [rplus clsS, .cls isAlphaCh, rplus alnumCls])])

/-- The subject patterns of `SubscriptionDetector.extractServiceName`. -/
def subNameSubjPatterns : List RE :=
  [ -- /(?:your\\s+)?(...)\\s+subscription/i
   rcat [ropt (rcat [rstri ("your"), rplus clsS]), svcNameCapWide,
     rplus clsS, rstri ("subscription")],
   -- /subscription\\s+(?:to|for)\\s+(...)/i
   rcat [rstri ("subscription"), rplus clsS,
     ralt [rstri ("to"), rstri ("for")], rplus clsS, svcNameCapWide],
   -- /welcome\\s+to\\s+(...)/i
   rcat [rstri ("welcome"), rplus clsS, rstri ("to"), rplus clsS,
     svcNameCapWide],
   -- /(...)\\s+(?:membership|premium|pro|plus)/i
   rcat [svcNameCapWide, rplus clsS,
     ralt [rstri ("membership"), rstri ("premium"), rstri ("pro"),
       rstri ("plus")]]]

/-- The body patterns of `SubscriptionDetector.extractServiceName`. -/
def subNameBodyPatterns : List RE :=
  [ -- /(?:subscribing to|subscription to)\\s+(...)/i
   rcat [ralt [rstri ("subscribing to"), rstri ("subscription to")],
     rplus clsS, svcNameCapWide],
   -- /thank you for (?:joining|subscribing to)\\s+(...)/i
   rcat [rstri ("thank you for "),
     ralt [rstri ("joining"), rstri ("subscribing to")], rplus clsS,
     svcNameCapWide]]

/-- `SubscriptionDetector.isValidServiceName`. -/
def isValidServiceName (name : Str) : Bool :=
  !([lit ("your"), lit ("the"), lit ("this"), lit ("that"), lit ("our"),
     lit ("monthly"), lit ("annual"), lit ("yearly"), lit ("weekly"),
     lit ("subscription"), lit ("membership"), lit ("billing"),
     lit ("payment"), lit ("account"), lit ("email"), lit ("newsletter"),
     lit ("update"), lit ("notification"), lit ("com"), lit ("org"),
     lit ("net"), lit ("edu"), lit ("gov"), lit ("mail"), lit ("info"),
     lit ("noreply"), lit ("reply")].contains (lower name))

/-- `SubscriptionDetector.extractServiceName`. -/
def subExtractServiceName (subject body : Str) : Option Str :=
  match subNameSubjPatterns.findSome? (fun re =>
    match reFind re subject with
    | some q =>
      match capGet q.2.2.1 1 with
      | some cap =>
        if cap.isEmpty then none
        else
          let name := trim cap
          if 2 ≤ name.length ∧ name.length ≤ 30 ∧ isValidServiceName name
          then some name
          else none
      | none => none
    | none => none) with
  | some n => some n
  | none =>
    subNameBodyPatterns.findSome? (fun re =>
      match reFind re body with
      | some q =>
        match capGet q.2.2.1 1 with
        | some cap =>
          if cap.isEmpty then none
          else
            let name := trim cap
            if 2 ≤ name.length ∧ name.length ≤ 30 ∧ isValidServiceName name
            then some name
            else none
        | none => none
      | none => none)

/-- The test `!serviceName || serviceName.length < 3` (an empty string is
falsy and also has length below 3). -/
def subNameShort : Option Str → Bool
  | some n => n.length < 3
  | none => true

/-- `SubscriptionDetector.detect`. -/
def subscriptionDetect (e : Email) : SubscriptionDetectionResult :=
  let subject := e.subject
  let body := stripHtml e.body
  let domain := extractDomain e.sender
  let ks := findKnownSubscription domain
  let serviceName0 := ks.map (·.1)
  let category0 := ks.map (·.2)
  let isSub :=
    if subSubjPatterns.any (fun r => reTest r subject) then true
    else 2 ≤ (subBodyPatterns.filter (fun r => reTest r body)).length
  if isSub then
    let ex := subExtractAmount body
    let serviceName1 :=
      match serviceName0 with
      | some n => if n.isEmpty then subExtractServiceName subject body
        else some n
      | none => subExtractServiceName subject body
    let serviceName2 :=
      if subNameShort serviceName1 then
        (match e.senderName with
         | some sn => if 2 < sn.length then some sn
           else some (formatDomainAsName domain)
         | none => some (formatDomainAsName domain))
      else serviceName1
    { isSubscription := true
      serviceName := serviceName2
      category := category0.getD .other
      amount := ex.1
      currency := some ex.2
      frequency := some (detectFrequency body) }
  else
    { isSubscription := false
      serviceName := serviceName0
      category := category0.getD .other
      amount := none
      currency := none
      frequency := none }

/-- Truthiness of `result.serviceName`. -/
def subSvcNamed : Option Str → Bool
  | some n => !n.isEmpty
  | none => false

/-- One iteration of the `SubscriptionDetector.detectBatch` loop with the
processed-email list threaded as state (the loop reads `email` and mutates
only the detector-owned map values). -/
def subscriptionBatchStep (st : List Email × AList Subscription)
    (e : Email) : List Email × AList Subscription :=
  let r := subscriptionDetect e
  let m :=
    if r.isSubscription ∧ subSvcNamed r.serviceName then
      let sn := r.serviceName.getD []
      let key := lower sn
      match alGet st.2 key with
      | none =>
        alSet st.2 key
          { serviceName := sn
            monthlyAmount := r.amount.getD 0
            currency := jsOr (r.currency.getD []) (lit ("USD"))
            frequency := r.frequency.getD .monthly
            lastRenewalDate := e.date
            emailIds := [e.id]
            isActive := true
            category := r.category }
      | some ex =>
        alSet st.2 key
          (if ex.lastRenewalDate < e.date then
            { ex with
              emailIds := ex.emailIds ++ [e.id]
              lastRenewalDate := e.date
              monthlyAmount :=
                match r.amount with
                | some a => if 0 < a then a else ex.monthlyAmount
                | none => ex.monthlyAmount
              frequency := r.frequency.getD ex.frequency }
          else { ex with emailIds := ex.emailIds ++ [e.id] })
    else st.2
  (st.1 ++ [e], m)

/-- `SubscriptionDetector.detectBatch` with the processed emails returned
alongside the subscriptions. -/
def subscriptionDetectBatchS (emails : List Email) :
    List Email × List Subscription :=
  let st := emails.foldl subscriptionBatchStep ([], [])
  (st.1, st.2.map (·.2))


/-!
Embedding of the newsletter detector (`NewsletterDetector`).
-/

/-- `newsletterSubjectPatterns`, in source order. -/
def newsSubjPatterns : List RE :=
  [ -- /\\bnewsletter\\b/i
   rcat [.wb, rstri ("newsletter"), .wb],
   -- /\\bweekly\\s+(?:digest|update|roundup|summary)\\b/i
   rcat [.wb, rstri ("weekly"), rplus clsS,
     ralt [rstri ("digest"), rstri ("update"), rstri ("roundup"),
       rstri ("summary")], .wb],
   -- /\\bmonthly\\s+(?:digest|update|roundup|summary)\\b/i
   rcat [.wb, rstri ("monthly"), rplus clsS,
     ralt [rstri ("digest"), rstri ("update"), rstri ("roundup"),
       rstri ("summary")], .wb],
   -- /\\bdaily\\s+(?:digest|brief|update)\\b/i
   rcat [.wb, rstri ("daily"), rplus clsS,
     ralt [rstri ("digest"), rstri ("brief"), rstri ("update")], .wb],
   -- /\\b(?:this week|today)\\s+(?:in|on|at)\\b/i
   rcat [.wb, ralt [rstri ("this week"), rstri ("today")], rplus clsS,
     ralt [rstri ("in"), rstri ("on"), rstri ("at")], .wb],
   -- /\\blatest\\s+(?:news|updates|articles)\\b/i
   rcat [.wb, rstri ("latest"), rplus clsS,
     ralt [rstri ("news"), rstri ("updates"), rstri ("articles")], .wb],
   -- /\\bedition\\s*#?\\d*/i
   rcat [.wb, rstri ("edition"), rstar clsS, ropt (rchr '#'), rstar clsD],
   -- /\\bissue\\s*#?\\d*/i
   rcat [.wb, rstri ("issue"), rstar clsS, ropt (rchr '#'), rstar clsD],
   -- /\\bvol(?:ume)?\\.?\\s*\\d+/i
   rcat [.wb, rstri ("vol"), ropt (rstri ("ume")), ropt (rchr '.'),
     rstar clsS, rplus clsD]]

/-- `promotionalSubjectPatterns`, in source order. -/
def promoSubjPatterns : List RE :=
  [ -- /\\b(?:save|get)\\s+\\d+%?\\s*(?:off|discount)?\\b/i
   rcat [.wb, ralt [rstri ("save"), rstri ("get")], rplus clsS, rplus clsD,
     ropt (rchr '%'), rstar clsS, ropt (ralt [rstri ("off"),
       rstri ("discount")]), .wb],
   -- /\\bup\\s+to\\s+\\d+%\\s+off\\b/i
   rcat [.wb, rstri ("up"), rplus clsS, rstri ("to"), rplus clsS,
     rplus clsD, rchr '%', rplus clsS, rstri ("off"), .wb],
   -- /\\bsale\\s+(?:ends?|starts?)\\b/i
   rcat [.wb, rstri ("sale"), rplus clsS,
     ralt [rcat [rstri ("end"), ropt (rchri 's')],
       rcat [rstri ("start"), ropt (rchri 's')]], .wb],
   -- /\\bflash\\s+sale\\b/i
   rcat [.wb, rstri ("flash"), rplus clsS, rstri ("sale"), .wb],
   -- /\\blimited\\s+time\\b/i
   rcat [.wb, rstri ("limited"), rplus clsS, rstri ("time"), .wb],
   -- /\\bfree\\s+(?:shipping|delivery|gift)\\b/i
   rcat [.wb, rstri ("free"), rplus clsS,
     ralt [rstri ("shipping"), rstri ("delivery"), rstri ("gift")], .wb],
   -- /\\bexclusive\\s+(?:offer|deal|discount|access)\\b/i
   rcat [.wb, rstri ("exclusive"), rplus clsS,
     ralt [rstri ("offer"), rstri ("deal"), rstri ("discount"),
       rstri ("access")], .wb],
   -- /\\bspecial\\s+(?:offer|deal|discount)\\b/i
   rcat [.wb, rstri ("special"), rplus clsS,
     ralt [rstri ("offer"), rstri ("deal"), rstri ("discount")], .wb],
   -- /\\bdon'?t\\s+miss\\s+(?:out|this)\\b/i
   rcat [.wb, rstri ("don"), ropt (rchr apos), rstri ("t"), rplus clsS,
     rstri ("miss"), rplus clsS, ralt [rstri ("out"), rstri ("this")], .wb],
   -- /\\blast\\s+chance\\b/i
   rcat [.wb, rstri ("last"), rplus clsS, rstri ("chance"), .wb],
   -- /\\bpromo(?:tion)?\\s*code\\b/i
   rcat [.wb, rstri ("promo"), ropt (rstri ("tion")), rstar clsS,
     rstri ("code"), .wb],
   -- /\\bdiscount\\s*code\\b/i
   rcat [.wb, rstri ("discount"), rstar clsS, rstri ("code"), .wb],
   -- /\\buse\\s+code\\b/i
   rcat [.wb, rstri ("use"), rplus clsS, rstri ("code"), .wb],
   -- /\\bblack\\s+friday\\b/i
   rcat [.wb, rstri ("black"), rplus clsS, rstri ("friday"), .wb],
   -- /\\bcyber\\s+monday\\b/i
   rcat [.wb, rstri ("cyber"), rplus clsS, rstri ("monday"), .wb]]

/-- `marketingBodyPatterns`, in source order.  The copyright pattern keeps
the literal mojibake of the source file: an `Â` (U+00C2) followed by an
optional `©` (U+00A9). -/
def marketingBodyPatterns : List RE :=
  [rstri ("unsubscribe"),                    -- /unsubscribe/i
   -- /manage\\s+(?:your\\s+)?(?:email\\s+)?preferences/i
   rcat [rstri ("manage"), rplus clsS,
     ropt (rcat [rstri ("your"), rplus clsS]),
     ropt (rcat [rstri ("email"), rplus clsS]), rstri ("preferences")],
   -- /email\\s+preferences/i
   rcat [rstri ("email"), rplus clsS, rstri ("preferences")],
   -- /opt.?out/i
   rcat [rstri ("opt"), ropt clsAny, rstri ("out")],
   -- /if\\s+you\\s+no\\s+longer\\s+(?:wish|want)\\s+to\\s+receive/i
   rcat [rstri ("if"), rplus clsS, rstri ("you"), rplus clsS, rstri ("no"),
     rplus clsS, rstri ("longer"), rplus clsS,
     ralt [rstri ("wish"), rstri ("want")], rplus clsS, rstri ("to"),
     rplus clsS, rstri ("receive")],
   -- /to\\s+stop\\s+receiving\\s+(?:these|our)\\s+emails/i
   rcat [rstri ("to"), rplus clsS, rstri ("stop"), rplus clsS,
     rstri ("receiving"), rplus clsS, ralt [rstri ("these"), rstri ("our")],
     rplus clsS, rstri ("emails")],
   -- /view\\s+(?:in|as)\\s+(?:a\\s+)?(?:web\\s+)?browser/i
   rcat [rstri ("view"), rplus clsS, ralt [rstri ("in"), rstri ("as")],
     rplus clsS, ropt (rcat [rstri ("a"), rplus clsS]),
     ropt (rcat [rstri ("web"), rplus clsS]), rstri ("browser")],
   -- /view\\s+(?:this\\s+)?(?:email\\s+)?online/i
   rcat [rstri ("view"), rplus clsS, ropt (rcat [rstri ("this"),
     rplus clsS]), ropt (rcat [rstri ("email"), rplus clsS]),
     rstri ("online")],
   -- /forward\\s+to\\s+a\\s+friend/i
   rcat [rstri ("forward"), rplus clsS, rstri ("to"), rplus clsS,
     rstri ("a"), rplus clsS, rstri ("friend")],
   -- /copyright\\s+Â©?\\s*\\d{4}/i
   rcat [rstri ("copyright"), rplus clsS, rchri (Char.ofNat 194),
     ropt (rchri (Char.ofNat 169)), rstar clsS, repExact 4 clsD],
   -- /all\\s+rights\\s+reserved/i
   rcat [rstri ("all"), rplus clsS, rstri ("rights"), rplus clsS,
     rstri ("reserved")],
   -- /privacy\\s+policy/i
   rcat [rstri ("privacy"), rplus clsS, rstri ("policy")]]

/-- `knownPromotionalPrefixes`, in source order. -/
def promoPrefixes : List Str :=
  [lit ("promo."), lit ("marketing."), lit ("newsletter."), lit ("mail."),
   lit ("news."), lit ("promotions."), lit ("offers."), lit ("deals."),
   lit ("updates.")]

/-- The quote class of the unsubscribe-anchor patterns. -/
def qtCls : RE := .cls (fun c => c = '"' || c = apos)

/-- The complement class `[^"']`. -/
def nqtCls : RE := .cls (fun c => !(c = '"' || c = apos))

/-- The anchor-tag opener `<a[^>]*href=["']`. -/
def aHrefOpen : RE :=
  rcat [rstri ("<a"), rstar (clsNotIn (">")), rstri ("href="), qtCls]

/-- The unsubscribe-link patterns of
`NewsletterDetector.extractUnsubscribeLink`, in source order. -/
def unsubPatterns : List RE :=
  [ -- /<a[^>]*href=["']([^"']*unsubscribe[^"']*)["'][^>]*>/i
   rcat [aHrefOpen, .grp 1 (rcat [rstar nqtCls, rstri ("unsubscribe"),
     rstar nqtCls]), qtCls, rstar (clsNotIn (">")), rchr '>'],
   -- /<a[^>]*href=["']([^"']*opt.?out[^"']*)["'][^>]*>/i
   rcat [aHrefOpen, .grp 1 (rcat [rstar nqtCls, rstri ("opt"), ropt clsAny,
     rstri ("out"), rstar nqtCls]), qtCls, rstar (clsNotIn (">")),
     rchr '>'],
   -- /<a[^>]*href=["']([^"']*email.?preferences[^"']*)["'][^>]*>/i
   rcat [aHrefOpen, .grp 1 (rcat [rstar nqtCls, rstri ("email"),
     ropt clsAny, rstri ("preferences"), rstar nqtCls]), qtCls,
     rstar (clsNotIn (">")), rchr '>'],
   -- /<a[^>]*href=["']([^"']*manage.?preferences[^"']*)["'][^>]*>/i
   rcat [aHrefOpen, .grp 1 (rcat [rstar nqtCls, rstri ("manage"),
     ropt clsAny, rstri ("preferences"), rstar nqtCls]), qtCls,
     rstar (clsNotIn (">")), rchr '>'],
   -- /<a[^>]*href=["']([^"']+)["'][^>]*>\\s*unsubscribe\\s*<\\/a>/i
   rcat [aHrefOpen, .grp 1 (rplus nqtCls), qtCls, rstar (clsNotIn (">")),
     rchr '>', rstar clsS, rstri ("unsubscribe"), rstar clsS,
     rstri ("</a>")],
   -- /<a[^>]*href=["']([^"']+)["'][^>]*>[^<]*unsubscribe[^<]*<\\/a>/i
   rcat [aHrefOpen, .grp 1 (rplus nqtCls), qtCls, rstar (clsNotIn (">")),
     rchr '>', rstar (clsNotIn ("<")), rstri ("unsubscribe"),
     rstar (clsNotIn ("<")), rstri ("</a>")]]

/-- The fallback URL pattern
`/https?:\\/\\/[^\\s<>"]+(?:unsubscribe|opt.?out|preferences)[^\\s<>"]*/i`. -/
def urlFallbackRe : RE :=
  rcat [rstri ("http"), ropt (rchri 's'), rstri ("://"),
    rplus (.cls (fun c => !(isWs c || c = '<' || c = '>' || c = '"'))),
    ralt [rstri ("unsubscribe"), rcat [rstri ("opt"), ropt clsAny,
      rstri ("out")], rstri ("preferences")],
    rstar (.cls (fun c => !(isWs c || c = '<' || c = '>' || c = '"')))]

/-- `NewsletterDetector.extractUnsubscribeLink`. -/
def extractUnsubscribeLink (html : Str) : Option Str :=
  if html.isEmpty then none
  else
    match unsubPatterns.findSome? (fun re =>
      match reFind re html with
      | some q =>
        match capGet q.2.2.1 1 with
        | some link =>
          if !link.isEmpty ∧ (isPre (lit ("http://")) link ||
              isPre (lit ("https://")) link) then some link
          else none
        | none => none
      | none => none) with
    | some l => some l
    | none => (reFind urlFallbackRe html).map (fun q => q.2.1)

/-- `NewsletterDetector.detect`. -/
def newsletterDetect (e : Email) : NewsletterDetectionResult :=
  let subject := e.subject
  let body := e.body
  let htmlBody := e.htmlBody.getD []
  let n1 : Nat := if newsSubjPatterns.any (fun r => reTest r subject)
    then 30 else 0
  let p1 : Nat := if promoSubjPatterns.any (fun r => reTest r subject)
    then 35 else 0
  let plainBody := stripHtml body
  let mc := (marketingBodyPatterns.filter
    (fun r => reTest r plainBody || reTest r htmlBody)).length
  let n2 := n1 + (if 3 ≤ mc then 25 else if 2 ≤ mc then 15 else 0)
  let p2 := p1 + (if 3 ≤ mc then 20 else if 2 ≤ mc then 10 else 0)
  let domain := extractDomain e.sender
  let promoDom := promoPrefixes.any (fun p => containsSub p domain)
  let n3 := n2 + (if promoDom then 20 else 0)
  let p3 := p2 + (if promoDom then 20 else 0)
  let unsub := extractUnsubscribeLink (jsOr htmlBody body)
  let n4 := n3 + (if truthy unsub then 15 else 0)
  let p4 := p3 + (if truthy unsub then 10 else 0)
  let n5 := n4 + (if reTest (rcat [rstri ("list"), ropt clsAny,
    rstri ("unsubscribe")]) htmlBody then 10 else 0)
  { isNewsletter := (40 ≤ n5) ∧ !(40 ≤ p4)
    isPromotional := 40 ≤ p4
    confidence := min (max n5 p4) 100
    unsubscribeLink := unsub }

/-- The three-way result of `NewsletterDetector.categorize`. -/
inductive MailCategory where
  | newsletter
  | promotional
  | regular
deriving DecidableEq, Repr

/-- `NewsletterDetector.categorize`. -/
def newsletterCategorize (e : Email) : MailCategory :=
  let r := newsletterDetect e
  if r.isPromotional then .promotional
  else if r.isNewsletter then .newsletter
  else .regular

/-- `NewsletterDetector.calculateFrequency` on the date-descending email
list: average inter-arrival time in days (exact rational arithmetic models
the float computation; see the header note). -/
def calcFrequency (emails : List Email) : NFreq :=
  if emails.length < 2 then .irregular
  else
    let dates := emails.map (fun e => (e.date : ℚ))
    let diffs := (dates.zip dates.tail).map
      (fun p => (p.1 - p.2) / 86400000)
    let avg := diffs.foldl (· + ·) 0 / ((dates.length : ℚ) - 1)
    if avg ≤ 2 then .daily
    else if avg ≤ 10 then .weekly
    else if avg ≤ 45 then .monthly
    else .irregular

/-- The canonical newsletter-sender table of
`NewsletterDetector.extractNameFromEmail`, in source order. -/
def knownSenders : List (Str × Str) :=
  [(lit ("nytimes.com"), lit ("New York Times")),
   (lit ("newyorktimes.com"), lit ("New York Times")),
   (lit ("washingtonpost.com"), lit ("Washington Post")),
   (lit ("wsj.com"), lit ("Wall Street Journal")),
   (lit ("amazon.com"), lit ("Amazon")),
   (lit ("netflix.com"), lit ("Netflix")),
   (lit ("spotify.com"), lit ("Spotify")),
   (lit ("linkedin.com"), lit ("LinkedIn")),
   (lit ("twitter.com"), lit ("Twitter")),
   (lit ("facebook.com"), lit ("Facebook")),
   (lit ("instagram.com"), lit ("Instagram")),
   (lit ("medium.com"), lit ("Medium")),
   (lit ("substack.com"), lit ("Substack")),
   (lit ("mailchimp.com"), lit ("Mailchimp")),
   (lit ("hubspot.com"), lit ("HubSpot")),
   (lit ("salesforce.com"), lit ("Salesforce"))]

/-- `NewsletterDetector.extractNameFromEmail`. -/
def extractNameFromEmail (email : Str) : Str :=
  let segs := splitCh '@' email
  let localPart := segs.headD []
  let domain := (segs.get? 1).getD []
  let fromDomain :=
    if !domain.isEmpty then
      let domainLower := lower domain
      match knownSenders.find?
          (fun e => containsSub e.1 domainLower) with
      | some e => some e.2
      | none =>
        let domainParts := splitCh '.' domain
        let mainPart :=
          if 2 ≤ domainParts.length then
            let potentialName :=
              (domainParts.get? (domainParts.length - 2)).getD []
            let generic := [lit ("mail"), lit ("email"), lit ("noreply"),
              lit ("no-reply"), lit ("newsletter"), lit ("news"),
              lit ("info"), lit ("marketing"), lit ("mailer"), lit ("e"),
              lit ("beta")]
            if generic.contains (lower (domainParts.headD [])) ∧
                3 ≤ domainParts.length then
              (domainParts.get? (domainParts.length - 2)).getD []
            else potentialName
          else domainParts.headD []
        if !mainPart.isEmpty ∧ 2 ≤ mainPart.length then
          some (joinSp ((splitCh ' '
            ((camelSplit mainPart).map
              (fun c => if c = '-' || c = '_' then ' ' else c))).map
            capWord))
        else none
    else none
  match fromDomain with
  | some n => n
  | none =>
    let cleaned := trim ((localPart.map
      (fun c => if c = '.' || c = '_' || c = '-' then ' ' else c)).filter
      (fun c => !isDigitCh c))
    if 0 < cleaned.length then
      joinSp (((splitCh ' ' cleaned).filter
        (fun w => 0 < w.length)).map capWord)
    else lit ("Unknown")

/-- Truthiness of `result.unsubscribeLink`. -/
def unsubTruthy : Option Str → Bool
  | some l => !l.isEmpty
  | none => false

/-- One iteration of the grouping loop of
`NewsletterDetector.detectBatch`, with the processed-email list threaded as
state.  The map value holds the group emails and the insertion-ordered
unsubscribe-link set. -/
def newsletterBatchStep (st : List Email × AList (List Email × List Str))
    (e : Email) : List Email × AList (List Email × List Str) :=
  let r := newsletterDetect e
  let m :=
    if r.isNewsletter || r.isPromotional then
      let entry := (alGet st.2 e.sender).getD ([], [])
      alSet st.2 e.sender
        (entry.1 ++ [e],
          match r.unsubscribeLink with
          | some l =>
            if !l.isEmpty ∧ !entry.2.contains l then entry.2 ++ [l]
            else entry.2
          | none => entry.2)
    else st.2
  (st.1 ++ [e], m)

/-- Builds one `Newsletter` from a sender group (the `forEach` body of
`detectBatch`; the group is non-empty by construction, the empty case is
unreachable).  The date-descending sort `(a, b) => b.date - a.date` is a
stable sort. -/
def buildNewsletter (sender : Str) (data : List Email × List Str) :
    Option Newsletter :=
  let sorted := data.1.mergeSort (fun a b => decide (b.date ≤ a.date))
  match sorted with
  | [] => none
  | latest :: _ =>
    some
      { senderEmail := sender
        senderName :=
          (match latest.senderName with
           | some n => if n.isEmpty then extractNameFromEmail sender else n
           | none => extractNameFromEmail sender)
        emailCount := data.1.length
        lastEmailDate := latest.date
        frequency := calcFrequency sorted
        unsubscribeLink := data.2.head?
        isPromotional := (newsletterDetect latest).isPromotional }

/-- `NewsletterDetector.detectBatch` with the processed emails returned
alongside the newsletters. -/
def newsletterDetectBatchS (emails : List Email) :
    List Email × List Newsletter :=
  let st := emails.foldl newsletterBatchStep ([], [])
  (st.1, st.2.filterMap (fun kv => buildNewsletter kv.1 kv.2))


/-!
Concrete inputs and records used by the verification statements below.
-/

/-- A detector input with every field empty. -/
def emailEmpty : Email :=
  { id := none
    subject := []
    sender := []
    senderName := none
    recipients := []
    cc := none
    bcc := none
    date := 0
    body := []
    htmlBody := none
    attachments := []
    size := 0
    isRead := false
    isStarred := false
    folderId := []
    threadId := none
    originalId := none }

/-- A service welcome email from a catalog domain (`netflix.com` is in
`knownServices`, the subject matches a subject pattern and the body matches
a body pattern). -/
def nflxEmail : Email :=
  { emailEmpty with
    subject := lit ("Welcome to Netflix!")
    sender := lit ("info@netflix.com")
    body := lit ("Your account has been created.") }

/-- MBOX text whose single message carries a bare word in its From
header. -/
def c1Text : Str := lit ("From a Mon\nFrom: foo\nSubject: Hi\n\nbody")

/-- MBOX text whose single message has no From header at all. -/
def c1NoFromText : Str := lit ("From a Mon\nX: y\n\nbody")

/-- OLM message XML of length 100048: a subject tag followed by filler. -/
def c5Xml : Str :=
  lit ("<OPFMessageCopySubject>x</OPFMessageCopySubject>") ++
    List.replicate 100000 'a'

/-- The record `parseEmailFromLines` produces on the two-line message
`["From a Mon", "X: y"]`. -/
def plainTwoLineRec : PEmail :=
  { subject := lit ("(No Subject)")
    sender := []
    senderName := none
    recipients := []
    date := []
    body := []
    htmlBody := none
    size := 15
    isRead := true
    isStarred := false
    folderId := lit ("archive")
    threadId := some (lit ("subject:(no-subject)")) }

/-- The record `parseEmailManually` produces on
`"<subject>hi</subject>"`. -/
def smallOlmRec : PEmail :=
  { subject := lit ("hi")
    sender := []
    senderName := none
    recipients := []
    date := []
    body := []
    htmlBody := none
    size := 21
    isRead := false
    isStarred := false
    folderId := lit ("inbox")
    threadId := none }

/-- A single-message MBOX file whose body line carries 5 MiB = `CHUNK`
characters, so the file is one chunk plus 17 characters. -/
def c2File : Str := lit ("From a Mon\nX: y\n\n") ++ List.replicate 5242880 'a'

/-- The record parsed from the `c2File` message shape when the body line
carries `n` characters. -/
def mkC2Rec (n : Nat) : PEmail :=
  { subject := lit ("(No Subject)")
    sender := []
    senderName := none
    recipients := []
    date := []
    body := List.replicate n 'a'
    htmlBody := none
    size := min (17 + n) 100000
    isRead := true
    isStarred := false
    folderId := lit ("archive")
    threadId := some (lit ("subject:(no-subject)")) }

/-- A small single-message MBOX file. -/
def smallMbox : Str := lit ("From a Mon\nFrom: x@y.z\nSubject: Hi\n\nbody")

/-- Purchase text whose only currency-tagged amount is exactly 500000. -/
def c7Text : Str := lit ("Price: $500,000.00")


/-!
General lemmas about characters and the string helpers.
-/

theorem charToNatInj {a b : Char} (h : a.toNat = b.toNat) : a = b := by
  rw [← Char.ofNat_toNat a, ← Char.ofNat_toNat b, h]

theorem toNat_ofNat_valid (n : Nat) (h : n.isValidChar) :
    (Char.ofNat n).toNat = n := by
  unfold Char.ofNat
  rw [dif_pos h]
  rfl

theorem isWs_iff (c : Char) :
    isWs c = true ↔ c.toNat = 32 ∨ c.toNat = 9 ∨ c.toNat = 10 ∨
      c.toNat = 13 ∨ c.toNat = 11 ∨ c.toNat = 12 := by
  have h : ∀ d : Char, (c = d) ↔ c.toNat = d.toNat :=
    fun d => ⟨fun hx => hx ▸ rfl, charToNatInj⟩
  simp only [isWs, Bool.or_eq_true, decide_eq_true_eq, h,
    show (' ' : Char).toNat = 32 from rfl,
    show ('\t' : Char).toNat = 9 from rfl,
    show ('\n' : Char).toNat = 10 from rfl,
    show ('\r' : Char).toNat = 13 from rfl,
    show ('\x0b' : Char).toNat = 11 from rfl,
    show ('\x0c' : Char).toNat = 12 from rfl]
  tauto

theorem toLower_fix (c : Char) (h : ¬(c.toNat ≥ 65 ∧ c.toNat ≤ 90)) :
    c.toLower = c := by
  unfold Char.toLower
  exact if_neg h

theorem toLower_toNat_upper (c : Char) (h : c.toNat ≥ 65 ∧ c.toNat ≤ 90) :
    c.toLower.toNat = c.toNat + 32 := by
  unfold Char.toLower
  rw [if_pos h]
  exact toNat_ofNat_valid _ (Or.inl (by omega))

theorem isWs_toLower (c : Char) : isWs c.toLower = isWs c := by
  by_cases h : c.toNat ≥ 65 ∧ c.toNat ≤ 90
  · have ht := toLower_toNat_upper c h
    have h1 : isWs c.toLower = false := by
      rw [Bool.eq_false_iff]
      intro hw
      rw [isWs_iff, ht] at hw
      omega
    have h2 : isWs c = false := by
      rw [Bool.eq_false_iff]
      intro hw
      rw [isWs_iff] at hw
      omega
    rw [h1, h2]
  · rw [toLower_fix c h]

theorem toLower_toLower (c : Char) : c.toLower.toLower = c.toLower := by
  by_cases h : c.toNat ≥ 65 ∧ c.toNat ≤ 90
  · exact toLower_fix _ (by rw [toLower_toNat_upper c h]; omega)
  · rw [toLower_fix c h, toLower_fix c h]

theorem isWs_comp_toLower : isWs ∘ Char.toLower = isWs :=
  funext isWs_toLower

theorem lower_lower (s : Str) : lower (lower s) = lower s := by
  simp only [lower, List.map_map]
  rw [show Char.toLower ∘ Char.toLower = Char.toLower from
    funext toLower_toLower]

theorem trim_lower (s : Str) : trim (lower s) = lower (trim s) := by
  simp only [trim, lower, List.dropWhile_map, isWs_comp_toLower,
    ← List.map_reverse]

theorem collapseWsGo_lower (s : Str) (b : Bool) :
    collapseWsGo (lower s) b = lower (collapseWsGo s b) := by
  induction s generalizing b with
  | nil => rfl
  | cons c t ih =>
    simp only [lower, List.map_cons, collapseWsGo, isWs_toLower]
    by_cases hw : isWs c = true
    · rw [if_pos hw, if_pos hw]
      cases b with
      | true => exact ih true
      | false =>
        simp only [if_neg (by simp : ¬ (false = true))]
        rw [show (' ' : Char) = Char.toLower ' ' from rfl]
        exact congrArg _ (ih true)
    · rw [if_neg hw, if_neg hw]
      exact congrArg _ (ih false)

theorem collapse_lower (s : Str) :
    collapseWs (lower s) = lower (collapseWs s) :=
  collapseWsGo_lower s false

theorem headWs_lower (s : Str) : headWs (lower s) = headWs s := by
  cases s with
  | nil => rfl
  | cons c t => simp [lower, headWs, isWs_toLower]

theorem isPre_iff_pfx (p s : Str) : isPre p s = true ↔ p <+: s := by
  induction p generalizing s with
  | nil => simp [isPre]
  | cons c p ih =>
    cases s with
    | nil => simp [isPre]
    | cons d s =>
      rw [List.cons_prefix_cons]
      by_cases h : c = d
      · simp [isPre, h, ih]
      · simp [isPre, h]

theorem containsSub_iff_ifx (p s : Str) :
    containsSub p s = true ↔ p <:+: s := by
  induction s with
  | nil =>
    cases p with
    | nil => simp [containsSub, isPre]
    | cons c t => simp [containsSub, isPre]
  | cons d t ih =>
    rw [containsSub, List.infix_cons_iff, Bool.or_eq_true,
      isPre_iff_pfx, ih]

theorem isPre_append_left {p a : Str} (h : isPre p a = true) (b : Str) :
    isPre p (a ++ b) = true := by
  rw [isPre_iff_pfx] at h ⊢
  exact h.trans (List.prefix_append a b)

theorem isPre_cons_ne {c d : Char} (h : ¬ c = d) (p s : Str) :
    isPre (c :: p) (d :: s) = false := by
  simp [isPre, h]

theorem isPre_of_prefix {p x u : Str} (hpre : x <+: u)
    (h : isPre p x = true) : isPre p u = true := by
  rw [isPre_iff_pfx] at h ⊢
  exact h.trans hpre

theorem dropWhile_dropWhile {α : Type} (p : α → Bool) (l : List α) :
    (l.dropWhile p).dropWhile p = l.dropWhile p := by
  induction l with
  | nil => rfl
  | cons c t ih =>
    by_cases h : p c = true
    · simp [List.dropWhile_cons, h, ih]
    · simp [List.dropWhile_cons, h]

theorem headWs_dropWhile (s : Str) : headWs (s.dropWhile isWs) = false := by
  induction s with
  | nil => rfl
  | cons c t ih =>
    by_cases h : isWs c = true
    · simpa [List.dropWhile_cons, h] using ih
    · simp [List.dropWhile_cons, h, headWs]

theorem dropWhile_of_headWs_false {s : Str} (h : headWs s = false) :
    s.dropWhile isWs = s := by
  cases s with
  | nil => rfl
  | cons c t => simp [List.dropWhile_cons, headWs] at h ⊢; simp [h]

theorem headWs_append {x : Str} (hx : x ≠ []) (y : Str) :
    headWs (x ++ y) = headWs x := by
  cases x with
  | nil => exact absurd rfl hx
  | cons c t => rfl

theorem headWs_of_prefix {x u : Str} (h : x <+: u)
    (hu : headWs u = false) : headWs x = false := by
  cases x with
  | nil => rfl
  | cons c t =>
    obtain ⟨r, hr⟩ := h
    rw [← hr] at hu
    simpa [headWs] using hu

theorem trim_eq_of {s : Str} (h1 : headWs s = false)
    (h2 : headWs s.reverse = false) : trim s = s := by
  simp [trim, dropWhile_of_headWs_false h1, dropWhile_of_headWs_false h2]

theorem headWs_trim (s : Str) : headWs (trim s) = false := by
  have hpre : trim s <+: s.dropWhile isWs := by
    rw [trim, ← List.reverse_reverse (List.dropWhile isWs s),
      List.reverse_prefix, List.reverse_reverse]
    exact List.dropWhile_suffix isWs
  exact headWs_of_prefix hpre (headWs_dropWhile s)

theorem headWs_reverse_trim (s : Str) : headWs (trim s).reverse = false := by
  rw [trim, List.reverse_reverse]
  exact headWs_dropWhile _

theorem trim_trim (s : Str) : trim (trim s) = trim s :=
  trim_eq_of (headWs_trim s) (headWs_reverse_trim s)

theorem mem_trim {c : Char} {s : Str} (h : c ∈ trim s) : c ∈ s := by
  rw [trim, List.mem_reverse] at h
  have h2 := (List.dropWhile_suffix isWs).subset h
  rw [List.mem_reverse] at h2
  exact (List.dropWhile_suffix isWs).subset h2

theorem collapseWsGo_cons_ws {c : Char} (h : isWs c = true) (t : Str) :
    collapseWsGo (c :: t) false = ' ' :: collapseWsGo t true ∧
    collapseWsGo (c :: t) true = collapseWsGo t true := by
  constructor <;> simp [collapseWsGo, h]

theorem collapseWsGo_cons_nws {c : Char} (h : ¬ isWs c = true) (t : Str)
    (b : Bool) : collapseWsGo (c :: t) b = c :: collapseWsGo t false := by
  simp [collapseWsGo, h]

theorem collapseWsGo_idem (s : Str) :
    collapseWsGo (collapseWsGo s false) false = collapseWsGo s false ∧
    collapseWsGo (collapseWsGo s true) true = collapseWsGo s true := by
  induction s with
  | nil => exact ⟨rfl, rfl⟩
  | cons c t ih =>
    by_cases hw : isWs c = true
    · refine ⟨?_, ?_⟩
      · rw [(collapseWsGo_cons_ws hw t).1,
          (collapseWsGo_cons_ws (show isWs ' ' = true from rfl) _).1]
        exact congrArg _ ih.2
      · rw [(collapseWsGo_cons_ws hw t).2]
        exact ih.2
    · refine ⟨?_, ?_⟩
      · rw [collapseWsGo_cons_nws hw t false,
          collapseWsGo_cons_nws hw _ false]
        exact congrArg _ ih.1
      · rw [collapseWsGo_cons_nws hw t true,
          collapseWsGo_cons_nws hw _ true]
        exact congrArg _ ih.1

theorem collapse_idem (s : Str) : collapseWs (collapseWs s) = collapseWs s :=
  (collapseWsGo_idem s).1

theorem headWs_collapse (s : Str) : headWs (collapseWs s) = headWs s := by
  cases s with
  | nil => rfl
  | cons c t =>
    by_cases hw : isWs c = true
    · rw [collapseWs, (collapseWsGo_cons_ws hw t).1]
      show isWs ' ' = headWs (c :: t)
      show true = isWs c
      exact hw.symm
    · rw [collapseWs, collapseWsGo_cons_nws hw t false]
      rfl

theorem collapseWsGo_ne_nil :
    ∀ {t : Str}, headWs t.reverse = false → t ≠ [] → ∀ b,
      collapseWsGo t b ≠ [] := by
  intro t
  induction t with
  | nil => intro _ ht _; exact absurd rfl ht
  | cons c t ih =>
    intro h _ b
    by_cases hw : isWs c = true
    · have ht : t ≠ [] := by
        intro he
        subst he
        simp only [List.reverse_cons, List.reverse_nil, List.nil_append,
          headWs] at h
        rw [hw] at h
        exact Bool.true_eq_false.mp h
      have h' : headWs t.reverse = false := by
        rw [List.reverse_cons,
          headWs_append (by simpa using ht)] at h
        exact h
      cases b with
      | true =>
        rw [(collapseWsGo_cons_ws hw t).2]
        exact ih h' ht true
      | false =>
        rw [(collapseWsGo_cons_ws hw t).1]
        exact List.cons_ne_nil _ _
    · rw [collapseWsGo_cons_nws hw t b]
      exact List.cons_ne_nil _ _

theorem wsLast_collapseGo :
    ∀ (s : Str) (b : Bool), headWs s.reverse = false →
      headWs (collapseWsGo s b).reverse = false := by
  intro s
  induction s with
  | nil => intro b _; rfl
  | cons c t ih =>
    intro b h
    by_cases hw : isWs c = true
    · have ht : t ≠ [] := by
        intro he
        subst he
        simp only [List.reverse_cons, List.reverse_nil, List.nil_append,
          headWs] at h
        rw [hw] at h
        exact Bool.true_eq_false.mp h
      have h' : headWs t.reverse = false := by
        rw [List.reverse_cons,
          headWs_append (by simpa using ht)] at h
        exact h
      cases b with
      | true =>
        rw [(collapseWsGo_cons_ws hw t).2]
        exact ih true h'
      | false =>
        rw [(collapseWsGo_cons_ws hw t).1]
        have hne : collapseWsGo t true ≠ [] :=
          collapseWsGo_ne_nil h' ht true
        rw [List.reverse_cons,
          headWs_append (by simpa using hne)]
        exact ih true h'
    · rw [collapseWsGo_cons_nws hw t b]
      by_cases hz : collapseWsGo t false = []
      · rw [hz]
        show isWs c = false
        exact Bool.eq_false_iff.mpr hw
      · have h' : headWs t.reverse = false := by
          by_cases htn : t = []
          · subst htn; rfl
          · rw [List.reverse_cons,
              headWs_append (by simpa using htn)] at h
            exact h
        rw [List.reverse_cons, headWs_append (by simpa using hz)]
        exact ih false h'

theorem isPre_wsfree_collapse :
    ∀ (pat : Str), (∀ c ∈ pat, isWs c = false) →
      ∀ x, isPre pat (collapseWsGo x false) = true → isPre pat x = true := by
  intro pat
  induction pat with
  | nil => intro _ x _; rfl
  | cons p ps ih =>
    intro hp x h
    cases x with
    | nil => exact absurd h (by simp [collapseWsGo, isPre])
    | cons c t =>
      by_cases hw : isWs c = true
      · rw [(collapseWsGo_cons_ws hw t).1] at h
        have hp' : ¬ p = ' ' := by
          intro he
          subst he
          have := hp ' ' (List.mem_cons_self _ _)
          exact Bool.true_eq_false.mp (this.symm.trans rfl).symm
        rw [isPre_cons_ne hp' _ _] at h
        exact absurd h (by simp)
      · rw [collapseWsGo_cons_nws hw t false] at h
        rw [isPre] at h ⊢
        by_cases he : p = c
        · rw [if_pos he] at h ⊢
          exact ih (fun d hd => hp d (List.mem_cons_of_mem _ hd)) t h
        · rw [if_neg he] at h
          exact absurd h (by simp)

theorem map_eq_self_of {α : Type} {f : α → α} :
    ∀ {l : List α}, (∀ c ∈ l, f c = c) → l.map f = l := by
  intro l
  induction l with
  | nil => intro _; rfl
  | cons c t ih =>
    intro h
    rw [List.map_cons, h c (List.mem_cons_self _ _),
      ih (fun d hd => h d (List.mem_cons_of_mem _ hd))]

theorem splitCh_ne_nil (d : Char) (s : Str) : splitCh d s ≠ [] := by
  induction s with
  | nil => exact List.cons_ne_nil _ _
  | cons c t ih =>
    rw [splitCh]
    by_cases h : c = d
    · rw [if_pos h]; exact List.cons_ne_nil _ _
    · rw [if_neg h]
      cases hs : splitCh d t with
      | nil => exact List.cons_ne_nil _ _
      | cons r rs => exact List.cons_ne_nil _ _

theorem splitCh_cons_eq (d : Char) (t : Str) :
    splitCh d (d :: t) = [] :: splitCh d t := by
  rw [splitCh, if_pos rfl]

theorem splitCh_cons_ne (d : Char) {c : Char} (h : ¬ c = d) (t : Str) :
    splitCh d (c :: t) =
      (c :: (splitCh d t).headD []) :: (splitCh d t).tail := by
  rw [splitCh, if_neg h]
  cases hs : splitCh d t with
  | nil => exact absurd hs (splitCh_ne_nil d t)
  | cons r rs => rfl

theorem splitCh_no_delim (d : Char) :
    ∀ {s : Str}, (∀ c ∈ s, ¬ c = d) → splitCh d s = [s] := by
  intro s
  induction s with
  | nil => intro _; rfl
  | cons c t ih =>
    intro h
    rw [splitCh_cons_ne d (h c (List.mem_cons_self _ _)) t,
      ih (fun e he => h e (List.mem_cons_of_mem _ he))]
    rfl

theorem idxOfCh_some_append {c : Char} {a : Str} {i : Nat}
    (h : idxOfCh c a = some i) (b : Str) : idxOfCh c (a ++ b) = some i := by
  induction a generalizing i with
  | nil => exact absurd h (by simp [idxOfCh])
  | cons d t ih =>
    rw [List.cons_append, idxOfCh]
    rw [idxOfCh] at h
    by_cases hd : d = c
    · rw [if_pos hd] at h ⊢; exact h
    · rw [if_neg hd] at h ⊢
      cases ht : idxOfCh c t with
      | none => rw [ht] at h; exact absurd h (by simp)
      | some j =>
        rw [ht] at h
        rw [ih ht]
        exact h

theorem lastIdxAux_none {pat s : Str}
    (h : ∀ i, isPre pat (s.drop i) = false) :
    ∀ k, lastIdxAux pat s k = none := by
  intro k
  induction k with
  | zero =>
    rw [lastIdxAux]
    have := h 0
    rw [List.drop_zero] at this
    rw [this]
    rfl
  | succ i ih =>
    rw [lastIdxAux, h (i + 1)]
    simpa using ih

theorem fllGo_none {t : Str}
    (h : ∀ k, lastIdxAux (lit ("\nFrom ")) t k = none) :
    ∀ f ss, fllGo t f ss = none := by
  intro f
  induction f with
  | zero => intro _; rfl
  | succ f ih =>
    intro ss
    rw [fllGo]
    by_cases h0 : ss = 0
    · rw [if_pos h0]
    · rw [if_neg h0, h ss]

theorem foldl_max_mem {α : Type} [LinearOrder α] (a : α) (l : List α) :
    l.foldl max a ∈ a :: l := by
  induction l generalizing a with
  | nil => exact List.mem_cons_self _ _
  | cons b t ih =>
    rw [List.foldl_cons]
    rcases List.mem_cons.mp (ih (max a b)) with h1 | h1
    · rcases max_choice a b with hm | hm
      · rw [h1, hm]
        exact List.mem_cons_self _ _
      · rw [h1, hm]
        exact List.mem_cons.mpr (Or.inr (List.mem_cons_self _ _))
    · exact List.mem_cons.mpr
        (Or.inr (List.mem_cons.mpr (Or.inr h1)))

theorem le_foldl_max {α : Type} [LinearOrder α] (a : α) (l : List α) :
    ∀ b ∈ a :: l, b ≤ l.foldl max a := by
  induction l generalizing a with
  | nil =>
    intro b hb
    rcases List.mem_cons.mp hb with h1 | h1
    · exact le_of_eq h1
    · exact absurd h1 (List.not_mem_nil b)
  | cons c t ih =>
    intro b hb
    rw [List.foldl_cons]
    rcases List.mem_cons.mp hb with h1 | h1
    · exact le_trans (le_of_eq h1)
        (le_trans (le_max_left a c)
          (ih (max a c) (max a c) (List.mem_cons_self _ _)))
    · rcases List.mem_cons.mp h1 with h2 | h2
      · exact le_trans (le_of_eq h2)
          (le_trans (le_max_right a c)
            (ih (max a c) (max a c) (List.mem_cons_self _ _)))
      · exact ih (max a c) b (List.mem_cons_of_mem _ h2)

theorem pemLoop_eq_parseLoop : ∀ (ls cur : List Str),
    pemLoop ls cur = parseLoop ls cur := by
  intro ls
  induction ls with
  | nil => intro cur; rfl
  | cons l t ih =>
    intro cur
    rw [pemLoop, parseLoop]
    by_cases h : isFromLine l = true ∧ cur.length > 0
    · rw [if_pos h, if_pos h, ih]
    · rw [if_neg h, if_neg h, ih]

theorem intercalate_singleton (s a : Str) :
    List.intercalate s [a] = a := by
  simp [List.intercalate]

theorem intercalate_cons (s a : Str) {l : List Str} (h : l ≠ []) :
    List.intercalate s (a :: l) = a ++ s ++ List.intercalate s l := by
  cases l with
  | nil => exact absurd rfl h
  | cons b t => simp [List.intercalate, List.intersperse]


/-!
Lemmas about the reply-prefix stripping of `normalizeSubject`.
-/

theorem trim_prefix_dropWhile (s : Str) : trim s <+: s.dropWhile isWs := by
  rw [trim, ← List.reverse_reverse (List.dropWhile isWs s),
    List.reverse_prefix, List.reverse_reverse]
  exact List.dropWhile_suffix isWs

theorem matchSubjPrefix_eq_none_iff (s : Str) :
    matchSubjPrefix s = none ↔
      ∀ a ∈ subjPrefixAlts, isPre (a ++ [':']) (lower s) = false := by
  rw [matchSubjPrefix, Option.map_eq_none', List.find?_eq_none]
  constructor
  · intro h a ha
    rw [← Bool.not_eq_true]
    exact h a ha
  · intro h a ha
    rw [Bool.not_eq_true]
    exact h a ha

theorem matchSubjPrefix_nil : matchSubjPrefix [] = none := by decide

theorem matchSubjPrefix_some_ge {s : Str} {k : Nat}
    (h : matchSubjPrefix s = some k) : 1 ≤ k := by
  rw [matchSubjPrefix] at h
  cases hf : subjPrefixAlts.find? (fun a => isPre (a ++ [':']) (lower s)) with
  | none => rw [hf] at h; exact absurd h (by simp)
  | some a =>
    rw [hf] at h
    simp only [Option.map_some', Option.some.injEq] at h
    omega

theorem stripSubjGo_none {s : Str} (h : matchSubjPrefix s = none) :
    ∀ f, stripSubjGo f s = s := by
  intro f
  cases f with
  | zero => rfl
  | succ f => rw [stripSubjGo, h]

theorem stripSubjGo_fuel_succ :
    ∀ (f : Nat) (s : Str), s.length ≤ f →
      stripSubjGo (f + 1) s = stripSubjGo f s := by
  intro f
  induction f with
  | zero =>
    intro s hs
    have : s = [] := List.length_eq_zero.mp (Nat.le_zero.mp hs)
    subst this
    rw [stripSubjGo_none matchSubjPrefix_nil,
      stripSubjGo_none matchSubjPrefix_nil]
  | succ f ih =>
    intro s hs
    rw [stripSubjGo]
    conv_rhs => rw [stripSubjGo]
    cases hm : matchSubjPrefix s with
    | none => rfl
    | some k =>
      have hk := matchSubjPrefix_some_ge hm
      have : (s.drop k).length ≤ f := by
        rw [List.length_drop]
        omega
      exact ih (s.drop k) this

theorem stripSubjGo_fuel_add :
    ∀ (d f : Nat) (s : Str), s.length ≤ f →
      stripSubjGo (f + d) s = stripSubjGo f s := by
  intro d
  induction d with
  | zero => intro f s _; rfl
  | succ d ih =>
    intro f s hs
    rw [show f + (d + 1) = (f + d) + 1 from rfl,
      stripSubjGo_fuel_succ (f + d) s (by omega), ih f s hs]

theorem stripSubjGo_eq_of_le {f : Nat} {s : Str} (h : s.length ≤ f) :
    stripSubjGo f s = stripSubjGo s.length s := by
  obtain ⟨d, rfl⟩ := Nat.le.dest h
  exact stripSubjGo_fuel_add d s.length s (le_refl _)

theorem matchSubjPrefix_stripSubjGo :
    ∀ (f : Nat) (s : Str), s.length ≤ f →
      matchSubjPrefix (stripSubjGo f s) = none := by
  intro f
  induction f with
  | zero =>
    intro s hs
    have : s = [] := List.length_eq_zero.mp (Nat.le_zero.mp hs)
    subst this
    exact matchSubjPrefix_nil
  | succ f ih =>
    intro s hs
    rw [stripSubjGo]
    cases hm : matchSubjPrefix s with
    | none => exact hm
    | some k =>
      have hk := matchSubjPrefix_some_ge hm
      exact ih (s.drop k) (by rw [List.length_drop]; omega)

theorem drop_length_takeWhile (p : Char → Bool) (u : Str) :
    u.drop (u.takeWhile p).length = u.dropWhile p := by
  have h := List.drop_left (u.takeWhile p) (u.dropWhile p)
  rwa [List.takeWhile_append_dropWhile] at h

theorem headWs_stripSubjGo :
    ∀ (f : Nat) {s : Str}, headWs s = false →
      headWs (stripSubjGo f s) = false := by
  intro f
  induction f with
  | zero => intro s h; exact h
  | succ f ih =>
    intro s h
    rw [stripSubjGo]
    cases hm : matchSubjPrefix s with
    | none => exact h
    | some k =>
      have hdrop : headWs (s.drop k) = false := by
        rw [matchSubjPrefix] at hm
        cases hf : subjPrefixAlts.find?
            (fun a => isPre (a ++ [':']) (lower s)) with
        | none => rw [hf] at hm; exact absurd hm (by simp)
        | some a =>
          rw [hf] at hm
          simp only [Option.map_some', Option.some.injEq] at hm
          rw [← hm, ← List.drop_drop, drop_length_takeWhile]
          exact headWs_dropWhile _
      exact ih hdrop

theorem subjPrefixAlts_wsfree :
    ∀ a ∈ subjPrefixAlts, ∀ c ∈ a ++ [':'], isWs c = false := by decide

theorem matchSubjPrefix_stable {r : Str} (hh : headWs r = false)
    (h : matchSubjPrefix r = none) :
    matchSubjPrefix (collapseWs (lower (trim r))) = none := by
  rw [matchSubjPrefix_eq_none_iff] at h ⊢
  intro a ha
  rw [Bool.eq_false_iff]
  intro hpre
  have heq : lower (collapseWs (lower (trim r))) = collapseWs (lower (trim r)) := by
    rw [collapse_lower, lower_lower, ← collapse_lower]
  rw [heq] at hpre
  have h1 : isPre (a ++ [':']) (lower (trim r)) = true :=
    isPre_wsfree_collapse (a ++ [':']) (subjPrefixAlts_wsfree a ha) _ hpre
  have h2 : isPre (a ++ [':']) (lower r) = true := by
    have hpre2 : trim (lower r) <+: lower r := by
      have := trim_prefix_dropWhile (lower r)
      rwa [dropWhile_of_headWs_false (by rw [headWs_lower]; exact hh)]
        at this
    rw [← trim_lower] at h1
    exact isPre_of_prefix hpre2 h1
  rw [h a ha] at h2
  exact Bool.false_ne_true h2

theorem normSubj_no_pfx {s : Str} (hh : headWs s = false) :
    matchSubjPrefix (normalizeSubject s) = none := by
  rw [normalizeSubject]
  by_cases he : s.isEmpty = true
  · rw [if_pos he]
    exact matchSubjPrefix_nil
  · rw [if_neg he]
    exact matchSubjPrefix_stable
      (headWs_stripSubjGo s.length hh)
      (matchSubjPrefix_stripSubjGo s.length s (le_refl _))

theorem headWs_normalizeSubject (s : Str) :
    headWs (normalizeSubject s) = false := by
  rw [normalizeSubject]
  by_cases he : s.isEmpty = true
  · rw [if_pos he]; rfl
  · rw [if_neg he, headWs_collapse, headWs_lower]
    exact headWs_trim _

theorem wsLast_normalizeSubject (s : Str) :
    headWs (normalizeSubject s).reverse = false := by
  rw [normalizeSubject]
  by_cases he : s.isEmpty = true
  · rw [if_pos he]; rfl
  · rw [if_neg he]
    apply wsLast_collapseGo
    rw [lower, ← List.map_reverse]
    show headWs (lower _) = false
    rw [headWs_lower]
    exact headWs_reverse_trim _

theorem lower_normalizeSubject (s : Str) :
    lower (normalizeSubject s) = normalizeSubject s := by
  rw [normalizeSubject]
  by_cases he : s.isEmpty = true
  · rw [if_pos he]; rfl
  · rw [if_neg he, collapse_lower, lower_lower, ← collapse_lower]

theorem trim_normalizeSubject (s : Str) :
    trim (normalizeSubject s) = normalizeSubject s :=
  trim_eq_of (headWs_normalizeSubject s) (wsLast_normalizeSubject s)

theorem collapse_normalizeSubject (s : Str) :
    collapseWs (normalizeSubject s) = normalizeSubject s := by
  rw [normalizeSubject]
  by_cases he : s.isEmpty = true
  · rw [if_pos he]; rfl
  · rw [if_neg he]
    exact collapse_idem _

theorem isEmptyStr_iff (l : Str) : l.isEmpty = true ↔ l = [] := by
  cases l <;> simp

theorem takeWhile_isWs_nil {s : Str} (hh : headWs s = false) :
    s.takeWhile isWs = [] := by
  cases s with
  | nil => rfl
  | cons c t =>
    have hc : isWs c = false := hh
    rw [List.takeWhile_cons, hc]
    rfl

theorem stripSubjGo_some {s : Str} {k : Nat}
    (h : matchSubjPrefix s = some k) (f : Nat) :
    stripSubjGo (f + 1) s = stripSubjGo f (s.drop k) := by
  rw [stripSubjGo, h]

theorem matchSubjPrefix_re {s : Str} (hh : headWs s = false) :
    matchSubjPrefix (lit ("Re: ") ++ s) = some 4 := by
  rw [matchSubjPrefix]
  have hfind : subjPrefixAlts.find?
      (fun a => isPre (a ++ [':']) (lower (lit ("Re: ") ++ s))) =
      some (lit ("re")) := by
    rw [subjPrefixAlts]
    apply List.find?_cons_of_pos
    show isPre (lit ("re") ++ [':']) (lower (lit ("Re: ") ++ s)) = true
    rw [show lit ("re") ++ [':'] = lit ("re:") from rfl,
      show lower (lit ("Re: ") ++ s) = lit ("re: ") ++ lower s from by
        rw [lower, List.map_append]; rfl]
    exact isPre_append_left (by decide) _
  rw [hfind, Option.map_some']
  simp only [Option.some.injEq]
  show 2 + 1 + (((lit ("Re: ") ++ s).drop 3).takeWhile isWs).length = 4
  rw [show (lit ("Re: ") ++ s).drop 3 = ' ' :: s from rfl,
    List.takeWhile_cons, show isWs ' ' = true from rfl]
  rw [takeWhile_isWs_nil hh]
  rfl

theorem c6_idem_aux {s : Str} (hh : headWs s = false) :
    normalizeSubject (normalizeSubject s) = normalizeSubject s := by
  by_cases he : (normalizeSubject s).isEmpty = true
  · have he' : normalizeSubject s = [] := (isEmptyStr_iff _).mp he
    rw [he']
    rfl
  · conv_lhs => rw [normalizeSubject]
    rw [if_neg he, stripSubjGo_none (normSubj_no_pfx hh),
      trim_normalizeSubject, lower_normalizeSubject,
      collapse_normalizeSubject]

theorem c6_re_aux {s : Str} (hh : headWs s = false) :
    normalizeSubject (lit ("Re: ") ++ s) = normalizeSubject s := by
  conv_lhs => rw [normalizeSubject]
  rw [if_neg (show ¬ List.isEmpty (lit ("Re: ") ++ s) = true by
    rw [show lit ("Re: ") ++ s = 'R' :: (lit ("e: ") ++ s) from rfl]
    simp)]
  have hlen : (lit ("Re: ") ++ s).length = s.length + 4 := by
    rw [List.length_append]
    show 4 + s.length = s.length + 4
    omega
  rw [hlen, show s.length + 4 = (s.length + 3) + 1 from rfl,
    stripSubjGo_some (matchSubjPrefix_re hh) (s.length + 3),
    show (lit ("Re: ") ++ s).drop 4 = s from rfl,
    stripSubjGo_eq_of_le (by omega)]
  conv_rhs => rw [normalizeSubject]
  by_cases hse : s.isEmpty = true
  · have hs0 : s = [] := (isEmptyStr_iff _).mp hse
    subst hs0
    rfl
  · rw [if_neg hse]


/-!
Lemmas about the detector result shapes and the batch loops.
-/

theorem ite_none_confA (c : Prop) [Decidable c] (r : AccountDetectionResult)
    (hr : r.type = AccountKind.account) :
    (if c then r else ⟨AccountKind.none, 0, none⟩).type = AccountKind.none →
    (if c then r else ⟨AccountKind.none, 0, none⟩).confidence = 0 := by
  split
  · intro h
    rw [hr] at h
    exact absurd h (by simp)
  · intro _
    rfl

theorem ite_none_confP (c1 c2 c3 : Prop) [Decidable c1] [Decidable c2]
    [Decidable c3] (p : PurchaseDetectionResult)
    (hp : p.type = PurchaseKind.purchase) :
    (if c1 then (⟨PurchaseKind.none, 0, none⟩ : PurchaseDetectionResult)
      else if c2 then (if c3 then p else ⟨PurchaseKind.none, 0, none⟩)
      else ⟨PurchaseKind.none, 0, none⟩).type = PurchaseKind.none →
    (if c1 then (⟨PurchaseKind.none, 0, none⟩ : PurchaseDetectionResult)
      else if c2 then (if c3 then p else ⟨PurchaseKind.none, 0, none⟩)
      else ⟨PurchaseKind.none, 0, none⟩).confidence = 0 := by
  split
  · intro _
    rfl
  · split
    · split
      · intro h
        rw [hp] at h
        exact absurd h (by simp)
      · intro _
        rfl
    · intro _
      rfl

theorem accountFoldFst (l : List Email) :
    ∀ (acc : List Email) (m : AList Account),
      (l.foldl accountBatchStep (acc, m)).1 = acc ++ l := by
  induction l with
  | nil => intro acc m; simp
  | cons e t ih =>
    intro acc m
    rw [List.foldl_cons,
      show accountBatchStep (acc, m) e =
        (acc ++ [e], (accountBatchStep (acc, m) e).2) from rfl,
      ih, List.append_assoc]
    rfl

theorem subFoldFst (l : List Email) :
    ∀ (acc : List Email) (m : AList Subscription),
      (l.foldl subscriptionBatchStep (acc, m)).1 = acc ++ l := by
  induction l with
  | nil => intro acc m; simp
  | cons e t ih =>
    intro acc m
    rw [List.foldl_cons,
      show subscriptionBatchStep (acc, m) e =
        (acc ++ [e], (subscriptionBatchStep (acc, m) e).2) from rfl,
      ih, List.append_assoc]
    rfl

theorem newsFoldFst (l : List Email) :
    ∀ (acc : List Email) (m : AList (List Email × List Str)),
      (l.foldl newsletterBatchStep (acc, m)).1 = acc ++ l := by
  induction l with
  | nil => intro acc m; simp
  | cons e t ih =>
    intro acc m
    rw [List.foldl_cons,
      show newsletterBatchStep (acc, m) e =
        (acc ++ [e], (newsletterBatchStep (acc, m) e).2) from rfl,
      ih, List.append_assoc]
    rfl


/-!
Lemmas about `parseGmailLabels`.
-/

theorem toLower_eq_quote {d : Char} (h : d.toLower = '"') : d = '"' := by
  by_cases hu : d.toNat ≥ 65 ∧ d.toNat ≤ 90
  · have ht := toLower_toNat_upper d hu
    rw [h] at ht
    have h34 : ('"' : Char).toNat = 34 := rfl
    exact absurd ht (by omega)
  · rwa [toLower_fix d hu] at h

theorem pglPush {cur : Str} (hq : ∀ c ∈ cur, ¬ c = '"')
    (hne : ¬ (trim cur).isEmpty = true) :
    lower (trim cur) ≠ [] ∧ lower (lower (trim cur)) = lower (trim cur) ∧
    trim (lower (trim cur)) = lower (trim cur) ∧
    ¬ '"' ∈ lower (trim cur) := by
  refine ⟨?_, lower_lower _, ?_, ?_⟩
  · intro hz
    rw [lower, List.map_eq_nil_iff] at hz
    rw [hz] at hne
    exact hne rfl
  · rw [← trim_lower, trim_trim]
  · intro hmem
    rw [lower, List.mem_map] at hmem
    obtain ⟨d, hd, hdq⟩ := hmem
    exact hq d (mem_trim hd) (toLower_eq_quote hdq)

theorem pglInv :
    ∀ (s cur : Str) (inQ : Bool) (acc : List Str),
      (∀ l ∈ acc, l ≠ [] ∧ lower l = l ∧ trim l = l ∧ ¬ '"' ∈ l) →
      (∀ c ∈ cur, ¬ c = '"') →
      ∀ l ∈ pglGo s cur inQ acc,
        l ≠ [] ∧ lower l = l ∧ trim l = l ∧ ¬ '"' ∈ l := by
  intro s
  induction s with
  | nil =>
    intro cur inQ acc hacc hq l hl
    rw [pglGo] at hl
    by_cases hne : (trim cur).isEmpty = true
    · rw [if_pos hne] at hl
      exact hacc l hl
    · rw [if_neg hne] at hl
      rcases List.mem_append.mp hl with h1 | h1
      · exact hacc l h1
      · rcases List.mem_singleton.mp h1 with rfl
        have hp := pglPush hq hne
        exact ⟨hp.1, hp.2.1, hp.2.2.1, hp.2.2.2⟩
  | cons c t ih =>
    intro cur inQ acc hacc hq l hl
    rw [pglGo] at hl
    by_cases hc : c = '"'
    · rw [if_pos hc] at hl
      exact ih cur (!inQ) acc hacc hq l hl
    · rw [if_neg hc] at hl
      by_cases hcomma : c = ',' ∧ (!inQ) = true
      · rw [if_pos hcomma] at hl
        refine ih [] inQ _ ?_
          (by intro x hx; exact absurd hx (List.not_mem_nil x)) l hl
        intro x hx
        by_cases hne : (trim cur).isEmpty = true
        · rw [if_pos hne] at hx
          exact hacc x hx
        · rw [if_neg hne] at hx
          rcases List.mem_append.mp hx with h1 | h1
          · exact hacc x h1
          · rcases List.mem_singleton.mp h1 with rfl
            have hp := pglPush hq hne
            exact ⟨hp.1, hp.2.1, hp.2.2.1, hp.2.2.2⟩
      · rw [if_neg hcomma] at hl
        refine ih (cur ++ [c]) inQ acc hacc ?_ l hl
        intro x hx
        rcases List.mem_append.mp hx with h1 | h1
        · exact hq x h1
        · rcases List.mem_singleton.mp h1 with rfl
          exact hc

theorem pglQuoted (a : Str) (hq : ∀ c ∈ a, ¬ c = '"') :
    ∀ (cur : Str) (acc : List Str),
      pglGo (a ++ ['"']) cur true acc = pglGo [] (cur ++ a) false acc := by
  induction a with
  | nil =>
    intro cur acc
    simp [pglGo]
  | cons c a' ih =>
    intro cur acc
    rw [List.cons_append]
    conv_lhs => rw [pglGo]
    rw [if_neg (hq c (List.mem_cons_self _ _)),
      if_neg (by simp : ¬ (c = ',' ∧ (!true) = true)),
      ih (fun x hx => hq x (List.mem_cons_of_mem _ hx)) (cur ++ [c]) acc,
      List.append_assoc]
    rfl


/-!
Claim theorems C3, C4, C6, C8, C9, C10.
-/

/-- C3: a line of an MBOX source is treated as a message separator exactly
when it starts with the five characters `From ` and additionally contains
one of the seven day-of-week tokens `Mon`..`Sun` as a substring.
`isFromLine` is precisely the test the accumulation loops of
`MBOXParser.parse` and `MBOXParser.parseEmailsFromText` apply to each line,
so a line failing either part of the test (in particular a `From `-prefixed
line without a day token) is accumulated as content rather than treated as
a separator. -/
theorem c3_isFromLine_separator (line : Str) :
    isFromLine line = true ↔
      lit ("From ") <+: line ∧ ∃ d ∈ dayTokens, d <:+: line := by
  rw [isFromLine]
  by_cases h : isPre (lit ("From ")) line = true
  · simp only [h, Bool.not_true, Bool.false_eq_true, if_false]
    rw [List.any_eq_true]
    simp only [containsSub_iff_ifx]
    exact ⟨fun hx => ⟨(isPre_iff_pfx _ _).mp h, hx⟩, fun hx => hx.2⟩
  · have hb : isPre (lit ("From ")) line = false := Bool.eq_false_iff.mpr h
    simp only [hb, Bool.not_false, if_true, Bool.false_eq_true, false_iff]
    intro hx
    exact h ((isPre_iff_pfx _ _).mpr hx.1)

/-- C4: the confidence returned by `AccountDetector.detect` is NOT capped
at 100, contradicting the documented 0 to 100 range: on a welcome email
from a catalog domain (`info@netflix.com`, subject `Welcome to Netflix!`,
body `Your account has been created.`) the component scores 40 + 40 + 30
add to 110 and the result carries confidence 110. -/
theorem c4_account_confidence_exceeds_cap :
    (accountDetect nflxEmail).confidence = 110 ∧
    ¬ (accountDetect nflxEmail).confidence ≤ 100 := by
  decide

/-- C6 (amended): for every subject string that does not begin with a
whitespace character, `normalizeSubject` is idempotent and invariant under
prepending the reply prefix `Re: `. The unrestricted claim is false, see
the counterexample: a leading space hides the reply prefix from the
anchored stripping pattern but not from the subsequent `trim`, so a second
application can strip further. -/
theorem c6_normalizeSubject_laws (s : Str) (hh : headWs s = false) :
    normalizeSubject (normalizeSubject s) = normalizeSubject s ∧
    normalizeSubject (lit ("Re: ") ++ s) = normalizeSubject s :=
  ⟨c6_idem_aux hh, c6_re_aux hh⟩

/-- C6 witness: the amended laws at the concrete subject `Fwd: Hello`. -/
theorem c6_normalizeSubject_laws_wit :
    normalizeSubject (normalizeSubject (lit ("Fwd: Hello"))) =
      normalizeSubject (lit ("Fwd: Hello")) ∧
    normalizeSubject (lit ("Re: ") ++ lit ("Fwd: Hello")) =
      normalizeSubject (lit ("Fwd: Hello")) :=
  c6_normalizeSubject_laws (lit ("Fwd: Hello")) (by decide)

/-- C6 counterexample: at the subject `" Re: x"` both claimed laws fail:
one application normalizes to `re: x`, a second application strips the now
anchored prefix and yields `x`, and prepending `Re: ` also yields `x`. -/
theorem c6_normalizeSubject_cex :
    normalizeSubject (lit (" Re: x")) = lit ("re: x") ∧
    normalizeSubject (normalizeSubject (lit (" Re: x"))) = lit ("x") ∧
    normalizeSubject (lit ("Re: ") ++ lit (" Re: x")) = lit ("x") ∧
    ¬ normalizeSubject (normalizeSubject (lit (" Re: x"))) =
        normalizeSubject (lit (" Re: x")) ∧
    ¬ normalizeSubject (lit ("Re: ") ++ lit (" Re: x")) =
        normalizeSubject (lit (" Re: x")) := by
  decide

/-- C8: every label returned by `MBOXParser.parseGmailLabels` is non-empty,
equals its own lowercase, carries no leading or trailing whitespace and
contains no double quote; and a comma inside a double-quoted section does
not split a label: a fully quoted header `"a"` yields the single label
`lower (trim a)` whatever commas `a` contains. -/
theorem c8_parseGmailLabels_invariants :
    (∀ h : Str, ∀ l ∈ parseGmailLabels h,
      l ≠ [] ∧ lower l = l ∧ trim l = l ∧ ¬ '"' ∈ l) ∧
    (∀ a : Str, (∀ c ∈ a, ¬ c = '"') →
      parseGmailLabels ('"' :: (a ++ ['"'])) =
        if (trim a).isEmpty = true then [] else [lower (trim a)]) := by
  constructor
  · intro h l hl
    rw [parseGmailLabels] at hl
    by_cases he : h.isEmpty = true
    · rw [if_pos he] at hl
      exact absurd hl (List.not_mem_nil l)
    · rw [if_neg he] at hl
      exact pglInv h [] false []
        (fun x hx => absurd hx (List.not_mem_nil x))
        (fun c hc => absurd hc (List.not_mem_nil c)) l hl
  · intro a hq
    rw [parseGmailLabels,
      if_neg (by simp : ¬ List.isEmpty ('"' :: (a ++ ['"'])) = true)]
    conv_lhs => rw [pglGo]
    rw [if_pos rfl, show (!false) = true from rfl,
      pglQuoted a hq [] [], pglGo]
    simp

/-- C8 witness: the invariants at the label `a,b` of the concrete header
`"a,b" , C  ` (whose quoted comma does not split), and the quoted-header
law at `x, y`. -/
theorem c8_parseGmailLabels_wit :
    (lit ("a,b") ≠ [] ∧ lower (lit ("a,b")) = lit ("a,b") ∧
      trim (lit ("a,b")) = lit ("a,b") ∧ ¬ '"' ∈ lit ("a,b")) ∧
    parseGmailLabels ('"' :: (lit ("x, y") ++ ['"'])) =
      (if (trim (lit ("x, y"))).isEmpty = true then []
       else [lower (trim (lit ("x, y")))]) :=
  ⟨c8_parseGmailLabels_invariants.1 (lit ("\"a,b\" , C  ")) (lit ("a,b"))
      (by decide),
   c8_parseGmailLabels_invariants.2 (lit ("x, y")) (by decide)⟩

/-- C9: when `AccountDetector.detect` returns type `none` the returned
confidence is exactly 0, and likewise for `PurchaseDetector.detect`: every
code path that fails an emission threshold returns the literal zero result
rather than exposing a partial score. -/
theorem c9_none_results_zero_confidence (e : Email) :
    ((accountDetect e).type = AccountKind.none →
      (accountDetect e).confidence = 0) ∧
    ((purchaseDetect e).type = PurchaseKind.none →
      (purchaseDetect e).confidence = 0) := by
  constructor
  · rw [accountDetect]
    exact ite_none_confA _ _ rfl
  · rw [purchaseDetect]
    exact ite_none_confP _ _ _ _ rfl

/-- C9 witness: the empty email is detected as `none` by both detectors
and both results carry confidence 0. -/
theorem c9_none_results_wit :
    (accountDetect emailEmpty).confidence = 0 ∧
    (purchaseDetect emailEmpty).confidence = 0 :=
  ⟨(c9_none_results_zero_confidence emailEmpty).1 (by decide),
   (c9_none_results_zero_confidence emailEmpty).2 (by decide)⟩

/-- C10: the `detectBatch` loops of the account, subscription and
newsletter detectors leave the processed email list unchanged: threading
the emails through the loop state returns exactly the input list, in
order, while all aggregation happens in the detector-owned maps. -/
theorem c10_detectBatch_frame (emails : List Email) :
    (accountDetectBatchS emails).1 = emails ∧
    (subscriptionDetectBatchS emails).1 = emails ∧
    (newsletterDetectBatchS emails).1 = emails := by
  refine ⟨?_, ?_, ?_⟩
  · exact (accountFoldFst emails [] []).trans (List.nil_append emails)
  · exact (subFoldFst emails [] []).trans (List.nil_append emails)
  · exact (newsFoldFst emails [] []).trans (List.nil_append emails)


/-!
Claim theorems C7 and C1.
-/

/-- C7 (amended): when the fallback scan of
`PurchaseDetector.extractAmount` returns an amount, that amount is an
actually captured amount of the winning currency, lies in the OPEN
interval (0, 500000) — amounts equal to 500000 are rejected by the strict
`a < 500000` filter, see the counterexample — and is the maximum of all
in-range captured amounts of that currency. -/
theorem c7_fallback_max_in_range :
    ∀ (text : Str) (a : ℚ) (c : Str),
    purchaseFallbackScan text = some (a, c) →
    (0 < a ∧ a < 500000) ∧
    ∃ e ∈ purchaseFallbackRes, e.1 = c ∧
      a ∈ (matchAll e.2 text).map
          (fun m => parseAmount ((capGet m.2 1).getD []) e.1) ∧
      ∀ b ∈ (matchAll e.2 text).map
          (fun m => parseAmount ((capGet m.2 1).getD []) e.1),
        0 < b ∧ b < 500000 → b ≤ a := by
  intro text a c h
  rw [purchaseFallbackScan] at h
  obtain ⟨e, he, hfe⟩ := List.exists_of_findSome?_eq_some h
  by_cases hlen : 1 ≤ (matchAll e.2 text).length ∧
      (matchAll e.2 text).length ≤ 5
  · rw [if_pos hlen] at hfe
    cases hflt : ((matchAll e.2 text).map
        (fun m => parseAmount ((capGet m.2 1).getD []) e.1)).filter
        (fun x => 0 < x ∧ x < 500000) with
    | nil =>
      rw [hflt] at hfe
      exact absurd hfe (by simp)
    | cons x rest =>
      rw [hflt] at hfe
      simp only [Option.some.injEq, Prod.mk.injEq] at hfe
      obtain ⟨ha, hc⟩ := hfe
      have hmem : a ∈ ((matchAll e.2 text).map
          (fun m => parseAmount ((capGet m.2 1).getD []) e.1)).filter
          (fun x => 0 < x ∧ x < 500000) := by
        rw [hflt, ← ha]
        exact foldl_max_mem x rest
      rw [List.mem_filter] at hmem
      have hrange : 0 < a ∧ a < 500000 := by
        have hp := hmem.2
        simpa using hp
      refine ⟨hrange, e, he, hc, hmem.1, ?_⟩
      intro b hb hbr
      have hbf : b ∈ ((matchAll e.2 text).map
          (fun m => parseAmount ((capGet m.2 1).getD []) e.1)).filter
          (fun x => 0 < x ∧ x < 500000) := by
        rw [List.mem_filter]
        exact ⟨hb, by simpa using hbr⟩
      rw [hflt] at hbf
      rw [← ha]
      exact le_foldl_max x rest b hbf
  · rw [if_neg hlen] at hfe
    exact absurd hfe (by simp)

/-- C7 witness: the amended property at `$20.00 or $5.00`, where the USD
fallback scan captures 20 and 5 and returns the maximum 20. -/
theorem c7_fallback_max_wit :
    ((0 : ℚ) < 20 ∧ (20 : ℚ) < 500000) ∧
    ∃ e ∈ purchaseFallbackRes, e.1 = lit ("USD") ∧
      (20 : ℚ) ∈ (matchAll e.2 (lit ("$20.00 or $5.00"))).map
          (fun m => parseAmount ((capGet m.2 1).getD []) e.1) ∧
      ∀ b ∈ (matchAll e.2 (lit ("$20.00 or $5.00"))).map
          (fun m => parseAmount ((capGet m.2 1).getD []) e.1),
        0 < b ∧ b < 500000 → b ≤ 20 :=
  c7_fallback_max_in_range (lit ("$20.00 or $5.00")) 20 (lit ("USD"))
    (by decide)

/-- C7 counterexample: on `Price: $500,000.00` no context pattern fires,
the USD fallback scan captures exactly one amount which parses to exactly
500000, yet the scan rejects it (strict bound) and `extractAmount` falls
through to `(0, USD)` — the claim says 500000 is accepted. -/
theorem c7_excludes_500000_cex :
    extractAmount c7Text = (0, lit ("USD")) ∧
    purchaseFallbackScan c7Text = none ∧
    (matchAll (rcat [rchr '$', rstar clsS, usdAmtCap]) c7Text).map
        (fun m => parseAmount ((capGet m.2 1).getD []) (lit ("USD"))) =
      [500000] := by
  decide

/-- C1 (amended): the MBOX parser emits records whose sender contains no
`@` and even records with an empty sender: when a message block (at least
two lines) has neither a From nor a Subject header, the subject defaults
to `(No Subject)`, the both-empty rejection guard cannot fire, and the
record is emitted with an empty sender. -/
theorem c1_record_without_sender (lines : List Str)
    (h2 : 2 ≤ lines.length)
    (hf : alGet (headerLoop (lines.drop 1) []).1 (lit ("from")) = none)
    (hs : alGet (headerLoop (lines.drop 1) []).1 (lit ("subject")) = none) :
    ∃ e, parseEmailFromLines lines = some e ∧
      e.sender = [] ∧ e.subject = lit ("(No Subject)") := by
  simp only [parseEmailFromLines]
  rw [if_neg (show ¬ lines.length < 2 by omega)]
  rw [hf, hs]
  simp only [Option.getD_none]
  rw [show jsOr [] (lit ("(No Subject)")) = lit ("(No Subject)") from rfl,
    show decodeHeaderValue (lit ("(No Subject)")) = lit ("(No Subject)")
      from by decide,
    show parseEmailAddress [] = ([], none) from by decide]
  rw [if_neg (by decide)]
  refine ⟨_, rfl, ?_, ?_⟩
  · show cleanEmailAddress ([], (none : Option Str)).1 = []
    decide
  · rfl

/-- C1 witness: the amended property at the concrete headerless two-line
block `["From a Mon", "X: y"]`. -/
theorem c1_record_without_sender_wit :
    ∃ e, parseEmailFromLines [lit ("From a Mon"), lit ("X: y")] = some e ∧
      e.sender = [] ∧ e.subject = lit ("(No Subject)") :=
  c1_record_without_sender [lit ("From a Mon"), lit ("X: y")] (by decide)
    (by decide) (by decide)

/-- C1 counterexample: `mboxParse` on a message whose From header is the
bare word `foo` emits one record with sender `foo`, which contains no `@`;
and on a message without any From header it emits one record whose sender
is empty — the claim says an empty sender is rejected and an emitted
sender always contains `@`. -/
theorem c1_sender_at_cex :
    (mboxParse c1Text).map PEmail.sender = [lit ("foo")] ∧
    ¬ '@' ∈ lit ("foo") ∧ lit ("foo") ≠ [] ∧
    (mboxParse c1NoFromText).map PEmail.sender = [[]] := by
  decide


/-!
Lemmas about the regex engine, leading to the size behaviour of the OLM
message decoder on large inputs (claim C5).
-/

theorem matchRe_seq_eps (k : RE) (p : Option Char) (s : Str) :
    matchRe (.seq .eps k) p s = matchRe k p s := by
  simp [matchRe]

theorem matchRe_seq_cls {q : Char → Bool} {c : Char} (h : q c = true)
    (k : RE) (p : Option Char) (s : Str) :
    matchRe (.seq (.cls q) k) p (c :: s) = matchRe k (some c) s := by
  simp [matchRe, h]

theorem matchRe_seq_cls_fail {q : Char → Bool} {c : Char} (h : q c = false)
    (k : RE) (p : Option Char) (s : Str) :
    matchRe (.seq (.cls q) k) p (c :: s) = [] := by
  simp [matchRe, h]

theorem matchRe_seq_nil_cls (q : Char → Bool) (k : RE) (p : Option Char) :
    matchRe (.seq (.cls q) k) p [] = [] := by
  simp [matchRe]

theorem matchRe_seq_assoc (a b k : RE) (p : Option Char) (s : Str) :
    matchRe (.seq (.seq a b) k) p s = matchRe (.seq a (.seq b k)) p s := by
  simp only [matchRe]
  rw [List.flatMap_assoc]
  apply List.flatMap_congr
  intro r _
  rw [List.flatMap_map, List.map_flatMap]
  apply List.flatMap_congr
  intro r2 _
  rw [List.map_map]
  apply List.map_congr_left
  intro q _
  simp [Function.comp, List.append_assoc]

theorem matchRe_seq_single {a : RE} {p : Option Char} {s s' : Str}
    {p' : Option Char} {cs : Caps}
    (h : matchRe a p s = [(s', p', cs)]) (k : RE) :
    matchRe (.seq a k) p s =
      (matchRe k p' s').map (fun q => (q.1, q.2.1, cs ++ q.2.2)) := by
  rw [matchRe, h]
  simp

theorem matchRe_star_fail {r : RE} {p : Option Char} {s : Str}
    (h : matchRe r p s = []) (lz : Bool) :
    matchRe (.star r lz) p s = [(s, p, [])] := by
  rw [matchRe, starGo, h]
  cases lz <;> simp

theorem matchRe_rstri_self :
    ∀ (cs : Str) (k : RE) (p : Option Char) (t : Str),
      matchRe (.seq (rcat (cs.map rchri)) k) p (cs ++ t) =
        matchRe k (lastO cs p) t := by
  intro cs
  induction cs with
  | nil =>
    intro k p t
    rw [show rcat (List.map rchri []) = RE.eps from rfl]
    rw [matchRe_seq_eps]
    rfl
  | cons c cs ih =>
    intro k p t
    rw [show List.map rchri (c :: cs) = rchri c :: List.map rchri cs
        from rfl,
      show rcat (rchri c :: List.map rchri cs) =
        .seq (rchri c) (rcat (List.map rchri cs)) from rfl,
      matchRe_seq_assoc, List.cons_append, rchri,
      matchRe_seq_cls (by simp),
      ih k (some c) t]
    congr 1
    cases cs with
    | nil => rfl
    | cons d ds => rfl

theorem matchRe_seq_chr {c : Char} (k : RE) (p : Option Char) (s : Str) :
    matchRe (.seq (rchr c) k) p (c :: s) = matchRe k (some c) s := by
  rw [rchr]
  exact matchRe_seq_cls (by simp) k p s

theorem matchRe_star_eq (r : RE) (lz : Bool) (p : Option Char) (s : Str) :
    matchRe (.star r lz) p s = starGo (matchRe r) lz (s.length + 1) p s :=
  rfl

theorem matchRe_grp_eq (i : Nat) (r : RE) (p : Option Char) (s : Str) :
    matchRe (.grp i r) p s =
      (matchRe r p s).map
        (fun q => (q.1, q.2.1,
          q.2.2 ++ [(i, s.take (s.length - q.1.length))])) :=
  rfl

theorem matchRe_seq_eq (a b : RE) (p : Option Char) (s : Str) :
    matchRe (.seq a b) p s =
      (matchRe a p s).flatMap
        (fun r => (matchRe b r.2.1 r.1).map
          (fun q => (q.1, q.2.1, r.2.2 ++ q.2.2))) :=
  rfl

theorem starGo_succ_eq
    (m : Option Char → Str → List (Str × Option Char × Caps)) (lz : Bool)
    (f : Nat) (p : Option Char) (s : Str) :
    starGo m lz (f + 1) p s =
      (if lz then
        (s, p, []) ::
          ((m p s).filter (fun r => r.1.length < s.length)).flatMap
            (fun r => (starGo m lz f r.2.1 r.1).map
              (fun q => (q.1, q.2.1, r.2.2 ++ q.2.2)))
      else
        ((m p s).filter (fun r => r.1.length < s.length)).flatMap
            (fun r => (starGo m lz f r.2.1 r.1).map
              (fun q => (q.1, q.2.1, r.2.2 ++ q.2.2))) ++ [(s, p, [])]) :=
  rfl

theorem c5_close_tag (n : Nat) (p : Option Char) :
    matchRe (rcat [rchr '<', rchr '/', rstri ("OPFMessageCopySubject"),
        rchr '>'])
      p (lit ("</OPFMessageCopySubject>") ++ List.replicate n 'a') =
    [(List.replicate n 'a', some '>', [])] := by
  rw [show lit ("</OPFMessageCopySubject>") ++ List.replicate n 'a' =
      '<' :: ('/' :: (("OPFMessageCopySubject").data ++
        ('>' :: List.replicate n 'a'))) from rfl,
    show rcat [rchr '<', rchr '/', rstri ("OPFMessageCopySubject"),
        rchr '>'] =
      .seq (rchr '<') (.seq (rchr '/')
        (.seq (rcat ((("OPFMessageCopySubject").data).map rchri))
          (.seq (rchr '>') .eps))) from rfl,
    matchRe_seq_chr, matchRe_seq_chr, matchRe_rstri_self,
    show lastO (("OPFMessageCopySubject").data) (some '/') = some 't'
      from rfl,
    matchRe_seq_chr]
  rfl

theorem matchRe_seq_chr_ne {c d : Char} (h : ¬ d = c) (k : RE)
    (p : Option Char) (s : Str) :
    matchRe (.seq (rchr c) k) p (d :: s) = [] := by
  rw [rchr]
  exact matchRe_seq_cls_fail (by simp [h]) k p s

theorem c5K_fail_x (p : Option Char) (s : Str) :
    matchRe (rcat [rchr '<', rchr '/', rstri ("OPFMessageCopySubject"),
      rchr '>']) p ('x' :: s) = [] := by
  rw [show (rcat [rchr '<', rchr '/', rstri ("OPFMessageCopySubject"),
      rchr '>']) = .seq (rchr '<') (rcat [rchr '/',
      rstri ("OPFMessageCopySubject"), rchr '>']) from rfl]
  exact matchRe_seq_chr_ne (by decide) _ p s

theorem c5_star_cont (n : Nat) (p : Option Char) :
    (matchRe (.seq (.grp 1 (.star clsAll true))
        (rcat [rchr '<', rchr '/', rstri ("OPFMessageCopySubject"),
          rchr '>'])) p
      ('x' :: (lit ("</OPFMessageCopySubject>") ++
        List.replicate n 'a'))).head? =
    some (List.replicate n 'a', some '>', [(1, lit ("x"))]) := by
  show _ = some (List.replicate n 'a', some '>', [(1, ['x'])])
  rw [matchRe_seq_eq, matchRe_grp_eq, matchRe_star_eq,
    show ('x' :: (lit ("</OPFMessageCopySubject>") ++
        List.replicate n 'a')).length + 1 =
      ((lit ("</OPFMessageCopySubject>") ++
        List.replicate n 'a').length + 1) + 1 from rfl,
    starGo_succ_eq, if_pos rfl,
    show matchRe clsAll p ('x' :: (lit ("</OPFMessageCopySubject>") ++
        List.replicate n 'a')) =
      [(lit ("</OPFMessageCopySubject>") ++ List.replicate n 'a',
        some 'x', [])] from rfl]
  rw [show List.filter
      (fun r => r.1.length <
        ('x' :: (lit ("</OPFMessageCopySubject>") ++
          List.replicate n 'a')).length)
      [(lit ("</OPFMessageCopySubject>") ++ List.replicate n 'a',
        some 'x', ([] : Caps))] =
      [(lit ("</OPFMessageCopySubject>") ++ List.replicate n 'a',
        some 'x', ([] : Caps))] from by simp]
  rw [List.flatMap_cons, List.flatMap_nil, starGo_succ_eq, if_pos rfl]
  simp only [List.append_nil, List.map_cons, List.flatMap_cons,
    List.map_append, List.flatMap_append, List.map_nil,
    List.flatMap_nil, List.nil_append]
  rw [c5K_fail_x, c5_close_tag n (some 'x')]
  simp only [List.map_nil, List.nil_append, List.map_cons,
    List.cons_append, List.head?_cons, List.length_cons,
    Nat.add_sub_cancel_left, List.take_succ_cons, List.take_zero,
    List.nil_append, List.append_nil, Option.some.injEq]

theorem matchRe_seq_single0 {a : RE} {p : Option Char} {s s' : Str}
    {p' : Option Char} (h : matchRe a p s = [(s', p', [])]) (k : RE) :
    matchRe (.seq a k) p s = matchRe k p' s' := by
  rw [matchRe_seq_eq, h]
  simp

theorem reFindGo_run_some {r : RE} {p : Option Char} {s : Str} {k : Nat}
    {caps : Caps} (h : reRunAt r p s = some (k, caps)) :
    reFindGo r p s = some ([], s.take k, caps, s.drop k) := by
  cases s with
  | nil =>
    delta reFindGo
    dsimp only []
    rw [h]
  | cons c t =>
    delta reFindGo
    dsimp only []
    rw [h]

theorem c5_getTag_head (n : Nat) :
    (matchRe (getTagRe ("OPFMessageCopySubject")) none
      (lit ("<OPFMessageCopySubject>x</OPFMessageCopySubject>") ++
        List.replicate n 'a')).head? =
      some (List.replicate n 'a', some '>', [(1, lit ("x"))]) := by
  rw [show lit ("<OPFMessageCopySubject>x</OPFMessageCopySubject>") ++
      List.replicate n 'a' = '<' :: (("OPFMessageCopySubject").data ++
      ('>' :: ('x' :: (lit ("</OPFMessageCopySubject>") ++
        List.replicate n 'a')))) from rfl,
    show getTagRe ("OPFMessageCopySubject") =
      .seq (rchr '<') (.seq (rcat ((("OPFMessageCopySubject").data).map
          rchri))
        (.seq (.star (clsNotIn (">")) false) (.seq (rchr '>')
          (.seq (.grp 1 (.star clsAll true))
            (rcat [rchr '<', rchr '/', rstri ("OPFMessageCopySubject"),
              rchr '>']))))) from rfl,
    matchRe_seq_chr, matchRe_rstri_self,
    show lastO (("OPFMessageCopySubject").data) (some '<') = some 't'
      from rfl,
    matchRe_seq_single0 (matchRe_star_fail
      (show matchRe (clsNotIn (">")) (some 't')
        ('>' :: ('x' :: (lit ("</OPFMessageCopySubject>") ++
          List.replicate n 'a'))) = [] from rfl) false),
    matchRe_seq_chr]
  exact c5_star_cont n (some '>')

theorem c5_reRunAt (n : Nat) :
    reRunAt (getTagRe ("OPFMessageCopySubject")) none
      (lit ("<OPFMessageCopySubject>x</OPFMessageCopySubject>") ++
        List.replicate n 'a') = some (48, [(1, lit ("x"))]) := by
  rw [reRunAt, c5_getTag_head n, Option.map_some']
  dsimp only []
  rw [List.length_append, List.length_replicate,
    show (lit ("<OPFMessageCopySubject>x</OPFMessageCopySubject>")).length
      = 48 from by decide, Nat.add_sub_cancel]

theorem c5_getTag_val (n : Nat) :
    getTag (lit ("<OPFMessageCopySubject>x</OPFMessageCopySubject>") ++
      List.replicate n 'a') ("OPFMessageCopySubject") = lit ("x") := by
  rw [getTag, reFind, reFindGo_run_some (c5_reRunAt n)]
  show trim ((capGet [(1, lit ("x"))] 1).getD []) = lit ("x")
  decide

/-- C5 counterexample: `OLMParser.parseEmailManually` on a 100048-character
message (a subject tag followed by filler) emits a record whose `size`
field equals the full input length 100048, exceeding the claimed 100000
cap. -/
theorem c5_olm_size_uncapped_cex :
    ∃ e, parseEmailManually c5Xml = some e ∧ e.size = c5Xml.length ∧
      100000 < e.size := by
  rw [show c5Xml =
    lit ("<OPFMessageCopySubject>x</OPFMessageCopySubject>") ++
      List.replicate 100000 'a' from rfl]
  simp only [parseEmailManually]
  rw [c5_getTag_val 100000,
    show jsOr (lit ("x"))
      (getTag (lit ("<OPFMessageCopySubject>x</OPFMessageCopySubject>") ++
        List.replicate 100000 'a') ("subject")) = lit ("x") from rfl]
  rw [if_neg (by
    intro hand
    exact absurd hand.1 (by decide))]
  refine ⟨_, rfl, ?_, ?_⟩
  · rfl
  · show 100000 <
      (lit ("<OPFMessageCopySubject>x</OPFMessageCopySubject>") ++
        List.replicate 100000 'a').length
    rw [List.length_append, List.length_replicate,
      show (lit ("<OPFMessageCopySubject>x</OPFMessageCopySubject>")).length
        = 48 from by decide]
    norm_num


/-- C5 (amended): only the MBOX parser caps the record size at 100000
(`size := min(joined.length, 100000)`); the OLM parser stores the full XML
length uncapped (`size := xmlContent.length`), so its records can exceed
100000 (see the counterexample). -/
theorem c5_size_rules :
    (∀ (lines : List Str) (e : PEmail),
      parseEmailFromLines lines = some e → e.size ≤ 100000) ∧
    (∀ (xml : Str) (e : PEmail),
      parseEmailManually xml = some e → e.size = xml.length) := by
  constructor
  · intro lines e h
    simp only [parseEmailFromLines] at h
    by_cases h2 : lines.length < 2
    · rw [if_pos h2] at h
      exact absurd h (by simp)
    · rw [if_neg h2] at h
      split at h
      · exact absurd h (by simp)
      · rw [Option.some.injEq] at h
        subst h
        exact min_le_right _ _
  · intro xml e h
    simp only [parseEmailManually] at h
    split at h
    · exact absurd h (by simp)
    · rw [Option.some.injEq] at h
      subst h
      rfl

/-- C5 witness: the size rules at a concrete two-line MBOX block and a
concrete small OLM message. -/
theorem c5_size_rules_wit :
    plainTwoLineRec.size ≤ 100000 ∧
    smallOlmRec.size = (lit ("<subject>hi</subject>")).length :=
  ⟨c5_size_rules.1 [lit ("From a Mon"), lit ("X: y")] plainTwoLineRec
      (by decide),
   c5_size_rules.2 (lit ("<subject>hi</subject>")) smallOlmRec (by decide)⟩

end EAP

namespace EAP
theorem trim_rep (M : Nat) :
    trim (List.replicate M 'a') = List.replicate M 'a' := by
  rw [trim, List.dropWhile_replicate, if_neg (by decide),
    List.reverse_replicate, List.dropWhile_replicate, if_neg (by decide),
    List.reverse_replicate]

theorem isPre_From_rep (M : Nat) :
    isPre (lit ("From ")) (List.replicate M 'a') = false := by
  cases M with
  | zero => rfl
  | succ m =>
    rw [List.replicate_succ]
    exact isPre_cons_ne (by decide) _ _

theorem isPre_nlFrom_rep (M : Nat) :
    isPre (lit ("\nFrom ")) (List.replicate M 'a') = false := by
  cases M with
  | zero => rfl
  | succ m =>
    rw [List.replicate_succ]
    exact isPre_cons_ne (by decide) _ _

theorem isFromLine_rep (M : Nat) :
    isFromLine (List.replicate M 'a') = false := by
  rw [isFromLine, isPre_From_rep]
  rfl

theorem crlfGo_rep_aux :
    ∀ M, crlfGo ('a' :: List.replicate M 'a') = 'a' :: List.replicate M 'a' := by
  intro M
  induction M with
  | zero => rfl
  | succ m ih =>
    rw [List.replicate_succ]
    show 'a' :: crlfGo ('a' :: List.replicate m 'a') = _
    rw [ih, ← List.replicate_succ]

theorem crlfGo_rep (M : Nat) :
    crlfGo (List.replicate M 'a') = List.replicate M 'a' := by
  cases M with
  | zero => rfl
  | succ m =>
    rw [List.replicate_succ]
    exact crlfGo_rep_aux m

theorem normalizeNl_c2 (M : Nat) :
    normalizeNl (lit ("From a Mon\nX: y\n\n") ++ List.replicate M 'a') =
      lit ("From a Mon\nX: y\n\n") ++ List.replicate M 'a' := by
  rw [normalizeNl,
    show crlfGo (lit ("From a Mon\nX: y\n\n") ++ List.replicate M 'a') =
      lit ("From a Mon\nX: y\n\n") ++ crlfGo (List.replicate M 'a')
      from rfl,
    crlfGo_rep, List.map_append, List.map_replicate]
  rfl

theorem splitCh_append_no_delim (d : Char) :
    ∀ (a : Str), (∀ c ∈ a, ¬ c = d) → ∀ (b : Str),
      splitCh d (a ++ b) =
        (a ++ (splitCh d b).headD []) :: (splitCh d b).tail := by
  intro a
  induction a with
  | nil =>
    intro _ b
    cases hs : splitCh d b with
    | nil => exact absurd hs (splitCh_ne_nil d b)
    | cons r rs => simp [hs]
  | cons c a' ih =>
    intro h b
    rw [List.cons_append, splitCh_cons_ne d (h c (List.mem_cons_self _ _)),
      ih (fun x hx => h x (List.mem_cons_of_mem _ hx)) b]
    simp

theorem splitCh_rep (M : Nat) :
    splitCh '\n' (List.replicate M 'a') = [List.replicate M 'a'] :=
  splitCh_no_delim '\n' (fun c hc => by
    rw [List.mem_replicate] at hc
    rw [hc.2]
    decide)

theorem splitCh_c2 (M : Nat) :
    splitCh '\n' (lit ("From a Mon\nX: y\n\n") ++ List.replicate M 'a') =
      [lit ("From a Mon"), lit ("X: y"), [], List.replicate M 'a'] := by
  rw [show lit ("From a Mon\nX: y\n\n") ++ List.replicate M 'a' =
      lit ("From a Mon") ++ ('\n' :: (lit ("X: y") ++
        ('\n' :: ('\n' :: List.replicate M 'a')))) from rfl,
    splitCh_append_no_delim '\n' _ (by decide), splitCh_cons_eq,
    splitCh_append_no_delim '\n' _ (by decide), splitCh_cons_eq,
    splitCh_cons_eq, splitCh_rep]
  simp
end EAP

namespace EAP
theorem c2_noNlFrom (M : Nat) :
    ∀ i, isPre (lit ("\nFrom "))
      ((lit ("From a Mon\nX: y\n\n") ++ List.replicate M 'a').drop i) =
      false := by
  intro i
  by_cases hi : i < 17
  · interval_cases i <;> first | rfl | exact isPre_From_rep M
  · rw [List.drop_append_eq_append_drop,
      List.drop_eq_nil_of_le
        (by rw [show (lit ("From a Mon\nX: y\n\n")).length = 17 from by
            decide]; omega),
      List.nil_append, List.drop_replicate]
    exact isPre_nlFrom_rep _

theorem fll_c2 (M : Nat) :
    findLastFromLine (lit ("From a Mon\nX: y\n\n") ++
      List.replicate M 'a') = 0 := by
  rw [findLastFromLine, fllGo_none (lastIdxAux_none (c2_noNlFrom M))]
  simp only []
  have h1 : isPre (lit ("From "))
      (lit ("From a Mon\nX: y\n\n") ++ List.replicate M 'a') = true :=
    isPre_append_left (by decide) _
  rw [if_pos h1]
  have h2 : idxOfCh '\n'
      (lit ("From a Mon\nX: y\n\n") ++ List.replicate M 'a') = some 10 :=
    idxOfCh_some_append (by decide) _
  rw [h2, Option.getD_some]
  have h3 : (lit ("From a Mon\nX: y\n\n") ++
      List.replicate M 'a').take 10 = lit ("From a Mon") := by
    rw [List.take_append_eq_append_take,
      show 10 - (lit ("From a Mon\nX: y\n\n")).length = 0 from by decide,
      List.take_zero, List.append_nil,
      show (lit ("From a Mon\nX: y\n\n")).take 10 = lit ("From a Mon")
        from by decide]
  rw [h3]
  decide

theorem headerLoop_c2 (M : Nat) :
    headerLoop [lit ("X: y"), [], List.replicate M 'a'] [] =
      ([(lit ("x"), lit ("y"))], [List.replicate M 'a']) := by
  rw [headerLoop,
    if_neg (show ¬ (trim (lit ("X: y"))).isEmpty = true from by decide),
    if_neg (show ¬ (headWs (lit ("X: y")) = true ∧ ([] : AList Str) ≠ [])
      from by simp),
    show parseHeaderLine (lit ("X: y")) = some (lit ("x"), lit ("y"))
      from by decide]
  rw [headerLoop, if_pos (show (trim ([] : Str)).isEmpty = true from rfl)]
  rfl

theorem parseC2Lines (m : Nat) :
    ∃ e, parseEmailFromLines [lit ("From a Mon"), lit ("X: y"), [],
        List.replicate (m + 1) 'a'] = some e ∧
      e.body = List.replicate (m + 1) 'a' := by
  simp only [parseEmailFromLines]
  rw [if_neg (show ¬ ([lit ("From a Mon"), lit ("X: y"), [],
      List.replicate (m + 1) 'a'].length < 2) from by simp)]
  rw [show List.drop 1 [lit ("From a Mon"), lit ("X: y"), [],
      List.replicate (m + 1) 'a'] =
      [lit ("X: y"), [], List.replicate (m + 1) 'a'] from rfl]
  rw [headerLoop_c2]
  rw [show (([(lit ("x"), lit ("y"))], [List.replicate (m + 1) 'a']) :
      AList Str × List Str).1 = [(lit ("x"), lit ("y"))] from rfl,
    show (([(lit ("x"), lit ("y"))], [List.replicate (m + 1) 'a']) :
      AList Str × List Str).2 = [List.replicate (m + 1) 'a'] from rfl]
  rw [show alGet [(lit ("x"), lit ("y"))] (lit ("content-type")) = none
      from by decide,
    show alGet [(lit ("x"), lit ("y"))]
      (lit ("content-transfer-encoding")) = none from by decide,
    show alGet [(lit ("x"), lit ("y"))] (lit ("date")) = none from by decide,
    show alGet [(lit ("x"), lit ("y"))] (lit ("from")) = none from by decide,
    show alGet [(lit ("x"), lit ("y"))] (lit ("to")) = none from by decide,
    show alGet [(lit ("x"), lit ("y"))] (lit ("subject")) = none
      from by decide,
    show alGet [(lit ("x"), lit ("y"))] (lit ("x-gm-thrid")) = none
      from by decide,
    show alGet [(lit ("x"), lit ("y"))] (lit ("thread-topic")) = none
      from by decide,
    show alGet [(lit ("x"), lit ("y"))] (lit ("references")) = none
      from by decide,
    show alGet [(lit ("x"), lit ("y"))] (lit ("in-reply-to")) = none
      from by decide,
    show alGet [(lit ("x"), lit ("y"))] (lit ("x-gmail-labels")) = none
      from by decide]
  simp only [Option.getD_none, Option.map_none, Option.map_none',
    intercalate_singleton]
  rw [if_neg (show ¬ containsSub (lit ("multipart/"))
      (jsOr [] (lit ("text/plain"))) = true from by decide)]
  rw [if_neg (show ¬ (none : Option Str) = some (lit ("quoted-printable"))
      from by simp)]
  rw [if_neg (show ¬ (none : Option Str) = some (lit ("base64"))
      from by simp)]
  rw [if_neg (show ¬ containsSub (lit ("text/html"))
      (jsOr [] (lit ("text/plain"))) = true from by decide)]
  rw [show jsOr [] (lit ("(No Subject)")) = lit ("(No Subject)") from rfl,
    show decodeHeaderValue (lit ("(No Subject)")) = lit ("(No Subject)")
      from by decide,
    show parseEmailAddress [] = ([], none) from by decide,
    show parseRecipients [] = [] from rfl]
  rw [show jsOrOpt none (jsOrOpt none (jsOrOpt none none)) =
      (none : Option Str) from rfl]
  rw [if_neg (show ¬ truthy (none : Option Str) = true from by decide)]
  rw [show normalizeSubject (lit ("(No Subject)")) = lit ("(no subject)")
      from by decide]
  rw [if_pos (show (!(lit ("(no subject)")).isEmpty) = true from by decide)]
  rw [if_neg (by decide)]
  refine ⟨_, rfl, ?_⟩
  show jsOr (trim (List.replicate (m + 1) 'a')) [] =
    List.replicate (m + 1) 'a'
  rw [trim_rep, List.replicate_succ]
  rfl
end EAP

namespace EAP
theorem parseLoop_c2 (m : Nat) :
    ∃ e, parseLoop [lit ("From a Mon"), lit ("X: y"), [],
        List.replicate (m + 1) 'a'] [] = [e] ∧
      e.body = List.replicate (m + 1) 'a' := by
  rw [parseLoop,
    if_neg (show ¬ (isFromLine (lit ("From a Mon")) = true ∧
      List.length ([] : List Str) > 0) from by simp)]
  rw [parseLoop,
    if_neg (show ¬ (isFromLine (lit ("X: y")) = true ∧
      (([] : List Str) ++ [lit ("From a Mon")]).length > 0) from
      fun h => absurd h.1 (by decide))]
  rw [parseLoop,
    if_neg (show ¬ (isFromLine [] = true ∧
      ((([] : List Str) ++ [lit ("From a Mon")]) ++
        [lit ("X: y")]).length > 0) from fun h => absurd h.1 (by decide))]
  rw [parseLoop,
    if_neg (fun h => absurd (isFromLine_rep (m + 1) ▸ h.1) (by decide))]
  rw [show ((((([] : List Str) ++ [lit ("From a Mon")]) ++
      [lit ("X: y")]) ++ [[]]) ++ [List.replicate (m + 1) 'a']) =
      [lit ("From a Mon"), lit ("X: y"), [], List.replicate (m + 1) 'a']
      from by simp]
  have hany : ([lit ("From a Mon"), lit ("X: y"), [],
      List.replicate (m + 1) 'a'].any fun l => !(trim l).isEmpty) =
      true := rfl
  rw [parseLoop, if_pos (And.intro (by simp) hany)]
  obtain ⟨e, he, hb⟩ := parseC2Lines m
  rw [he]
  exact ⟨e, rfl, hb⟩

theorem mboxParse_c2 (m : Nat) :
    ∃ e, mboxParse (lit ("From a Mon\nX: y\n\n") ++
        List.replicate (m + 1) 'a') = [e] ∧
      e.body = List.replicate (m + 1) 'a' := by
  rw [mboxParse, normalizeNl_c2, splitCh_c2]
  exact parseLoop_c2 m

theorem pemText_c2 (m : Nat) :
    ∃ e, parseEmailsFromText (lit ("From a Mon\nX: y\n\n") ++
        List.replicate (m + 1) 'a') = [e] ∧
      e.body = List.replicate (m + 1) 'a' := by
  rw [parseEmailsFromText, normalizeNl_c2, splitCh_c2,
    pemLoop_eq_parseLoop]
  exact parseLoop_c2 m
end EAP

namespace EAP
theorem c2_len : c2File.length = 5242897 := by
  rw [c2File, List.length_append, List.length_replicate,
    show (lit ("From a Mon\nX: y\n\n")).length = 17 from by decide]

theorem c2_len2 :
    (lit ("From a Mon\nX: y\n\n") ++
      List.replicate 5242880 'a').length = 5242897 := by
  rw [List.length_append, List.length_replicate,
    show (lit ("From a Mon\nX: y\n\n")).length = 17 from by decide]

theorem streaming_c2 :
    ∃ e, parseStreamingConcat c2File = [e] ∧
      e.body = List.replicate 5242863 'a' := by
  rw [parseStreamingConcat, c2_len, streamGo]
  simp only []
  rw [c2_len, CHUNK]
  rw [if_pos (show 0 < 5242897 from by norm_num)]
  rw [show min (0 + 5242880) 5242897 = 5242880 from by norm_num,
    show (5242880 - 0 : Nat) = 5242880 from by norm_num,
    List.drop_zero, c2File, List.take_append_eq_append_take,
    List.take_of_length_le (show (lit ("From a Mon\nX: y\n\n")).length ≤
      5242880 from by rw [show (lit ("From a Mon\nX: y\n\n")).length = 17
        from by decide]; norm_num),
    show 5242880 - (lit ("From a Mon\nX: y\n\n")).length = 5242863 from by
      rw [show (lit ("From a Mon\nX: y\n\n")).length = 17 from by decide],
    List.take_replicate,
    show min 5242863 5242880 = 5242863 from by norm_num,
    List.nil_append, fll_c2]
  rw [if_neg (show ¬ ((0 : Int) > 0 ∧ 5242880 < 5242897) from
    fun h => absurd h.1 (by norm_num))]
  simp only []
  obtain ⟨e, he, hb⟩ := pemText_c2 5242862
  have he2 : parseEmailsFromText (lit ("From a Mon\nX: y\n\n") ++
      List.replicate 5242863 'a') = [e] := by
    rw [show (5242863 : Nat) = 5242862 + 1 from by norm_num]
    exact he
  have hb2 : e.body = List.replicate 5242863 'a' := by
    rw [show (5242863 : Nat) = 5242862 + 1 from by norm_num]
    exact hb
  rw [he2]
  rw [show (5242897 : Nat) = 5242896 + 1 from by norm_num, streamGo]
  simp only []
  rw [c2_len2]
  rw [if_pos (show 5242880 < 5242897 from by norm_num)]
  rw [CHUNK, show min (5242880 + 5242880) 5242897 = 5242897 from by
      norm_num,
    show (5242897 - 5242880 : Nat) = 17 from by norm_num,
    List.drop_append_eq_append_drop,
    List.drop_eq_nil_of_le (show (lit ("From a Mon\nX: y\n\n")).length ≤
      5242880 from by rw [show (lit ("From a Mon\nX: y\n\n")).length = 17
        from by decide]; norm_num),
    show 5242880 - (lit ("From a Mon\nX: y\n\n")).length = 5242863 from by
      rw [show (lit ("From a Mon\nX: y\n\n")).length = 17 from by decide],
    List.drop_replicate,
    show (5242880 - 5242863 : Nat) = 17 from by norm_num]
  rw [List.nil_append]
  rw [List.nil_append]
  rw [List.take_replicate, show min 17 17 = 17 from by norm_num,
    show findLastFromLine (List.replicate 17 'a') = -1 from by decide]
  rw [if_neg (show ¬ ((-1 : Int) > 0 ∧ 5242897 < 5242897) from
    fun h => absurd h.1 (by norm_num))]
  simp only []
  rw [show parseEmailsFromText (List.replicate 17 'a') = [] from by decide]
  rw [show (5242896 : Nat) = 5242895 + 1 from by norm_num, streamGo]
  simp only []
  rw [c2_len2]
  rw [if_neg (show ¬ (5242897 < 5242897) from by norm_num)]
  rw [if_neg (show ¬ (!(trim ([] : Str)).isEmpty) = true from by decide)]
  exact ⟨e, by simp, hb2⟩
end EAP

namespace EAP
/-- C2 counterexample: on the 5,242,897-character file `c2File` (a 17
character header block followed by one body line of 5,242,880 letters
`a`) the non-streaming `parse` returns one record whose body is the full
5,242,880-character line, while the streaming path cuts the first 5 MiB
chunk 17 characters into the body line, finds no `From ` separator in
the chunk, flushes it whole, and returns one record whose body holds
only 5,242,863 characters — the two paths produce different records. -/
theorem c2_streaming_differs_cex :
    ∃ e1 e2, mboxParse c2File = [e1] ∧
      parseStreamingConcat c2File = [e2] ∧
      e1.body = List.replicate 5242880 'a' ∧
      e2.body = List.replicate 5242863 'a' ∧
      mboxParse c2File ≠ parseStreamingConcat c2File := by
  obtain ⟨e1, h1, hb1⟩ := mboxParse_c2 5242879
  have h1c : mboxParse c2File = [e1] := by
    rw [c2File, show (5242880 : Nat) = 5242879 + 1 from by norm_num]
    exact h1
  have hb1c : e1.body = List.replicate 5242880 'a' := by
    rw [show (5242880 : Nat) = 5242879 + 1 from by norm_num]
    exact hb1
  obtain ⟨e2, h2, hb2⟩ := streaming_c2
  refine ⟨e1, e2, h1c, h2, hb1c, hb2, ?_⟩
  intro hEq
  rw [h1c, h2] at hEq
  have he : e1 = e2 := by injection hEq
  have hbb : List.replicate 5242880 'a' = List.replicate 5242863 'a' := by
    rw [← hb1c, ← hb2, he]
  have hlen := congrArg List.length hbb
  rw [List.length_replicate, List.length_replicate] at hlen
  exact absurd hlen (by norm_num)

/-- C2 (amended): the streaming parser agrees with the non-streaming
parser on every file of at most `CHUNK_SIZE` (5 MiB) characters — the
whole file fits in the first chunk, which is flushed unsplit and parsed
by the same line loop.  (For larger files the two can disagree, see the
counterexample.) -/
theorem c2_single_chunk_agrees (file : Str) (h : file.length ≤ CHUNK) :
    parseStreamingConcat file = mboxParse file := by
  rcases Nat.eq_zero_or_pos file.length with h0 | h0
  · have hf : file = [] := List.eq_nil_of_length_eq_zero h0
    subst hf
    rfl
  · obtain ⟨n, hn⟩ : ∃ n, file.length = n + 1 :=
      ⟨file.length - 1, by omega⟩
    rw [parseStreamingConcat, hn, streamGo]
    simp only []
    rw [hn]
    rw [if_pos (show 0 < n + 1 from by omega)]
    rw [show min (0 + CHUNK) (n + 1) = n + 1 from by
      rw [Nat.zero_add]; exact min_eq_right (hn ▸ h)]
    rw [show (n + 1 - 0 : Nat) = n + 1 from rfl, List.drop_zero,
      show List.take (n + 1) file = file from by
        rw [← hn]; exact List.take_length file]
    rw [List.nil_append]
    rw [if_neg (show ¬ (findLastFromLine file > 0 ∧ n + 1 < n + 1) from
      fun hc => absurd hc.2 (by omega))]
    simp only []
    rw [streamGo]
    simp only []
    rw [hn]
    rw [if_neg (show ¬ (n + 1 < n + 1) from by omega)]
    rw [if_neg (show ¬ (!(trim ([] : Str)).isEmpty) = true from by decide)]
    rw [List.append_nil]
    rw [mboxParse, parseEmailsFromText, pemLoop_eq_parseLoop]

/-- C2 witness: on the 41-character single-message MBOX file `smallMbox`
(below the chunk size) the streaming and non-streaming parsers agree. -/
theorem c2_single_chunk_agrees_wit :
    smallMbox.length ≤ CHUNK ∧
    parseStreamingConcat smallMbox = mboxParse smallMbox :=
  ⟨by decide, c2_single_chunk_agrees smallMbox (by decide)⟩
end EAP
